import Mathlib

/-!
# Quantum Encryption Device (QED): key store and cipher engine

A shallow embedding of `src/src/quantum_core.c`, `src/src/quantum_crypto.c` and
`src/src/quantum_file_ops.c` (with the constants and types of
`quantum_encryption.h`).

Conventions of the embedding.

* A byte is a natural number below 256; a buffer is a `List Nat`.
* A C string (`const char *key_id`, `quantum_noise`) is the list of its bytes
  before the terminating NUL.  The `char key_id[256]` field of a key slot is
  carried as its string content: `strncpy(.., QED_MAX_KEY_ID_LENGTH - 1)`
  followed by the store of the final NUL leaves the first 255 bytes of the
  argument and zero padding, and `strcmp` only reads up to the first NUL.
* A `double` that is stored (`cpu_frequency`) is carried as its IEEE-754 bit
  pattern.  A double that is computed with is the number
  `mantissa * 2 ^ exponent` (`double`); `+`, `*`, `/` and the conversions from
  integers round to the nearest double, ties to even, one operation at a time
  (binary64 arithmetic without contraction).  Overflow, underflow to
  subnormal numbers, infinities and NaN are not modelled: the operands of
  `qed_generate_hardware_resonance` stay far from them for the frequencies and
  lengths a machine has.
* SHA-256, `sin`, the text `"%.6f"` prints, the random generator and the
  OpenSSL AES-256-CBC calls are library code and are parameters of the model
  (`Primitives`, and the drawn IV).
* `malloc` and the OpenSSL context allocations are taken to succeed, pointer
  arguments to be non-NULL, and buffer lengths to fit the `int` length
  parameters of the `EVP_*` calls.
* A function that mutates `*device` returns the new device next to its result
  code and to the bytes it wrote through its output pointer (`none` when it
  wrote nothing).  What is printed on standard output is not modelled.
* A path is the list of its bytes.  The file system is a value (`file_system`)
  that the file operations read and return; a stream that `fopen` opened is
  read or written in full by the one `fread` or `fwrite` that follows.
-/

namespace QED

/-! ## Constants and types (`quantum_encryption.h`) -/

def QED_KEY_LENGTH : Nat := 32
def QED_SIGNATURE_LENGTH : Nat := 32
def QED_QUANTUM_NOISE_LENGTH : Nat := 64
def QED_MAX_KEY_ID_LENGTH : Nat := 256
def QED_MAX_KEYS : Nat := 1024

/-- Result codes of `qed_result_t` (0, -1, ..., -9 in this order). -/
inductive qed_result_t where
  | QED_SUCCESS
  | QED_ERROR_MEMORY
  | QED_ERROR_FILE_IO
  | QED_ERROR_HARDWARE
  | QED_ERROR_ENCRYPTION
  | QED_ERROR_DECRYPTION
  | QED_ERROR_SIGNATURE_MISMATCH
  | QED_ERROR_KEY_NOT_FOUND
  | QED_ERROR_INVALID_INPUT
  | QED_ERROR_KEY_LIMIT_REACHED
  deriving DecidableEq, Repr

open qed_result_t

/-- The `int` value of a result code in `quantum_encryption.h`. -/
def qed_result_t.value : qed_result_t → Int
  | QED_SUCCESS => 0
  | QED_ERROR_MEMORY => -1
  | QED_ERROR_FILE_IO => -2
  | QED_ERROR_HARDWARE => -3
  | QED_ERROR_ENCRYPTION => -4
  | QED_ERROR_DECRYPTION => -5
  | QED_ERROR_SIGNATURE_MISMATCH => -6
  | QED_ERROR_KEY_NOT_FOUND => -7
  | QED_ERROR_INVALID_INPUT => -8
  | QED_ERROR_KEY_LIMIT_REACHED => -9

/-- Hardware signature `qed_hardware_sig_t`; `quantum_noise` is the string
content of the 65-byte buffer. -/
structure qed_hardware_sig_t where
  cpu_frequency : Nat
  ram_total : Nat
  ram_available : Nat
  ram_signature : Nat
  quantum_noise : List Nat
  deriving DecidableEq, Repr

/-- Key slot `qed_quantum_key_t`. -/
structure qed_quantum_key_t where
  key_id : List Nat
  key_data : List Nat
  in_use : Bool
  deriving DecidableEq, Repr

/-- Device `qed_device_t`; `quantum_keys` is the 1024-slot array. -/
structure qed_device_t where
  hardware_sig : qed_hardware_sig_t
  quantum_keys : List qed_quantum_key_t
  key_count : Nat
  initialized : Bool
  deriving DecidableEq, Repr

/-! ## Double arithmetic -/

/-- A finite double: the number `mantissa * 2 ^ exponent`.  Every double the
operations below return has an odd mantissa, or is `0 * 2 ^ 0`. -/
structure double where
  mantissa : Int
  exponent : Int
  deriving DecidableEq, Repr

/-- The loop of `bit_length`, with fuel. -/
def bit_length_loop : Nat → Nat → Nat
  | 0, _ => 0
  | fuel + 1, n => if n = 0 then 0 else 1 + bit_length_loop fuel (n / 2)

/-- The number of binary digits of `n`. -/
def bit_length (n : Nat) : Nat := bit_length_loop n n

/-- The number of trailing zero bits of a non-zero `n`, with fuel. -/
def trailing_zeros_loop : Nat → Nat → Nat
  | 0, _ => 0
  | fuel + 1, n => if n % 2 = 1 then 0 else 1 + trailing_zeros_loop fuel (n / 2)

/-- The number `m * 2 ^ e` with an odd mantissa (zero as `0 * 2 ^ 0`). -/
def double.normal (m e : Int) : double :=
  if m = 0 then ⟨0, 0⟩
  else
    let z := trailing_zeros_loop m.natAbs m.natAbs
    ⟨m / ((2 ^ z : Nat) : Int), e + z⟩

/-- The double nearest to `m * 2 ^ e`: 53 significant bits, ties to even. -/
def round_double (m e : Int) : double :=
  let a := m.natAbs
  let n := bit_length a
  if n ≤ 53 then double.normal m e
  else
    let s := n - 53
    let q := a / 2 ^ s
    let r := a % 2 ^ s
    let half := 2 ^ (s - 1)
    let q1 := if r > half ∨ (r = half ∧ q % 2 = 1) then q + 1 else q
    double.normal (if m < 0 then -(q1 : Int) else (q1 : Int)) (e + s)

/-- The double nearest to `n / d * 2 ^ e`, for `d > 0`. -/
def round_quotient (n : Int) (d : Nat) (e : Int) : double :=
  let k := 64 + bit_length d
  let num := n.natAbs * 2 ^ k
  let q := num / d
  let sticky := if num % d = 0 then 0 else 1
  let m : Int := ((2 * q + sticky : Nat) : Int)
  round_double (if n < 0 then -m else m) (e - k - 1)

/-- The conversion of an integer to `double`. -/
def double.ofInt (n : Int) : double := round_double n 0

/-- The product `x * y` of two doubles. -/
def double.mul (x y : double) : double :=
  round_double (x.mantissa * y.mantissa) (x.exponent + y.exponent)

/-- The sum `x + y` of two doubles. -/
def double.add (x y : double) : double :=
  let e := min x.exponent y.exponent
  round_double
    (x.mantissa * ((2 ^ (x.exponent - e).toNat : Nat) : Int) +
      y.mantissa * ((2 ^ (y.exponent - e).toNat : Nat) : Int)) e

/-- The quotient `x / y` of two doubles, `y` not zero. -/
def double.div (x y : double) : double :=
  if y.mantissa < 0 then round_quotient (-x.mantissa) y.mantissa.natAbs (x.exponent - y.exponent)
  else round_quotient x.mantissa y.mantissa.natAbs (x.exponent - y.exponent)

/-- The double with a given IEEE-754 bit pattern: sign, 11 exponent bits, 52
fraction bits (an exponent field of 2047, infinity or NaN, is not modelled). -/
def double_of_bits (bits : Nat) : double :=
  let sign : Nat := bits / 2 ^ 63 % 2
  let ex : Nat := bits / 2 ^ 52 % 2048
  let frac : Nat := bits % 2 ^ 52
  let m : Int := if ex = 0 then (frac : Int) else ((2 ^ 52 + frac : Nat) : Int)
  let e : Int := if ex = 0 then -1074 else (ex : Int) - 1075
  double.normal (if sign = 1 then -m else m) e

/-- The constant `M_PI` of `math.h`, `3.14159265358979323846` as a double. -/
def M_PI : double := round_quotient 314159265358979323846 (10 ^ 20) 0

/-- The rational number a double stands for. -/
def double.value (x : double) : ℚ := x.mantissa * (2 : ℚ) ^ x.exponent

def QED_RESONANCE_BASE : Nat := 1174000

/-- The macro `QED_MASS_INCREASE`: the literal `0.17` as a double. -/
def QED_MASS_INCREASE : double := round_quotient 17 100 0

/-- Library code the sources call: `SHA256` (also reached through the EVP
digest interface); `printf_f6`, the text `"%.6f"` prints for the double with
the given bits; `sin` of `math.h`; and AES-256-CBC with padding
(`EVP_EncryptInit_ex / Update / Final_ex` and the decrypting counterparts,
`none` when one of the calls does not return 1), each as a function of key,
IV and input. -/
structure Primitives where
  SHA256 : List Nat → List Nat
  printf_f6 : Nat → List Nat
  sin : double → double
  aes_256_cbc_encrypt : List Nat → List Nat → List Nat → Option (List Nat)
  aes_256_cbc_decrypt : List Nat → List Nat → List Nat → Option (List Nat)

/-- What a call returns: the result code, the bytes written through the output
pointer, and the device after the call. -/
structure qed_outcome where
  result : qed_result_t
  out : Option (List Nat)
  device : qed_device_t
  deriving DecidableEq, Repr

/-- The C types of the device fields: 1024 slots, 32 key bytes per slot, an
identifier string of at most 255 bytes per slot, a noise string of at most 64
bytes. -/
def qed_device_t.WellTyped (device : qed_device_t) : Prop :=
  device.quantum_keys.length = QED_MAX_KEYS ∧
  device.hardware_sig.quantum_noise.length ≤ QED_QUANTUM_NOISE_LENGTH ∧
  ∀ k ∈ device.quantum_keys,
    k.key_data.length = QED_KEY_LENGTH ∧ k.key_id.length ≤ QED_MAX_KEY_ID_LENGTH - 1

/-! ## `quantum_core.c` -/

/-- The table `error_strings` of `quantum_core.c`; the string literals are
carried as `String`. -/
def error_strings : List String :=
  ["Success", "Memory allocation error", "File I/O error", "Hardware detection error",
    "Encryption error", "Decryption error", "Signature mismatch", "Key not found",
    "Invalid input", "Key limit reached"]

/-- Function `qed_get_error_string` on the `int` value of its argument; `none`
stands for a read outside `error_strings`. -/
def qed_get_error_string (result : Int) : Option String :=
  if result ≥ 0 ∨ result < -9 then some "Unknown error"
  else error_strings[(-result).toNat]?

/-- A slot after `qed_secure_zero(&slot, sizeof(qed_quantum_key_t))`. -/
def zero_key : qed_quantum_key_t :=
  { key_id := [], key_data := List.replicate QED_KEY_LENGTH 0, in_use := false }

/-- The device after `memset(device, 0, sizeof(qed_device_t))`. -/
def zero_device : qed_device_t :=
  { hardware_sig :=
      { cpu_frequency := 0, ram_total := 0, ram_available := 0, ram_signature := 0,
        quantum_noise := [] },
    quantum_keys := List.replicate QED_MAX_KEYS zero_key,
    key_count := 0,
    initialized := false }

/-- The text `"%lu"`, `"%u"` and `"%d"` print for a non-negative value: its
decimal digits as ASCII bytes. -/
def decimal (n : Nat) : List Nat :=
  (Nat.toDigits 10 n).map Char.toNat

/-- Function `qed_detect_cpu_frequency`; `cpu_mhz` is `freq * 1e6` for the first
`cpu MHz` line of `/proc/cpuinfo` with `freq > 0` (`none` when the file cannot
be opened or has no such line).  The fallback is the double `2.4e9`. -/
def qed_detect_cpu_frequency (cpu_mhz : Option Nat) : qed_result_t × Nat :=
  match cpu_mhz with
  | some f => (QED_SUCCESS, f)
  | none => (QED_SUCCESS, 0x41E1E1A300000000)

/-- Function `qed_detect_ram_signature`; `info` is `(totalram, freeram)` as
filled in by `sysinfo` (`none` when `sysinfo` fails). -/
def qed_detect_ram_signature (prim : Primitives) (info : Option (Nat × Nat))
    (hw_sig : qed_hardware_sig_t) : qed_result_t × qed_hardware_sig_t :=
  match info with
  | none => (QED_ERROR_HARDWARE, hw_sig)
  | some (totalram, freeram) =>
      let signature_input := decimal totalram ++ decimal freeram
      let hash := prim.SHA256 signature_input
      let ram_signature :=
        (((hash.getD 0 0) <<< 24) ||| ((hash.getD 1 0) <<< 16) |||
          ((hash.getD 2 0) <<< 8) ||| (hash.getD 3 0)) % 2 ^ 32
      (QED_SUCCESS,
        { hw_sig with
          ram_total := totalram,
          ram_available := freeram,
          ram_signature := ram_signature % 1000000 })

/-- The loop of `qed_measure_quantum_noise` over the remaining hash bytes:
`snprintf(noise + strlen(noise), 64 - strlen(noise), "%d", byte_val)` stores at
most `64 - strlen(noise) - 1` characters before its NUL, and the loop leaves
once `strlen(noise) >= 64`. -/
def quantum_noise_loop : List Nat → List Nat → List Nat
  | [], noise => noise
  | b :: bs, noise =>
      let byte_val := b % 256
      let noise1 :=
        noise ++ (decimal byte_val).take (QED_QUANTUM_NOISE_LENGTH - noise.length - 1)
      if noise1.length ≥ QED_QUANTUM_NOISE_LENGTH then noise1
      else quantum_noise_loop bs noise1

/-- Function `qed_measure_quantum_noise`. -/
def qed_measure_quantum_noise (prim : Primitives) (hw_sig : qed_hardware_sig_t) :
    qed_result_t × qed_hardware_sig_t :=
  let seed_input := prim.printf_f6 hw_sig.cpu_frequency ++ decimal hw_sig.ram_signature
  let hash := prim.SHA256 seed_input
  let noise := quantum_noise_loop (hash.take (min 32 QED_QUANTUM_NOISE_LENGTH))
    hw_sig.quantum_noise
  (QED_SUCCESS, { hw_sig with quantum_noise := noise.take QED_QUANTUM_NOISE_LENGTH })

/-- Function `qed_init`: the device it leaves in `*device`, whatever was there
before. -/
def qed_init (prim : Primitives) (cpu_mhz : Option Nat) (info : Option (Nat × Nat)) :
    qed_outcome :=
  let device := zero_device
  let c := qed_detect_cpu_frequency cpu_mhz
  if c.1 ≠ QED_SUCCESS then ⟨c.1, none, device⟩
  else
    let device := { device with hardware_sig := { device.hardware_sig with cpu_frequency := c.2 } }
    let r := qed_detect_ram_signature prim info device.hardware_sig
    if r.1 ≠ QED_SUCCESS then ⟨r.1, none, { device with hardware_sig := r.2 }⟩
    else
      let device := { device with hardware_sig := r.2 }
      let n := qed_measure_quantum_noise prim device.hardware_sig
      if n.1 ≠ QED_SUCCESS then ⟨n.1, none, { device with hardware_sig := n.2 }⟩
      else ⟨QED_SUCCESS, none, { device with hardware_sig := n.2, initialized := true }⟩

/-- The call `memcpy(dst, src, n)` on a destination buffer that is at least
`n` bytes long: the first `n` bytes of `src`, then the old tail of `dst`. -/
def memcpy (dst src : List Nat) (n : Nat) : List Nat :=
  src.take n ++ dst.drop n

/-- The test `quantum_keys[i].in_use && strcmp(quantum_keys[i].key_id, key_id) == 0`. -/
def key_matches (key_id : List Nat) (k : qed_quantum_key_t) : Bool :=
  k.in_use && (k.key_id == key_id)

/-- The lookup loop `for (i = 0; i < key_count; i++)` of
`qed_generate_quantum_key` and `qed_quantum_wipe`: the first index below
`key_count` whose slot passes `key_matches`. -/
def find_key : List qed_quantum_key_t → Nat → List Nat → Option Nat
  | [], _, _ => none
  | _ :: _, 0, _ => none
  | k :: ks, n + 1, key_id =>
      if key_matches key_id k then some 0 else (find_key ks n key_id).map (· + 1)

/-- The C cast `(int)x` of a double within the range of `int`: truncation
toward zero. -/
def int_cast (x : double) : Int :=
  if x.exponent ≥ 0 then x.mantissa * ((2 ^ x.exponent.toNat : Nat) : Int)
  else Int.tdiv x.mantissa ((2 ^ (-x.exponent).toNat : Nat) : Int)

/-- The double `resonance * 128 + 128 + quantum_bit` that iteration `i` of the
loop of `qed_generate_hardware_resonance` hands to the `int` cast.
`quantum_bit` is `quantum_noise[i % strlen(quantum_noise)] - '0'`; with an
empty noise string the C expression `i % strlen(quantum_noise)` divides by
zero; `qed_init` leaves at least one digit per hash byte, and the model reads
index `i` of the empty string, that is 0, in that case. -/
def resonance_sum (prim : Primitives) (hw_sig : qed_hardware_sig_t) (length i : Nat) :
    double :=
  -- Fixed time based on RAM signature for consistency
  let fixed_t := double.div (double.ofInt hw_sig.ram_signature) (double.ofInt 1000000000)
  let xi := double.div (double.ofInt i) (double.ofInt length)
  -- Generate resonance using the formula from the Python version
  let resonance :=
    prim.sin
      (double.div
        (double.mul
          (double.mul (double.mul (double.ofInt 2) M_PI) (double.ofInt QED_RESONANCE_BASE)) xi)
        (double.ofInt 1000000))
  let resonance :=
    double.mul resonance
      (double.add (double.ofInt 1)
        (double.mul QED_MASS_INCREASE
          (prim.sin
            (double.div
              (double.mul
                (double.mul (double.mul (double.ofInt 2) M_PI)
                  (double_of_bits hw_sig.cpu_frequency))
                fixed_t)
              (double.ofInt 1000000000)))))
  -- Add quantum noise
  let quantum_bit :=
    double.ofInt ((hw_sig.quantum_noise.getD (i % hw_sig.quantum_noise.length) 0 : Nat) - 48)
  -- Calculate final resonance value
  double.add (double.add (double.mul resonance (double.ofInt 128)) (double.ofInt 128))
    quantum_bit

/-- Function `qed_generate_hardware_resonance`: byte `i` is
`(uint8_t)((int)(resonance * 128 + 128 + quantum_bit) % 256)`; `%` is the C
remainder (`Int.tmod`) and the cast to `uint8_t` reduces modulo 256. -/
def qed_generate_hardware_resonance (prim : Primitives) (hw_sig : qed_hardware_sig_t)
    (length : Nat) : qed_result_t × List Nat :=
  if length = 0 then (QED_ERROR_INVALID_INPUT, [])
  else
    (QED_SUCCESS,
      (List.range length).map fun i =>
        let resonance_value : Int :=
          Int.tmod (int_cast (resonance_sum prim hw_sig length i)) 256
        (resonance_value % 256).toNat)

/-- Function `qed_generate_quantum_key`.  The result carries the bytes copied
to `key_out`, `min(key_length, 32)` of them.  The model is the C function for
`key_length * 2 + strlen(quantum_noise) <= 1024`, the size of `hash_input`:
beyond it the C code writes past that buffer (and `key_length * 2` wraps at
`2 ^ 63`), which the model does not follow.  The cipher engine only asks for 32
bytes. -/
def qed_generate_quantum_key (prim : Primitives) (device : qed_device_t)
    (key_id : List Nat) (key_length : Nat) : qed_outcome :=
  if key_length = 0 then ⟨QED_ERROR_INVALID_INPUT, none, device⟩
  else if !device.initialized then ⟨QED_ERROR_HARDWARE, none, device⟩
  else
    match find_key device.quantum_keys device.key_count key_id with
    | some i =>
        -- Key exists, return it
        ⟨QED_SUCCESS,
          some ((device.quantum_keys.getD i zero_key).key_data.take
            (if key_length > QED_KEY_LENGTH then QED_KEY_LENGTH else key_length)),
          device⟩
    | none =>
        if device.key_count ≥ QED_MAX_KEYS then ⟨QED_ERROR_KEY_LIMIT_REACHED, none, device⟩
        else
          let r := qed_generate_hardware_resonance prim device.hardware_sig (key_length * 2)
          if r.1 ≠ QED_SUCCESS then ⟨r.1, none, device⟩
          else
            let raw_key := r.2
            let hash_input := raw_key ++ device.hardware_sig.quantum_noise
            let final_hash := prim.SHA256 hash_input
            let key_index := device.key_count
            let copy_len := if key_length > QED_KEY_LENGTH then QED_KEY_LENGTH else key_length
            let old := device.quantum_keys.getD key_index zero_key
            let slot : qed_quantum_key_t :=
              { key_id := key_id.take (QED_MAX_KEY_ID_LENGTH - 1),
                key_data := memcpy old.key_data final_hash copy_len,
                in_use := true }
            ⟨QED_SUCCESS, some (final_hash.take copy_len),
              { device with
                quantum_keys := device.quantum_keys.set key_index slot,
                key_count := device.key_count + 1 }⟩

/-- The digest `SHA256(raw_key || quantum_noise)` that a new derivation at
`key_length` computes from the hardware signature. -/
def final_hash (prim : Primitives) (hw_sig : qed_hardware_sig_t) (key_length : Nat) : List Nat :=
  prim.SHA256
    ((qed_generate_hardware_resonance prim hw_sig (key_length * 2)).2 ++ hw_sig.quantum_noise)

/-- The slot a new derivation stores at index `key_count`. -/
def new_key_slot (prim : Primitives) (device : qed_device_t) (key_id : List Nat)
    (key_length : Nat) : qed_quantum_key_t :=
  { key_id := key_id.take (QED_MAX_KEY_ID_LENGTH - 1),
    key_data :=
      memcpy (device.quantum_keys.getD device.key_count zero_key).key_data
        (final_hash prim device.hardware_sig key_length)
        (if key_length > QED_KEY_LENGTH then QED_KEY_LENGTH else key_length),
    in_use := true }

/-- Function `qed_quantum_wipe`. -/
def qed_quantum_wipe (device : qed_device_t) (key_id : List Nat) : qed_outcome :=
  match find_key device.quantum_keys device.key_count key_id with
  | some i =>
      ⟨QED_SUCCESS, none, { device with quantum_keys := device.quantum_keys.set i zero_key }⟩
  | none => ⟨QED_ERROR_KEY_NOT_FOUND, none, device⟩

/-- Function `qed_quantum_wipe_all`. -/
def qed_quantum_wipe_all (device : qed_device_t) : qed_outcome :=
  ⟨QED_SUCCESS, none,
    { device with
      quantum_keys := device.quantum_keys.map fun k => if k.in_use then zero_key else k,
      key_count := 0 }⟩

/-- The call `qed_secure_zero(device, sizeof(qed_device_t))`: every byte of the
structure becomes zero, whatever it held. -/
def qed_secure_zero_device (_device : qed_device_t) : qed_device_t :=
  zero_device

/-- Function `qed_cleanup`.  (The file-scope pointer `global_device`, which is
reset when it points to the device, is not part of the device.) -/
def qed_cleanup (device : qed_device_t) : qed_outcome :=
  -- Securely wipe all keys
  let w := qed_quantum_wipe_all device
  -- Zero out the entire structure
  ⟨QED_SUCCESS, none, qed_secure_zero_device w.device⟩

/-! ## `quantum_crypto.c` -/

/-- Function `qed_generate_quantum_signature`: SHA-256 of `data` followed by
the noise string. -/
def qed_generate_quantum_signature (prim : Primitives) (hw_sig : qed_hardware_sig_t)
    (data : List Nat) : qed_result_t × Option (List Nat) :=
  if data.length = 0 then (QED_ERROR_INVALID_INPUT, none)
  else (QED_SUCCESS, some (prim.SHA256 (data ++ hw_sig.quantum_noise)))

/-- Function `qed_verify_quantum_signature`: `memcmp` over the first
`QED_SIGNATURE_LENGTH` bytes. -/
def qed_verify_quantum_signature (prim : Primitives) (hw_sig : qed_hardware_sig_t)
    (data : List Nat) (signature : List Nat) : qed_result_t :=
  if data.length = 0 then QED_ERROR_INVALID_INPUT
  else
    let g := qed_generate_quantum_signature prim hw_sig data
    if g.1 ≠ QED_SUCCESS then g.1
    else
      let computed_signature := g.2.getD []
      if signature.take QED_SIGNATURE_LENGTH ≠ computed_signature.take QED_SIGNATURE_LENGTH
      then QED_ERROR_SIGNATURE_MISMATCH
      else QED_SUCCESS

/-- Function `qed_quantum_encrypt`; `iv` is what `RAND_bytes(iv, 16)` drew
(`none` when it does not return 1). -/
def qed_quantum_encrypt (prim : Primitives) (device : qed_device_t) (key_id : List Nat)
    (iv : Option (List Nat)) (plaintext : List Nat) : qed_outcome :=
  if plaintext.length = 0 then ⟨QED_ERROR_INVALID_INPUT, none, device⟩
  else
    -- Generate quantum key
    let k := qed_generate_quantum_key prim device key_id QED_KEY_LENGTH
    if k.result ≠ QED_SUCCESS then ⟨k.result, none, k.device⟩
    else
      let quantum_key := k.out.getD []
      -- Generate random IV
      match iv with
      | none => ⟨QED_ERROR_ENCRYPTION, none, k.device⟩
      | some iv =>
          -- Set up AES-256-CBC encryption, encrypt the data, finalize
          match prim.aes_256_cbc_encrypt quantum_key iv plaintext with
          | none => ⟨QED_ERROR_ENCRYPTION, none, k.device⟩
          | some encrypted =>
              -- Prepare data for signature (encrypted data + quantum key)
              let signature_data := encrypted ++ quantum_key.take QED_KEY_LENGTH
              -- Generate quantum signature
              let g := qed_generate_quantum_signature prim k.device.hardware_sig signature_data
              if g.1 ≠ QED_SUCCESS then ⟨g.1, none, k.device⟩
              else
                let signature := g.2.getD []
                -- Combine signature, IV, and encrypted data
                ⟨QED_SUCCESS,
                  some (signature.take QED_SIGNATURE_LENGTH ++ iv.take 16 ++ encrypted),
                  k.device⟩

/-- Function `qed_quantum_decrypt`. -/
def qed_quantum_decrypt (prim : Primitives) (device : qed_device_t) (key_id : List Nat)
    (ciphertext : List Nat) : qed_outcome :=
  if ciphertext.length < QED_SIGNATURE_LENGTH + 16 then ⟨QED_ERROR_INVALID_INPUT, none, device⟩
  else
    -- Extract signature, IV and encrypted data
    let signature := ciphertext.take QED_SIGNATURE_LENGTH
    let iv := (ciphertext.drop QED_SIGNATURE_LENGTH).take 16
    let encrypted_data := ciphertext.drop (QED_SIGNATURE_LENGTH + 16)
    -- Generate quantum key (should be same as during encryption)
    let k := qed_generate_quantum_key prim device key_id QED_KEY_LENGTH
    if k.result ≠ QED_SUCCESS then ⟨k.result, none, k.device⟩
    else
      let quantum_key := k.out.getD []
      -- Prepare data for signature verification (encrypted data + quantum key)
      let signature_data := encrypted_data ++ quantum_key.take QED_KEY_LENGTH
      -- Verify quantum signature
      let result := qed_verify_quantum_signature prim k.device.hardware_sig
        signature_data signature
      if result ≠ QED_SUCCESS then ⟨QED_ERROR_SIGNATURE_MISMATCH, none, k.device⟩
      else
        -- Set up AES-256-CBC decryption, decrypt the data, finalize
        match prim.aes_256_cbc_decrypt quantum_key iv encrypted_data with
        | none => ⟨QED_ERROR_DECRYPTION, none, k.device⟩
        | some decrypted => ⟨QED_SUCCESS, some decrypted, k.device⟩

/-! ## `quantum_file_ops.c` -/

/-- The part of the file system the file operations see.  `content path` is
the byte content of the file `stat` finds at `path` (`none` when `stat`
fails); `realpath path` is the canonical path (`none` when `realpath` returns
NULL); `readable path` tells whether `fopen(path, "rb")` succeeds, `writable
path` whether `fopen(path, "wb")` does. -/
structure file_system where
  content : List Nat → Option (List Nat)
  realpath : List Nat → Option (List Nat)
  readable : List Nat → Bool
  writable : List Nat → Bool

/-- What a file operation returns: the result code, the device and the file
system after the call. -/
structure file_outcome where
  result : qed_result_t
  device : qed_device_t
  files : file_system

/-- Function `qed_read_file`: the result code, `*data` (`none` for NULL) and
`*size`. -/
def qed_read_file (files : file_system) (filepath : List Nat) :
    qed_result_t × Option (List Nat) × Nat :=
  -- Get file size
  match files.content filepath with
  | none => ( QED_ERROR_FILE_IO, none, 0)
  | some bytes =>
      let size := bytes.length
      if size = 0 then (QED_SUCCESS, none, size)
      -- Open and read file
      else if !files.readable filepath then ( QED_ERROR_FILE_IO, none, size)
      else (QED_SUCCESS, some bytes, size)

/-- Function `qed_write_file`; `data` is `none` for a NULL pointer. -/
def qed_write_file (files : file_system) (filepath : List Nat) (data : Option (List Nat)) :
    qed_result_t × file_system :=
  match data with
  | none => (QED_ERROR_INVALID_INPUT, files)
  | some bytes =>
      if !files.writable filepath then ( QED_ERROR_FILE_IO, files)
      else
        (QED_SUCCESS,
          { files with
            content := fun path => if path = filepath then some bytes else files.content path })

/-- Function `qed_file_exists`. -/
def qed_file_exists (files : file_system) (filepath : List Nat) : Bool :=
  (files.content filepath).isSome

/-- Function `qed_paths_are_same`. -/
def qed_paths_are_same (files : file_system) (path1 path2 : List Nat) : Bool :=
  match files.realpath path1, files.realpath path2 with
  | some real_path1, some real_path2 => real_path1 == real_path2
  | _, _ => false

/-- Function `qed_encrypt_file`; `iv` is what `RAND_bytes` draws inside
`qed_quantum_encrypt`. -/
def qed_encrypt_file (prim : Primitives) (device : qed_device_t) (key_id : List Nat)
    (iv : Option (List Nat)) (files : file_system) (input_path output_path : List Nat) :
    file_outcome :=
  -- Check if input file exists
  if !qed_file_exists files input_path then ⟨ QED_ERROR_FILE_IO, device, files⟩
  -- Check if input and output paths are the same
  else if qed_paths_are_same files input_path output_path then
    ⟨QED_ERROR_INVALID_INPUT, device, files⟩
  else
    -- Read input file
    let r := qed_read_file files input_path
    if r.1 ≠ QED_SUCCESS then ⟨r.1, device, files⟩
    else
      let file_data := r.2.1
      let file_size := r.2.2
      -- Handle empty files
      if file_size = 0 then
        let w := qed_write_file files output_path none
        ⟨w.1, device, w.2⟩
      else
        -- Encrypt file data
        let e := qed_quantum_encrypt prim device key_id iv (file_data.getD [])
        if e.result ≠ QED_SUCCESS then ⟨e.result, e.device, files⟩
        else
          -- Write encrypted data to output file
          let w := qed_write_file files output_path e.out
          ⟨w.1, e.device, w.2⟩

/-- Function `qed_decrypt_file`. -/
def qed_decrypt_file (prim : Primitives) (device : qed_device_t) (key_id : List Nat)
    (files : file_system) (input_path output_path : List Nat) : file_outcome :=
  -- Check if input file exists
  if !qed_file_exists files input_path then ⟨ QED_ERROR_FILE_IO, device, files⟩
  -- Check if input and output paths are the same
  else if qed_paths_are_same files input_path output_path then
    ⟨QED_ERROR_INVALID_INPUT, device, files⟩
  else
    -- Read encrypted file
    let r := qed_read_file files input_path
    if r.1 ≠ QED_SUCCESS then ⟨r.1, device, files⟩
    else
      let encrypted_data := r.2.1
      let encrypted_size := r.2.2
      -- Check minimum file size for encrypted data
      if encrypted_size < QED_SIGNATURE_LENGTH + 16 then ⟨QED_ERROR_INVALID_INPUT, device, files⟩
      else
        -- Decrypt file data
        let d := qed_quantum_decrypt prim device key_id (encrypted_data.getD [])
        if d.result ≠ QED_SUCCESS then ⟨d.result, d.device, files⟩
        else
          -- Write decrypted data to output file
          let w := qed_write_file files output_path d.out
          ⟨w.1, d.device, w.2⟩

/-! ## Sequences of calls on one device -/

/-- A call of the key-store and cipher interface on a device. -/
inductive qed_call where
  | generate_quantum_key (key_id : List Nat) (key_length : Nat)
  | quantum_wipe (key_id : List Nat)
  | quantum_wipe_all
  | quantum_encrypt (key_id : List Nat) (iv : Option (List Nat)) (plaintext : List Nat)
  | quantum_decrypt (key_id : List Nat) (ciphertext : List Nat)
  deriving DecidableEq, Repr

/-- The outcome of one call. -/
def qed_call.run (prim : Primitives) (device : qed_device_t) : qed_call → qed_outcome
  | .generate_quantum_key key_id key_length =>
      qed_generate_quantum_key prim device key_id key_length
  | .quantum_wipe key_id => qed_quantum_wipe device key_id
  | .quantum_wipe_all => qed_quantum_wipe_all device
  | .quantum_encrypt key_id iv plaintext => qed_quantum_encrypt prim device key_id iv plaintext
  | .quantum_decrypt key_id ciphertext => qed_quantum_decrypt prim device key_id ciphertext

/-- The device after a sequence of calls, made one after the other. -/
def run_calls (prim : Primitives) (device : qed_device_t) : List qed_call → qed_device_t
  | [] => device
  | c :: cs => run_calls prim (c.run prim device).device cs

/-- The device after deriving a 32-byte key for each identifier of a list, in
order. -/
def derive_all (prim : Primitives) (device : qed_device_t) (ids : List (List Nat)) :
    qed_device_t :=
  run_calls prim device (ids.map fun key_id => .generate_quantum_key key_id QED_KEY_LENGTH)

/-- The number of slots with `in_use` set. -/
def active_keys (device : qed_device_t) : Nat :=
  device.quantum_keys.countP fun k => k.in_use

/-- Whether some slot with `in_use` set holds the identifier. -/
def has_active_key (device : qed_device_t) (key_id : List Nat) : Bool :=
  device.quantum_keys.any fun k => key_matches key_id k

/-- Whether a call wipes the key of `key_id`: `qed_quantum_wipe` of that
identifier, or `qed_quantum_wipe_all`. -/
def qed_call.wipes (key_id : List Nat) : qed_call → Bool
  | .quantum_wipe k => k == key_id
  | .quantum_wipe_all => true
  | _ => false

/-- Whether a call that derives a key directly does so at `QED_KEY_LENGTH`, the
length `qed_quantum_encrypt` and `qed_quantum_decrypt` use. -/
def qed_call.at_key_length : qed_call → Bool
  | .generate_quantum_key _ key_length => key_length == QED_KEY_LENGTH
  | _ => true

/-- The lookup loop finds an active slot for `key_id` whose first 32 key bytes
are `key`. -/
def holds_key (device : qed_device_t) (key_id key : List Nat) : Prop :=
  device.initialized = true ∧ device.quantum_keys.length = QED_MAX_KEYS ∧
    ∃ j, find_key device.quantum_keys device.key_count key_id = some j ∧
      (device.quantum_keys.getD j zero_key).key_data.take QED_KEY_LENGTH = key

/-- The slot a 32-byte derivation for `key_id` stores into a zeroed slot. -/
def derived_slot (prim : Primitives) (hw_sig : qed_hardware_sig_t) (key_id : List Nat) :
    qed_quantum_key_t :=
  { key_id := key_id.take (QED_MAX_KEY_ID_LENGTH - 1),
    key_data := memcpy zero_key.key_data (final_hash prim hw_sig QED_KEY_LENGTH) QED_KEY_LENGTH,
    in_use := true }

/-- The table whose first slots hold the derived keys of `ids`, in order, the
remaining slots being zero. -/
def table_of (prim : Primitives) (hw_sig : qed_hardware_sig_t) (ids : List (List Nat)) :
    List qed_quantum_key_t :=
  ids.map (derived_slot prim hw_sig) ++ List.replicate (QED_MAX_KEYS - ids.length) zero_key

/-- The device with that table and `key_count = ids.length`. -/
def device_with_keys (prim : Primitives) (device : qed_device_t) (ids : List (List Nat)) :
    qed_device_t :=
  { device with
    quantum_keys := table_of prim device.hardware_sig ids,
    key_count := ids.length }

/-- Two-byte identifiers, pairwise distinct, without NUL. -/
def key_name (n : Nat) : List Nat := [1 + n / 255, 1 + n % 255]

/-- The first `n` of them. -/
def key_names (n : Nat) : List (List Nat) := (List.range n).map key_name

/-- The envelope with bit `bit` of the byte at `offset` flipped. -/
def flip_bit (envelope : List Nat) (offset bit : Nat) : List Nat :=
  envelope.set offset (envelope.getD offset 0 ^^^ 2 ^ bit)

/-! ## A reference instance of the primitives

A small executable instance of `Primitives` on which the model can be
evaluated: a 32-byte checksum in the place of SHA-256 and a padded xor cipher,
whose first block depends on the IV, in the place of AES-256-CBC. -/

/-- Byte-wise xor of a buffer with a mask. -/
def xor_bytes : List Nat → List Nat → List Nat
  | [], _ => []
  | a :: as, [] => a :: as
  | a :: as, m :: ms => (a ^^^ m) :: xor_bytes as ms

/-- The mask of the reference cipher: the key repeated, and the IV over the
first block. -/
def ref_mask (key iv : List Nat) (n : Nat) : List Nat :=
  (List.range n).map fun i => key.getD (i % 32) 0 ^^^ (if i < 16 then iv.getD i 0 else 0)

/-- Block padding: `16 - len % 16` bytes of that value. -/
def ref_pad (p : List Nat) : List Nat :=
  p ++ List.replicate (16 - p.length % 16) (16 - p.length % 16)

/-- Removal of the block padding; `none` when the last byte is no padding length. -/
def ref_unpad (q : List Nat) : Option (List Nat) :=
  let n := q.reverse.headD 0
  if q.length % 16 = 0 ∧ 0 < n ∧ n ≤ 16 ∧ n ≤ q.length then some (q.take (q.length - n))
  else none

def ref_encrypt (key iv p : List Nat) : Option (List Nat) :=
  some (xor_bytes (ref_pad p) (ref_mask key iv (ref_pad p).length))

def ref_decrypt (key iv c : List Nat) : Option (List Nat) :=
  ref_unpad (xor_bytes c (ref_mask key iv c.length))

/-- A 32-byte checksum: byte `j` folds `acc * 31 + b * (2 * j + 1) + j + 1`
modulo 256 over the input. -/
def ref_hash (d : List Nat) : List Nat :=
  (List.range 32).map fun j =>
    d.foldl (fun acc b => (acc * 31 + b * (2 * j + 1) + j + 1) % 256) 0

/-- The reference instance; its `sin` is the constant 0, so that resonance byte
`i` is `128 + quantum_bit`. -/
def ref_prim : Primitives :=
  { SHA256 := ref_hash,
    printf_f6 := fun x => decimal x,
    sin := fun _ => ⟨0, 0⟩,
    aes_256_cbc_encrypt := ref_encrypt,
    aes_256_cbc_decrypt := ref_decrypt }

/-- The device `qed_init` leaves under the reference instance when
`/proc/cpuinfo` gives no frequency (so that `cpu_frequency` is 2.4e9) and
`sysinfo` reports 16000000000 bytes of RAM, 8000000000 of them free. -/
def ref_device : qed_device_t :=
  (qed_init ref_prim none (some (16000000000, 8000000000))).device

/-- The identifier `"doc"`. -/
def doc : List Nat := [100, 111, 99]

/-- 1000 bytes of `0x41`. -/
def scenario_plaintext : List Nat := List.replicate 1000 0x41

/-- A drawn IV. -/
def scenario_iv : List Nat := [7, 200, 33, 4, 91, 16, 250, 8, 19, 110, 61, 12, 3, 144, 5, 77]

/-- Encryption of the 1000 bytes under `"doc"` on the reference device. -/
def scenario_encryption : qed_outcome :=
  qed_quantum_encrypt ref_prim ref_device doc (some scenario_iv) scenario_plaintext

/-- The envelope it returns. -/
def scenario_envelope : List Nat := scenario_encryption.out.getD []

/-- An identifier of 256 bytes. -/
def long_id : List Nat := List.replicate 256 97

/-- The reference device with the keys of 1023 pairwise distinct identifiers in
its first slots, the state their derivation in order leads to: one free slot is
left. -/
def nearly_full_device : qed_device_t :=
  device_with_keys ref_prim ref_device (key_names 1023)

/-- Encryption of one byte under the 256-byte identifier on that device. -/
def long_id_encryption : qed_outcome :=
  qed_quantum_encrypt ref_prim nearly_full_device long_id (some scenario_iv) [0x41]

/-- The key every new 32-byte derivation returns on the reference device. -/
def ref_key : List Nat :=
  (final_hash ref_prim ref_device.hardware_sig QED_KEY_LENGTH).take QED_KEY_LENGTH

/-- The ciphertext and the envelope of `long_id_encryption`, written out. -/
def long_id_ciphertext : List Nat :=
  xor_bytes (ref_pad [0x41]) (ref_mask ref_key scenario_iv (ref_pad [0x41]).length)

def long_id_envelope : List Nat :=
  (ref_hash (long_id_ciphertext ++ ref_key.take QED_KEY_LENGTH ++
      ref_device.hardware_sig.quantum_noise)).take QED_SIGNATURE_LENGTH ++
    scenario_iv.take 16 ++ long_id_ciphertext

/-- Encryption of three bytes under `"doc"` on the reference device, and its
envelope. -/
def small_encryption : qed_outcome :=
  qed_quantum_encrypt ref_prim ref_device doc (some scenario_iv) [0x41, 0x42, 0x43]

def small_envelope : List Nat := small_encryption.out.getD []

/-- Calls made between two derivations of `"doc"`: a derivation at another
length, an encryption under another identifier, a wipe of another identifier
and a further derivation of `"doc"`. -/
def intervening_calls : List qed_call :=
  [.generate_quantum_key [98] 16, .quantum_encrypt [99] (some scenario_iv) [1, 2, 3],
    .quantum_wipe [98], .generate_quantum_key doc QED_KEY_LENGTH]

/-- The reference device with the keys of 1024 pairwise distinct identifiers in
its slots, the state their derivation in order leads to, and the device after
the wipe of the first of them. -/
def full_device : qed_device_t := device_with_keys ref_prim ref_device (key_names 1024)

def wiped_device : qed_device_t := (qed_quantum_wipe full_device (key_name 0)).device

/-- An identifier that is none of the 1024. -/
def new_id : List Nat := [9, 9]

/-- The identifiers `"alpha"` and `"beta"`. -/
def alpha : List Nat := [97, 108, 112, 104, 97]

def beta : List Nat := [98, 101, 116, 97]

/-- The reference device after `qed_generate_quantum_key(device, "alpha", ..., 16)`. -/
def alpha_device : qed_device_t := (qed_generate_quantum_key ref_prim ref_device alpha 16).device

/-- Every active slot holds, in its first 32 key bytes, the digest a 32-byte
derivation computes from the hardware signature of the device. -/
def uniform_keys (prim : Primitives) (device : qed_device_t) : Prop :=
  ∀ k ∈ device.quantum_keys, k.in_use = true →
    k.key_data.take QED_KEY_LENGTH = final_hash prim device.hardware_sig QED_KEY_LENGTH

/-- A derivation of `"alpha"` at 32 bytes, before the two derivations compared. -/
def alpha_calls : List qed_call := [.generate_quantum_key alpha QED_KEY_LENGTH]

/-- Every slot at an index from `key_count` on is inactive. -/
def actives_below_count (device : qed_device_t) : Prop :=
  ∀ i, device.key_count ≤ i → (device.quantum_keys.getD i zero_key).in_use = false

/-- Whether the identifiers a call hands to a key derivation fit the
`key_id` field of a slot (at most 255 bytes). -/
def qed_call.short_ids : qed_call → Bool
  | .generate_quantum_key key_id _ => decide (key_id.length ≤ QED_MAX_KEY_ID_LENGTH - 1)
  | .quantum_encrypt key_id _ _ => decide (key_id.length ≤ QED_MAX_KEY_ID_LENGTH - 1)
  | .quantum_decrypt key_id _ => decide (key_id.length ≤ QED_MAX_KEY_ID_LENGTH - 1)
  | _ => true

/-- The decimal digits of the bytes of a hash, one byte after the other. -/
def decimal_digits (hash : List Nat) : List Nat :=
  (hash.map fun b => decimal (b % 256)).flatten

/-- The first 255 bytes of `long_id`, what a slot keeps of it. -/
def long_id_stored : List Nat := List.replicate 255 97

/-- The reference device after two derivations of `long_id`. -/
def twice_derived_device : qed_device_t :=
  device_with_keys ref_prim ref_device [long_id, long_id]

/-- A file system with one file `"in"` of three bytes; every path is its own
canonical path and can be opened. -/
def short_file_system : file_system :=
  { content := fun path => if path = [105, 110] then some [1, 2, 3] else none,
    realpath := fun path => some path,
    readable := fun _ => true,
    writable := fun _ => true }

/-- The bounds of the key table: 1024 slots, `key_count` at most 1024, and no
active slot from index `key_count` on. -/
def table_bounds (device : qed_device_t) : Prop :=
  device.quantum_keys.length = QED_MAX_KEYS ∧ device.key_count ≤ QED_MAX_KEYS ∧
    actives_below_count device

/-- At most one active slot per identifier. -/
def unique_active_ids (device : qed_device_t) : Prop :=
  ∀ key_id, device.quantum_keys.countP (key_matches key_id) ≤ 1

/-- Calls with identifiers that fit the `key_id` field. -/
def short_calls : List qed_call :=
  [.generate_quantum_key doc 32, .generate_quantum_key doc 16, .quantum_wipe doc,
    .generate_quantum_key doc 32, .quantum_encrypt alpha none [1], .quantum_wipe_all,
    .generate_quantum_key alpha 8]

/-- A hardware signature with `cpu_frequency` 2.4e9 (as IEEE-754 bits),
`ram_signature` 500000 and the single noise digit `0`. -/
def resonance_sig : qed_hardware_sig_t :=
  { cpu_frequency := 0x41E1E1A300000000, ram_total := 0, ram_available := 0,
    ram_signature := 500000, quantum_noise := [48] }

/-! ## The library functions computed

SHA-256 as FIPS 180-4 defines it, the text of `"%.6f"`, and a sine computed to
about 120 binary places and then rounded to the nearest double, for the
evaluation of `qed_measure_quantum_noise` and `qed_generate_hardware_resonance`
on given inputs. -/

/-- The terms of the sine series from index `j + 1` on, added to `sum`. -/
def sin_series_loop : Nat → Int → Int → Int → Nat → Int → Int
  | 0, _, _, sum, _, _ => sum
  | fuel + 1, r2, term, sum, j, one =>
      let term1 := -(term * r2 / one) / (((2 * j + 2) * (2 * j + 3) : Nat) : Int)
      sin_series_loop fuel r2 term1 (sum + term1) (j + 1) one

/-- The sine of a double: the argument reduced modulo pi (51 decimals of pi),
40 terms of the power series in fixed point with 128 fractional bits, and the
sum rounded to the nearest double. -/
def series_sin (x : double) : double :=
  let one : Int := ((2 ^ 128 : Nat) : Int)
  let pi : Int :=
    (314159265358979323846264338327950288419716939937510 : Int) * one / ((10 ^ 50 : Nat) : Int)
  let X : Int :=
    if x.exponent + 128 ≥ 0 then x.mantissa * ((2 ^ (x.exponent + 128).toNat : Nat) : Int)
    else x.mantissa / ((2 ^ (-(x.exponent + 128)).toNat : Nat) : Int)
  let k : Int := (2 * X + pi) / (2 * pi)
  let r : Int := X - k * pi
  let r2 : Int := r * r / one
  let sum := sin_series_loop 40 r2 r r 0 one
  round_double (if k % 2 = 0 then sum else -sum) (-128)

/-- The largest `r` below `2 ^ bits` with `r ^ k ≤ n`, one bit after the other
from the highest: the integer part of the `k`-th root of `n` when that is below
`2 ^ bits`. -/
def root_loop (k n : Nat) : Nat → Nat → Nat
  | 0, r => r
  | b + 1, r => root_loop k n b (if (r + 2 ^ b) ^ k ≤ n then r + 2 ^ b else r)

/-- The first 64 prime numbers, 2 to 311. -/
def sha256_primes : List Nat :=
  (List.range 312).filter fun n => 2 ≤ n && (List.range n).all fun d => d < 2 || n % d != 0

/-- The round constants of SHA-256 (FIPS 180-4, section 4.2.2): the first 32
bits of the fractional parts of the cube roots of the first 64 primes. -/
def sha256_k : List Nat :=
  sha256_primes.map fun p => root_loop 3 (p * 2 ^ 96) 36 0 % 2 ^ 32

/-- The chaining value of SHA-256: eight 32-bit words. -/
structure sha256_state where
  a : Nat
  b : Nat
  c : Nat
  d : Nat
  e : Nat
  f : Nat
  g : Nat
  h : Nat
  deriving DecidableEq, Repr

/-- The word `i` of the initial chaining value (FIPS 180-4, section 5.3.3): the
first 32 bits of the fractional part of the square root of prime `i`. -/
def sha256_h (i : Nat) : Nat :=
  root_loop 2 (sha256_primes.getD i 0 * 2 ^ 64) 36 0 % 2 ^ 32

/-- The initial chaining value. -/
def sha256_init : sha256_state :=
  { a := sha256_h 0, b := sha256_h 1, c := sha256_h 2, d := sha256_h 3, e := sha256_h 4,
    f := sha256_h 5, g := sha256_h 6, h := sha256_h 7 }

/-- Rotation of a 32-bit word to the right. -/
def rotr (x n : Nat) : Nat := ((x >>> n) ||| (x <<< (32 - n))) % 2 ^ 32

/-- The padded message: the byte `0x80`, zero bytes up to 56 modulo 64, and the
bit length as 8 bytes, most significant first. -/
def sha256_pad (msg : List Nat) : List Nat :=
  msg ++ [0x80] ++ List.replicate ((119 - msg.length % 64) % 64) 0 ++
    (List.range 8).map fun i => (msg.length * 8) >>> (8 * (7 - i)) % 256

/-- The 32-bit words of a block, most significant byte first. -/
def sha256_words : List Nat → List Nat
  | b0 :: b1 :: b2 :: b3 :: rest =>
      (b0 % 256 * 2 ^ 24 + b1 % 256 * 2 ^ 16 + b2 % 256 * 2 ^ 8 + b3 % 256) :: sha256_words rest
  | _ => []

/-- The message schedule: `window` holds the last 16 words. -/
def sha256_schedule : Nat → List Nat → List Nat
  | 0, _ => []
  | n + 1, window =>
      let s0 := rotr (window.getD 1 0) 7 ^^^ rotr (window.getD 1 0) 18 ^^^ (window.getD 1 0 >>> 3)
      let s1 :=
        rotr (window.getD 14 0) 17 ^^^ rotr (window.getD 14 0) 19 ^^^ (window.getD 14 0 >>> 10)
      let w := (window.getD 0 0 + s0 + window.getD 9 0 + s1) % 2 ^ 32
      w :: sha256_schedule n (window.drop 1 ++ [w])

/-- One round of the compression function, on a constant and a schedule word. -/
def sha256_round (s : sha256_state) (kw : Nat × Nat) : sha256_state :=
  let S1 := rotr s.e 6 ^^^ rotr s.e 11 ^^^ rotr s.e 25
  let ch := (s.e &&& s.f) ^^^ ((2 ^ 32 - 1 - s.e) &&& s.g)
  let temp1 := (s.h + S1 + ch + kw.1 + kw.2) % 2 ^ 32
  let S0 := rotr s.a 2 ^^^ rotr s.a 13 ^^^ rotr s.a 22
  let maj := (s.a &&& s.b) ^^^ (s.a &&& s.c) ^^^ (s.b &&& s.c)
  let temp2 := (S0 + maj) % 2 ^ 32
  ⟨(temp1 + temp2) % 2 ^ 32, s.a, s.b, s.c, (s.d + temp1) % 2 ^ 32, s.e, s.f, s.g⟩

/-- The compression function on one block of 64 bytes. -/
def sha256_block (s : sha256_state) (block : List Nat) : sha256_state :=
  let w16 := sha256_words block
  let w := w16 ++ sha256_schedule 48 w16
  let t := (sha256_k.zip w).foldl sha256_round s
  ⟨(s.a + t.a) % 2 ^ 32, (s.b + t.b) % 2 ^ 32, (s.c + t.c) % 2 ^ 32, (s.d + t.d) % 2 ^ 32,
    (s.e + t.e) % 2 ^ 32, (s.f + t.f) % 2 ^ 32, (s.g + t.g) % 2 ^ 32, (s.h + t.h) % 2 ^ 32⟩

/-- The compression function over `n` blocks. -/
def sha256_blocks : Nat → sha256_state → List Nat → sha256_state
  | 0, s, _ => s
  | n + 1, s, bytes => sha256_blocks n (sha256_block s (bytes.take 64)) (bytes.drop 64)

/-- The four bytes of a word, most significant first. -/
def word_bytes (w : Nat) : List Nat :=
  [w >>> 24 % 256, w >>> 16 % 256, w >>> 8 % 256, w % 256]

/-- SHA-256 of a byte string. -/
def sha256 (msg : List Nat) : List Nat :=
  let s := sha256_blocks ((sha256_pad msg).length / 64) sha256_init (sha256_pad msg)
  word_bytes s.a ++ word_bytes s.b ++ word_bytes s.c ++ word_bytes s.d ++ word_bytes s.e ++
    word_bytes s.f ++ word_bytes s.g ++ word_bytes s.h

/-- The text `"%.6f"` prints for the double with these bits: the value rounded
to six decimals (ties to even), with at least one digit before the point. -/
def print_f6 (bits : Nat) : List Nat :=
  let x := double_of_bits bits
  let a := x.mantissa.natAbs * 10 ^ 6
  let n : Nat :=
    if x.exponent ≥ 0 then a * 2 ^ x.exponent.toNat
    else
      let d := 2 ^ (-x.exponent).toNat
      let q := a / d
      let r := a % d
      if 2 * r > d ∨ (2 * r = d ∧ q % 2 = 1) then q + 1 else q
  let frac := decimal (n % 10 ^ 6)
  (if x.mantissa < 0 then [45] else []) ++ decimal (n / 10 ^ 6) ++ [46] ++
    List.replicate (6 - frac.length) 48 ++ frac

/-- The instance with these library functions; the cipher is that of the
reference instance. -/
def std_prim : Primitives :=
  { SHA256 := sha256,
    printf_f6 := print_f6,
    sin := series_sin,
    aes_256_cbc_encrypt := ref_encrypt,
    aes_256_cbc_decrypt := ref_decrypt }

/-- The hardware signature `qed_init` holds before it measures the noise when
`/proc/cpuinfo` gives no frequency (`cpu_frequency` is 2.4e9) and `sysinfo`
reports 16000000000 bytes of RAM, 8000000000 of them free: the first four
bytes of the SHA-256 digest of `"160000000008000000000"` are `cf f6 ba a8`, and
`0xcff6baa8 % 1000000` is 53352. -/
def noise_sig : qed_hardware_sig_t :=
  { cpu_frequency := 0x41E1E1A300000000, ram_total := 16000000000,
    ram_available := 8000000000, ram_signature := 53352, quantum_noise := [] }

/-- A file system with one file `"in"` of length zero; every path is its own
canonical path and can be opened. -/
def empty_file_system : file_system :=
  { content := fun path => if path = [105, 110] then some [] else none,
    realpath := fun path => some path,
    readable := fun _ => true,
    writable := fun _ => true }

/-- The reference device after a derivation of `long_id` at 16 bytes. -/
def long_id_device : qed_device_t :=
  (qed_generate_quantum_key ref_prim ref_device long_id 16).device

/-- Calls without `qed_quantum_wipe_all`: a derivation at 16 bytes, an
encryption, a wipe and a further derivation. -/
def later_calls : List qed_call :=
  [.generate_quantum_key alpha 16, .quantum_encrypt beta (some scenario_iv) [1, 2, 3],
    .quantum_wipe alpha, .generate_quantum_key doc 32]

/-- An encryption of three bytes under `"beta"` on the device that holds a key
of `"alpha"` derived at 16 bytes. -/
def beta_encryption : qed_outcome :=
  qed_quantum_encrypt ref_prim alpha_device beta (some scenario_iv) [1, 2, 3]

/-! ## The lookup loop -/

theorem key_matches_zero_key (key_id : List Nat) : key_matches key_id zero_key = false := by
  simp [key_matches, zero_key]

theorem find_key_eq_none {keys : List qed_quantum_key_t} {n : Nat} {key_id : List Nat} :
    find_key keys n key_id = none ↔
      ∀ j, j < n → key_matches key_id (keys.getD j zero_key) = false := by
  induction keys generalizing n with
  | nil => simp [find_key, key_matches_zero_key]
  | cons k ks ih =>
    cases n with
    | zero => simp [find_key]
    | succ n =>
      simp only [find_key]
      by_cases hk : key_matches key_id k = true
      · simp only [hk, if_true]
        constructor
        · intro h; cases h
        · intro h
          have := h 0 (Nat.succ_pos n)
          simp [hk] at this
      · simp only [hk, Bool.false_eq_true, if_false, Option.map_eq_none', ih]
        constructor
        · intro h j hj
          cases j with
          | zero => simpa using hk
          | succ j => simpa using h j (Nat.lt_of_succ_lt_succ hj)
        · intro h j hj
          simpa using h (j + 1) (Nat.succ_lt_succ hj)

theorem find_key_eq_some {keys : List qed_quantum_key_t} {n i : Nat} {key_id : List Nat} :
    find_key keys n key_id = some i ↔
      i < n ∧ key_matches key_id (keys.getD i zero_key) = true ∧
        ∀ j, j < i → key_matches key_id (keys.getD j zero_key) = false := by
  induction keys generalizing n i with
  | nil => simp [find_key, key_matches_zero_key]
  | cons k ks ih =>
    cases n with
    | zero => simp [find_key]
    | succ n =>
      simp only [find_key]
      by_cases hk : key_matches key_id k = true
      · simp only [hk, if_true]
        constructor
        · intro h
          cases h
          simp [hk]
        · rintro ⟨_, _, h3⟩
          cases i with
          | zero => rfl
          | succ i =>
            have := h3 0 (Nat.succ_pos i)
            simp [hk] at this
      · simp only [hk, Bool.false_eq_true, if_false]
        cases i with
        | zero =>
          simp only [Option.map_eq_some']
          constructor
          · rintro ⟨a, _, ha⟩; cases ha
          · rintro ⟨_, h2, _⟩
            simp at h2
            exact absurd h2 hk
        | succ i =>
          have hmap : Option.map (· + 1) (find_key ks n key_id) = some (i + 1) ↔
              find_key ks n key_id = some i := by
            cases find_key ks n key_id <;> simp
          simp only [hmap, ih]
          constructor
          · rintro ⟨h1, h2, h3⟩
            refine ⟨Nat.succ_lt_succ h1, by simpa using h2, ?_⟩
            intro j hj
            cases j with
            | zero => simpa using hk
            | succ j => simpa using h3 j (Nat.lt_of_succ_lt_succ hj)
          · rintro ⟨h1, h2, h3⟩
            refine ⟨Nat.lt_of_succ_lt_succ h1, by simpa using h2, ?_⟩
            intro j hj
            simpa using h3 (j + 1) (Nat.succ_lt_succ hj)

/-- The loop only looks at the tests of the slots below `n`. -/
theorem find_key_congr {keys1 keys2 : List qed_quantum_key_t} {n : Nat} {key_id : List Nat}
    (h : ∀ j, j < n →
      key_matches key_id (keys1.getD j zero_key) = key_matches key_id (keys2.getD j zero_key)) :
    find_key keys1 n key_id = find_key keys2 n key_id := by
  cases h2 : find_key keys2 n key_id with
  | none =>
    rw [find_key_eq_none] at h2 ⊢
    intro j hj
    rw [h j hj]; exact h2 j hj
  | some i =>
    rw [find_key_eq_some] at h2 ⊢
    obtain ⟨h1, hm, hlt⟩ := h2
    refine ⟨h1, by rw [h i h1]; exact hm, ?_⟩
    intro j hj
    rw [h j (Nat.lt_trans hj h1)]; exact hlt j hj

theorem getD_set_eq {keys : List qed_quantum_key_t} {i : Nat} (s : qed_quantum_key_t)
    (hi : i < keys.length) : (keys.set i s).getD i zero_key = s := by
  simp [List.getD_eq_getElem?_getD, List.getElem?_set, hi]

theorem getD_set_ne {keys : List qed_quantum_key_t} {i j : Nat} (s : qed_quantum_key_t)
    (hij : i ≠ j) : (keys.set i s).getD j zero_key = keys.getD j zero_key := by
  simp [List.getD_eq_getElem?_getD, List.getElem?_set, hij]

/-- A slot the loop reports is inside the table. -/
theorem find_key_lt_length {keys : List qed_quantum_key_t} {n i : Nat} {key_id : List Nat}
    (h : find_key keys n key_id = some i) : i < keys.length := by
  rw [find_key_eq_some] at h
  by_contra hlt
  have : keys.getD i zero_key = zero_key := by
    simp [List.getD_eq_getElem?_getD, List.getElem?_eq_none (Nat.le_of_not_lt hlt)]
  rw [this, key_matches_zero_key] at h
  exact absurd h.2.1 (by simp)

/-! ## The three paths of `qed_generate_quantum_key` -/

theorem generate_found {prim : Primitives} {device : qed_device_t} {key_id : List Nat}
    {key_length i : Nat} (hinit : device.initialized = true) (hlen : key_length ≠ 0)
    (hfind : find_key device.quantum_keys device.key_count key_id = some i) :
    qed_generate_quantum_key prim device key_id key_length =
      ⟨QED_SUCCESS,
        some ((device.quantum_keys.getD i zero_key).key_data.take
          (if key_length > QED_KEY_LENGTH then QED_KEY_LENGTH else key_length)),
        device⟩ := by
  simp [qed_generate_quantum_key, hinit, hlen, hfind]

theorem generate_limit {prim : Primitives} {device : qed_device_t} {key_id : List Nat}
    {key_length : Nat} (hinit : device.initialized = true) (hlen : key_length ≠ 0)
    (hfind : find_key device.quantum_keys device.key_count key_id = none)
    (hfull : QED_MAX_KEYS ≤ device.key_count) :
    qed_generate_quantum_key prim device key_id key_length =
      ⟨QED_ERROR_KEY_LIMIT_REACHED, none, device⟩ := by
  simp [qed_generate_quantum_key, hinit, hlen, hfind, hfull]

theorem generate_new {prim : Primitives} {device : qed_device_t} {key_id : List Nat}
    {key_length : Nat} (hinit : device.initialized = true) (hlen : key_length ≠ 0)
    (hfind : find_key device.quantum_keys device.key_count key_id = none)
    (hroom : device.key_count < QED_MAX_KEYS) :
    qed_generate_quantum_key prim device key_id key_length =
      ⟨QED_SUCCESS,
        some ((final_hash prim device.hardware_sig key_length).take
          (if key_length > QED_KEY_LENGTH then QED_KEY_LENGTH else key_length)),
        { device with
          quantum_keys :=
            device.quantum_keys.set device.key_count
              (new_key_slot prim device key_id key_length),
          key_count := device.key_count + 1 }⟩ := by
  have h2 : ¬ (QED_MAX_KEYS ≤ device.key_count) := Nat.not_le.mpr hroom
  have h3 : key_length * 2 ≠ 0 := by omega
  simp [qed_generate_quantum_key, hinit, hlen, hfind, h2, final_hash, new_key_slot,
    qed_generate_hardware_resonance, h3]

theorem generate_zero_length (prim : Primitives) (device : qed_device_t) (key_id : List Nat) :
    qed_generate_quantum_key prim device key_id 0 = ⟨QED_ERROR_INVALID_INPUT, none, device⟩ := by
  simp [qed_generate_quantum_key]

theorem generate_uninitialized {prim : Primitives} {device : qed_device_t} {key_id : List Nat}
    {key_length : Nat} (hlen : key_length ≠ 0) (hinit : device.initialized = false) :
    qed_generate_quantum_key prim device key_id key_length =
      ⟨QED_ERROR_HARDWARE, none, device⟩ := by
  simp [qed_generate_quantum_key, hlen, hinit]

/-- The hardware signature and the `initialized` flag are never written by a
derivation, and the table keeps its length. -/
theorem generate_frame (prim : Primitives) (device : qed_device_t) (key_id : List Nat)
    (key_length : Nat) :
    (qed_generate_quantum_key prim device key_id key_length).device.hardware_sig =
        device.hardware_sig ∧
      (qed_generate_quantum_key prim device key_id key_length).device.initialized =
        device.initialized ∧
      (qed_generate_quantum_key prim device key_id key_length).device.quantum_keys.length =
        device.quantum_keys.length := by
  by_cases hlen : key_length = 0
  · subst hlen; simp [generate_zero_length]
  by_cases hinit : device.initialized = true
  · cases hfind : find_key device.quantum_keys device.key_count key_id with
    | some i => simp [generate_found hinit hlen hfind]
    | none =>
      by_cases hroom : device.key_count < QED_MAX_KEYS
      · simp [generate_new hinit hlen hfind hroom]
      · simp [generate_limit hinit hlen hfind (Nat.le_of_not_lt hroom)]
  · simp [generate_uninitialized hlen (by simpa using hinit)]

/-- A derivation that does not return `QED_SUCCESS` leaves the device as it was
and writes no key. -/
theorem generate_error_device (prim : Primitives) (device : qed_device_t) (key_id : List Nat)
    (key_length : Nat)
    (h : (qed_generate_quantum_key prim device key_id key_length).result ≠ QED_SUCCESS) :
    (qed_generate_quantum_key prim device key_id key_length).device = device ∧
      (qed_generate_quantum_key prim device key_id key_length).out = none := by
  by_cases hlen : key_length = 0
  · subst hlen; simp [generate_zero_length]
  by_cases hinit : device.initialized = true
  · cases hfind : find_key device.quantum_keys device.key_count key_id with
    | some i => simp [generate_found hinit hlen hfind] at h
    | none =>
      by_cases hroom : device.key_count < QED_MAX_KEYS
      · simp [generate_new hinit hlen hfind hroom] at h
      · simp [generate_limit hinit hlen hfind (Nat.le_of_not_lt hroom)]
  · simp [generate_uninitialized hlen (by simpa using hinit)]

/-- A derivation that returns `QED_SUCCESS` ran on an initialized device. -/
theorem generate_success_initialized {prim : Primitives} {device : qed_device_t}
    {key_id : List Nat} {key_length : Nat}
    (h : (qed_generate_quantum_key prim device key_id key_length).result = QED_SUCCESS) :
    device.initialized = true ∧ key_length ≠ 0 := by
  by_cases hlen : key_length = 0
  · subst hlen; simp [generate_zero_length] at h
  by_cases hinit : device.initialized = true
  · exact ⟨hinit, hlen⟩
  · simp [generate_uninitialized hlen (by simpa using hinit)] at h

/-! ## Tables filled by successive derivations -/

theorem qed_init_success {prim : Primitives} {cpu_mhz : Option Nat} {info : Option (Nat × Nat)}
    (h : (qed_init prim cpu_mhz info).result = QED_SUCCESS) :
    (qed_init prim cpu_mhz info).device.initialized = true ∧
      (qed_init prim cpu_mhz info).device.key_count = 0 ∧
      (qed_init prim cpu_mhz info).device.quantum_keys = List.replicate QED_MAX_KEYS zero_key := by
  cases info with
  | none => cases cpu_mhz <;> simp [qed_init, qed_detect_cpu_frequency, qed_detect_ram_signature] at h
  | some p =>
    cases cpu_mhz <;>
      simp [qed_init, qed_detect_cpu_frequency, qed_detect_ram_signature,
        qed_measure_quantum_noise, zero_device]

theorem device_with_keys_nil (prim : Primitives) (device : qed_device_t)
    (hk : device.quantum_keys = List.replicate QED_MAX_KEYS zero_key)
    (hc : device.key_count = 0) : device_with_keys prim device [] = device := by
  cases device
  simp_all [device_with_keys, table_of]

theorem table_of_getD_lt (prim : Primitives) (hw_sig : qed_hardware_sig_t)
    (ids : List (List Nat)) (j : Nat) (hj : j < ids.length) :
    (table_of prim hw_sig ids).getD j zero_key =
      derived_slot prim hw_sig (ids.getD j []) := by
  simp [table_of, List.getD_eq_getElem?_getD, List.getElem?_append_left, hj]

theorem table_of_getD_ge (prim : Primitives) (hw_sig : qed_hardware_sig_t)
    (ids : List (List Nat)) (j : Nat) (hj : ids.length ≤ j) :
    (table_of prim hw_sig ids).getD j zero_key = zero_key := by
  simp only [table_of, List.getD_eq_getElem?_getD]
  rw [List.getElem?_append_right (by simpa using hj)]
  simp only [List.getElem?_replicate]
  split_ifs <;> rfl

theorem table_of_length (prim : Primitives) (hw_sig : qed_hardware_sig_t)
    (ids : List (List Nat)) (h : ids.length ≤ QED_MAX_KEYS) :
    (table_of prim hw_sig ids).length = QED_MAX_KEYS := by
  simp [table_of]; omega

theorem table_of_set (prim : Primitives) (hw_sig : qed_hardware_sig_t)
    (ids : List (List Nat)) (key_id : List Nat) (h : ids.length < QED_MAX_KEYS) :
    (table_of prim hw_sig ids).set ids.length (derived_slot prim hw_sig key_id) =
      table_of prim hw_sig (ids ++ [key_id]) := by
  obtain ⟨m, hm⟩ : ∃ m, QED_MAX_KEYS - ids.length = m + 1 := ⟨QED_MAX_KEYS - ids.length - 1, by omega⟩
  have hm2 : QED_MAX_KEYS - (ids.length + 1) = m := by omega
  simp only [table_of, hm, List.length_append, List.length_singleton, hm2, List.map_append,
    List.map_cons, List.map_nil, List.append_assoc, List.singleton_append]
  have hl : ids.length = (ids.map (derived_slot prim hw_sig)).length := by simp
  rw [hl, List.set_append_right _ _ (Nat.le_refl _)]
  simp [List.replicate_succ]

theorem find_key_table_of_none (prim : Primitives) (hw_sig : qed_hardware_sig_t)
    (ids : List (List Nat)) (n : Nat) (key_id : List Nat)
    (h : ∀ x ∈ ids, x.take (QED_MAX_KEY_ID_LENGTH - 1) ≠ key_id) :
    find_key (table_of prim hw_sig ids) n key_id = none := by
  rw [find_key_eq_none]
  intro j _
  by_cases hj : j < ids.length
  · rw [table_of_getD_lt _ _ _ _ hj]
    have hmem : ids.getD j [] ∈ ids := by
      simp [List.getD_eq_getElem?_getD, List.getElem?_eq_getElem hj]
    simpa [key_matches, derived_slot] using h _ hmem
  · rw [table_of_getD_ge _ _ _ _ (Nat.le_of_not_lt hj)]
    exact key_matches_zero_key _

theorem generate_on_filled (prim : Primitives) (device : qed_device_t)
    (done : List (List Nat)) (key_id : List Nat) (hinit : device.initialized = true)
    (hroom : done.length < QED_MAX_KEYS)
    (h : ∀ x ∈ done, x.take (QED_MAX_KEY_ID_LENGTH - 1) ≠ key_id) :
    qed_generate_quantum_key prim (device_with_keys prim device done) key_id QED_KEY_LENGTH =
      ⟨QED_SUCCESS,
        some ((final_hash prim device.hardware_sig QED_KEY_LENGTH).take QED_KEY_LENGTH),
        device_with_keys prim device (done ++ [key_id])⟩ := by
  have hfind := find_key_table_of_none prim device.hardware_sig done done.length key_id h
  rw [@generate_new prim (device_with_keys prim device done) key_id QED_KEY_LENGTH hinit
    (by decide) hfind hroom]
  have hslot : new_key_slot prim (device_with_keys prim device done) key_id QED_KEY_LENGTH =
      derived_slot prim device.hardware_sig key_id := by
    simp only [new_key_slot, derived_slot, device_with_keys]
    rw [table_of_getD_ge _ _ _ _ (Nat.le_refl _)]
    simp
  rw [hslot]
  simp only [device_with_keys, table_of_set _ _ _ _ hroom]
  simp [QED_KEY_LENGTH]

theorem generate_on_filled_limit (prim : Primitives) (device : qed_device_t)
    (done : List (List Nat)) (key_id : List Nat) (hinit : device.initialized = true)
    (hfull : QED_MAX_KEYS ≤ done.length)
    (h : ∀ x ∈ done, x.take (QED_MAX_KEY_ID_LENGTH - 1) ≠ key_id) :
    qed_generate_quantum_key prim (device_with_keys prim device done) key_id QED_KEY_LENGTH =
      ⟨QED_ERROR_KEY_LIMIT_REACHED, none, device_with_keys prim device done⟩ := by
  have hfind := find_key_table_of_none prim device.hardware_sig done done.length key_id h
  exact @generate_limit prim (device_with_keys prim device done) key_id QED_KEY_LENGTH
    hinit (by decide) hfind hfull

theorem take_of_short {x : List Nat} (h : x.length ≤ QED_MAX_KEY_ID_LENGTH - 1) :
    x.take (QED_MAX_KEY_ID_LENGTH - 1) = x :=
  List.take_of_length_le h

theorem derive_all_filled (prim : Primitives) (device : qed_device_t)
    (ids done : List (List Nat)) (hinit : device.initialized = true)
    (hshort : ∀ x ∈ done ++ ids, x.length ≤ QED_MAX_KEY_ID_LENGTH - 1)
    (hnodup : (done ++ ids).Nodup) (hlen : (done ++ ids).length ≤ QED_MAX_KEYS) :
    derive_all prim (device_with_keys prim device done) ids =
      device_with_keys prim device (done ++ ids) := by
  induction ids generalizing done with
  | nil => simp [derive_all, run_calls]
  | cons key_id rest ih =>
    have hne : ∀ x ∈ done, x.take (QED_MAX_KEY_ID_LENGTH - 1) ≠ key_id := by
      intro x hx
      rw [take_of_short (hshort x (List.mem_append_left _ hx))]
      rintro rfl
      have := (List.nodup_append.mp hnodup).2.2
      exact this hx (List.mem_cons_self _ _)
    have hroom : done.length < QED_MAX_KEYS := by
      simp only [List.length_append, List.length_cons] at hlen; omega
    have hstep := generate_on_filled prim device done key_id hinit hroom hne
    have ih2 := ih (done ++ [key_id]) (by simpa using hshort) (by simpa using hnodup)
      (by simpa using hlen)
    simp only [derive_all, List.map_cons, run_calls, qed_call.run] at ih2 ⊢
    rw [hstep]
    simpa using ih2

/-! ## Signature, encryption and decryption -/

theorem verify_eq_success {prim : Primitives} {hw_sig : qed_hardware_sig_t}
    {data signature : List Nat} :
    qed_verify_quantum_signature prim hw_sig data signature = QED_SUCCESS ↔
      data ≠ [] ∧
        signature.take QED_SIGNATURE_LENGTH =
          (prim.SHA256 (data ++ hw_sig.quantum_noise)).take QED_SIGNATURE_LENGTH := by
  by_cases hd : data = []
  · simp [qed_verify_quantum_signature, hd]
  · have hl : data.length ≠ 0 := by simpa using hd
    simp only [qed_verify_quantum_signature, qed_generate_quantum_signature, hl, if_false,
      ne_eq, not_true_eq_false, Option.getD_some, hd, not_false_eq_true, true_and]
    split_ifs with h <;> simp [h]

theorem generate_success_out {prim : Primitives} {device : qed_device_t} {key_id : List Nat}
    (h : (qed_generate_quantum_key prim device key_id QED_KEY_LENGTH).result = QED_SUCCESS) :
    ∃ key, (qed_generate_quantum_key prim device key_id QED_KEY_LENGTH).out = some key ∧
      key.take QED_KEY_LENGTH = key := by
  obtain ⟨hinit, hlen⟩ := generate_success_initialized h
  cases hfind : find_key device.quantum_keys device.key_count key_id with
  | some i =>
    rw [generate_found hinit hlen hfind]
    exact ⟨_, rfl, by simp [List.take_take]⟩
  | none =>
    by_cases hroom : device.key_count < QED_MAX_KEYS
    · rw [generate_new hinit hlen hfind hroom]
      exact ⟨_, rfl, by simp [List.take_take]⟩
    · rw [generate_limit hinit hlen hfind (Nat.le_of_not_lt hroom)] at h
      cases h

/-- What a successful encryption did. -/
theorem encrypt_inv {prim : Primitives} {device device1 : qed_device_t}
    {key_id iv plaintext envelope : List Nat}
    (h : qed_quantum_encrypt prim device key_id (some iv) plaintext =
      ⟨QED_SUCCESS, some envelope, device1⟩) :
    plaintext ≠ [] ∧
    ∃ key encrypted,
      qed_generate_quantum_key prim device key_id QED_KEY_LENGTH =
        ⟨QED_SUCCESS, some key, device1⟩ ∧
      key.take QED_KEY_LENGTH = key ∧
      prim.aes_256_cbc_encrypt key iv plaintext = some encrypted ∧
      encrypted ++ key ≠ [] ∧
      envelope =
        (prim.SHA256 (encrypted ++ key ++ device1.hardware_sig.quantum_noise)).take
            QED_SIGNATURE_LENGTH ++ iv.take 16 ++ encrypted := by
  unfold qed_quantum_encrypt at h
  by_cases hp : plaintext.length = 0
  · simp [hp] at h
  simp only [hp, if_false] at h
  by_cases hk : (qed_generate_quantum_key prim device key_id QED_KEY_LENGTH).result = QED_SUCCESS
  · obtain ⟨key, hout, htake⟩ := generate_success_out hk
    simp only [hk, ne_eq, not_true_eq_false, if_false, hout, Option.getD_some, htake] at h
    refine ⟨by simpa using hp, key, ?_⟩
    cases henc : prim.aes_256_cbc_encrypt key iv plaintext with
    | none => simp [henc] at h
    | some encrypted =>
      simp only [henc, qed_generate_quantum_signature] at h
      by_cases hd : (encrypted ++ key).length = 0
      · simp [hd] at h
      · simp only [hd, if_false, not_true_eq_false, Option.getD_some,
          qed_outcome.mk.injEq, Option.some.injEq, true_and] at h
        refine ⟨encrypted, ?_, htake, rfl, by simpa using hd, ?_⟩
        · rw [← h.2]
          cases hg : qed_generate_quantum_key prim device key_id QED_KEY_LENGTH
          rw [hg] at hk hout
          simp only at hk hout
          rw [hk, hout]
        · rw [← h.1, ← h.2]
  · simp [hk] at h

/-- Decryption of an envelope of at least 48 bytes once the key derivation has
succeeded: the signature check decides between `QED_ERROR_SIGNATURE_MISMATCH`
and the AES decryption. -/
theorem decrypt_eq {prim : Primitives} {device device1 : qed_device_t}
    {key_id key envelope : List Nat}
    (hlen : QED_SIGNATURE_LENGTH + 16 ≤ envelope.length)
    (hgen : qed_generate_quantum_key prim device key_id QED_KEY_LENGTH =
      ⟨QED_SUCCESS, some key, device1⟩) :
    qed_quantum_decrypt prim device key_id envelope =
      if qed_verify_quantum_signature prim device1.hardware_sig
          (envelope.drop (QED_SIGNATURE_LENGTH + 16) ++ key.take QED_KEY_LENGTH)
          (envelope.take QED_SIGNATURE_LENGTH) ≠ QED_SUCCESS
      then ⟨QED_ERROR_SIGNATURE_MISMATCH, none, device1⟩
      else
        match prim.aes_256_cbc_decrypt key ((envelope.drop QED_SIGNATURE_LENGTH).take 16)
            (envelope.drop (QED_SIGNATURE_LENGTH + 16)) with
        | none => ⟨QED_ERROR_DECRYPTION, none, device1⟩
        | some decrypted => ⟨QED_SUCCESS, some decrypted, device1⟩ := by
  have h1 : ¬ envelope.length < QED_SIGNATURE_LENGTH + 16 := Nat.not_lt.mpr hlen
  simp only [qed_quantum_decrypt, h1, if_false, hgen, ne_eq, not_true_eq_false,
    Option.getD_some]

theorem envelope_parts (tag iv encrypted : List Nat) (htag : tag.length = QED_SIGNATURE_LENGTH)
    (hiv : iv.length = 16) :
    (tag ++ iv ++ encrypted).take QED_SIGNATURE_LENGTH = tag ∧
      ((tag ++ iv ++ encrypted).drop QED_SIGNATURE_LENGTH).take 16 = iv ∧
      (tag ++ iv ++ encrypted).drop (QED_SIGNATURE_LENGTH + 16) = encrypted ∧
      (tag ++ iv ++ encrypted).length = QED_SIGNATURE_LENGTH + 16 + encrypted.length := by
  refine ⟨?_, ?_, ?_, ?_⟩
  · rw [List.append_assoc, List.take_left' htag]
  · rw [List.append_assoc, List.drop_left' htag, List.take_left' hiv]
  · rw [← List.drop_drop, List.append_assoc, List.drop_left' htag, List.drop_left' hiv]
  · simp [htag, hiv]; omega

/-- After a successful 32-byte derivation for an identifier of at most 255
bytes the lookup loop finds a slot holding the returned key. -/
theorem generate_holds_key {prim : Primitives} {device device1 : qed_device_t}
    {key_id key : List Nat} (hsha : ∀ d, (prim.SHA256 d).length = 32)
    (htab : device.quantum_keys.length = QED_MAX_KEYS)
    (hid : key_id.length ≤ QED_MAX_KEY_ID_LENGTH - 1)
    (h : qed_generate_quantum_key prim device key_id QED_KEY_LENGTH =
      ⟨QED_SUCCESS, some key, device1⟩) :
    holds_key device1 key_id key := by
  have hres : (qed_generate_quantum_key prim device key_id QED_KEY_LENGTH).result =
      QED_SUCCESS := by rw [h]
  obtain ⟨hinit, hlen⟩ := generate_success_initialized hres
  cases hfind : find_key device.quantum_keys device.key_count key_id with
  | some i =>
    rw [generate_found hinit hlen hfind] at h
    simp only [qed_outcome.mk.injEq, Option.some.injEq, true_and] at h
    obtain ⟨hk, hd⟩ := h
    subst hd
    exact ⟨hinit, htab, i, hfind, by simpa using hk⟩
  | none =>
    by_cases hroom : device.key_count < QED_MAX_KEYS
    · rw [generate_new hinit hlen hfind hroom] at h
      simp only [qed_outcome.mk.injEq, Option.some.injEq, true_and] at h
      obtain ⟨hk, hd⟩ := h
      subst hd
      have hin : device.key_count < device.quantum_keys.length := by rw [htab]; exact hroom
      refine ⟨hinit, by simpa using htab, device.key_count, ?_, ?_⟩
      · rw [find_key_eq_some]
        refine ⟨Nat.lt_succ_self _, ?_, ?_⟩
        · simp only []
          rw [getD_set_eq _ hin]
          simp [key_matches, new_key_slot, take_of_short hid]
        · intro j hj
          simp only []
          rw [getD_set_ne _ (Nat.ne_of_gt hj)]
          exact find_key_eq_none.mp hfind j hj
      · simp only []
        rw [getD_set_eq _ hin, ← hk]
        have hl : (final_hash prim device.hardware_sig 32).length = 32 := hsha _
        simp [new_key_slot, memcpy, QED_KEY_LENGTH, List.take_append_eq_append_take, hl]
    · rw [generate_limit hinit hlen hfind (Nat.le_of_not_lt hroom)] at h
      cases h

theorem holds_key_generate {prim : Primitives} {device : qed_device_t} {key_id key : List Nat}
    (h : holds_key device key_id key) :
    qed_generate_quantum_key prim device key_id QED_KEY_LENGTH =
      ⟨QED_SUCCESS, some key, device⟩ := by
  obtain ⟨hinit, _, j, hfind, hkey⟩ := h
  rw [generate_found hinit (by decide) hfind]
  simpa using hkey

/-- After a successful encryption under an identifier of at most 255 bytes, a
further derivation on the resulting device returns the key the envelope was
made with, and the envelope is tag, IV and ciphertext in this order. -/
theorem encrypt_then_key {prim : Primitives} {device device1 : qed_device_t}
    {key_id iv plaintext envelope : List Nat}
    (hsha : ∀ d, (prim.SHA256 d).length = 32)
    (htab : device.quantum_keys.length = QED_MAX_KEYS)
    (hid : key_id.length ≤ QED_MAX_KEY_ID_LENGTH - 1) (hiv : iv.length = 16)
    (henc : qed_quantum_encrypt prim device key_id (some iv) plaintext =
      ⟨QED_SUCCESS, some envelope, device1⟩) :
    ∃ key encrypted,
      qed_generate_quantum_key prim device key_id QED_KEY_LENGTH =
        ⟨QED_SUCCESS, some key, device1⟩ ∧
      qed_generate_quantum_key prim device1 key_id QED_KEY_LENGTH =
        ⟨QED_SUCCESS, some key, device1⟩ ∧
      key.take QED_KEY_LENGTH = key ∧
      prim.aes_256_cbc_encrypt key iv plaintext = some encrypted ∧
      encrypted ++ key ≠ [] ∧
      envelope =
        prim.SHA256 (encrypted ++ key ++ device1.hardware_sig.quantum_noise) ++ iv ++
          encrypted := by
  obtain ⟨_, key, encrypted, hgen, htake, haes, hne, hE⟩ := encrypt_inv henc
  refine ⟨key, encrypted, hgen, holds_key_generate (generate_holds_key hsha htab hid hgen),
    htake, haes, hne, ?_⟩
  rw [hE, List.take_of_length_le (by rw [hsha]; decide), List.take_of_length_le (by omega)]

/-- Decryption of an envelope that carries the tag and the ciphertext of a
produced envelope: the signature check passes whatever the 16 bytes of the IV
region are. -/
theorem decrypt_same_tag_and_ciphertext {prim : Primitives} {device device1 : qed_device_t}
    {key_id iv plaintext envelope envelope1 : List Nat}
    (hsha : ∀ d, (prim.SHA256 d).length = 32)
    (htab : device.quantum_keys.length = QED_MAX_KEYS)
    (hid : key_id.length ≤ QED_MAX_KEY_ID_LENGTH - 1) (hiv : iv.length = 16)
    (henc : qed_quantum_encrypt prim device key_id (some iv) plaintext =
      ⟨QED_SUCCESS, some envelope, device1⟩)
    (hlen : envelope1.length = envelope.length)
    (htag : envelope1.take QED_SIGNATURE_LENGTH = envelope.take QED_SIGNATURE_LENGTH)
    (hct : envelope1.drop (QED_SIGNATURE_LENGTH + 16) =
      envelope.drop (QED_SIGNATURE_LENGTH + 16)) :
    qed_quantum_decrypt prim device1 key_id envelope1 =
      match prim.aes_256_cbc_decrypt
          ((qed_generate_quantum_key prim device key_id QED_KEY_LENGTH).out.getD [])
          ((envelope1.drop QED_SIGNATURE_LENGTH).take 16)
          (envelope.drop (QED_SIGNATURE_LENGTH + 16)) with
      | none => ⟨QED_ERROR_DECRYPTION, none, device1⟩
      | some decrypted => ⟨QED_SUCCESS, some decrypted, device1⟩ := by
  obtain ⟨key, encrypted, hgen0, hgen, htake, _, hne, hE⟩ :=
    encrypt_then_key hsha htab hid hiv henc
  obtain ⟨h1, _, h3, h4⟩ := envelope_parts (prim.SHA256
    (encrypted ++ key ++ device1.hardware_sig.quantum_noise)) (iv) encrypted (hsha _) hiv
  rw [← hE] at h1 h3 h4
  have hlen1 : QED_SIGNATURE_LENGTH + 16 ≤ envelope1.length := by rw [hlen, h4]; omega
  rw [decrypt_eq hlen1 hgen, hct, htag, h1, h3, htake, hgen0]
  have hv : qed_verify_quantum_signature prim device1.hardware_sig (encrypted ++ key)
      (prim.SHA256 (encrypted ++ key ++ device1.hardware_sig.quantum_noise)) = QED_SUCCESS := by
    rw [verify_eq_success]
    exact ⟨hne, rfl⟩
  rw [hv]
  simp

/-- Claim C1, as amended to identifiers of at most 255 bytes: whenever
`qed_quantum_encrypt` returns an envelope for a plaintext (whatever 16-byte IV
was drawn), `qed_quantum_decrypt` on the resulting device, under the same
identifier, succeeds and returns exactly that plaintext, AES-256-CBC being an
invertible cipher and SHA-256 giving 32 bytes. -/
theorem round_trip (prim : Primitives) (device device1 : qed_device_t)
    (key_id iv plaintext envelope : List Nat)
    (hsha : ∀ d, (prim.SHA256 d).length = 32)
    (hinv : ∀ key iv p c, prim.aes_256_cbc_encrypt key iv p = some c →
      prim.aes_256_cbc_decrypt key iv c = some p)
    (htab : device.quantum_keys.length = QED_MAX_KEYS)
    (hid : key_id.length ≤ QED_MAX_KEY_ID_LENGTH - 1) (hiv : iv.length = 16)
    (henc : qed_quantum_encrypt prim device key_id (some iv) plaintext =
      ⟨QED_SUCCESS, some envelope, device1⟩) :
    qed_quantum_decrypt prim device1 key_id envelope =
      ⟨QED_SUCCESS, some plaintext, device1⟩ := by
  obtain ⟨key, encrypted, hgen0, _, _, haes, _, hE⟩ := encrypt_then_key hsha htab hid hiv henc
  obtain ⟨_, h2, h3, _⟩ := envelope_parts (prim.SHA256
    (encrypted ++ key ++ device1.hardware_sig.quantum_noise)) (iv) encrypted (hsha _) hiv
  rw [← hE] at h2 h3
  rw [decrypt_same_tag_and_ciphertext hsha htab hid hiv henc rfl rfl rfl, hgen0, h2, h3]
  simp [hinv _ _ _ _ haes]

/-! ## The reference instance -/

theorem ref_hash_length (d : List Nat) : (ref_hash d).length = 32 := by
  simp [ref_hash]

theorem xor_bytes_xor_bytes (a m : List Nat) : xor_bytes (xor_bytes a m) m = a := by
  induction a generalizing m with
  | nil => simp [xor_bytes]
  | cons x xs ih =>
    cases m with
    | nil => simp [xor_bytes]
    | cons y ys => simp [xor_bytes, ih, Nat.xor_assoc]

theorem xor_bytes_length (a m : List Nat) : (xor_bytes a m).length = a.length := by
  induction a generalizing m with
  | nil => simp [xor_bytes]
  | cons x xs ih =>
    cases m with
    | nil => simp [xor_bytes]
    | cons y ys => simp [xor_bytes, ih]

theorem ref_pad_length (p : List Nat) :
    0 < (ref_pad p).length ∧ (ref_pad p).length % 16 = 0 := by
  simp only [ref_pad, List.length_append, List.length_replicate]
  omega

theorem ref_unpad_pad (p : List Nat) : ref_unpad (ref_pad p) = some p := by
  obtain ⟨m, hm⟩ : ∃ m, 16 - p.length % 16 = m + 1 := ⟨16 - p.length % 16 - 1, by omega⟩
  have hlen := ref_pad_length p
  have hpad : ref_pad p = (p ++ List.replicate m (m + 1)) ++ [m + 1] := by
    simp [ref_pad, hm, List.replicate_succ']
  have hhead : (ref_pad p).reverse.headD 0 = m + 1 := by
    rw [hpad, List.reverse_append]; rfl
  have hl : (ref_pad p).length = p.length + (m + 1) := by simp [ref_pad, hm]
  have h16 : (p.length + (m + 1)) % 16 = 0 := by rw [← hl]; exact hlen.2
  have hc : 0 < m + 1 ∧ m + 1 ≤ 16 ∧ m + 1 ≤ p.length + (m + 1) := by omega
  simp only [ref_unpad, hhead, hl, h16, hc, and_self, if_true, Nat.add_sub_cancel]
  simp [ref_pad]

theorem ref_decrypt_encrypt (key iv p c : List Nat) (h : ref_encrypt key iv p = some c) :
    ref_decrypt key iv c = some p := by
  simp only [ref_encrypt, Option.some.injEq] at h
  subst h
  simp only [ref_decrypt, xor_bytes_length, xor_bytes_xor_bytes, ref_unpad_pad]

theorem ref_encrypt_padded (key iv p c : List Nat) (h : ref_encrypt key iv p = some c) :
    0 < c.length ∧ c.length % 16 = 0 := by
  simp only [ref_encrypt, Option.some.injEq] at h
  subst h
  rw [xor_bytes_length]
  exact ref_pad_length p

theorem encrypt_eq {prim : Primitives} {device device1 : qed_device_t}
    {key_id key iv plaintext encrypted : List Nat} (hp : plaintext ≠ [])
    (hgen : qed_generate_quantum_key prim device key_id QED_KEY_LENGTH =
      ⟨QED_SUCCESS, some key, device1⟩)
    (haes : prim.aes_256_cbc_encrypt key iv plaintext = some encrypted)
    (hne : encrypted ≠ []) :
    qed_quantum_encrypt prim device key_id (some iv) plaintext =
      ⟨QED_SUCCESS,
        some ((prim.SHA256 (encrypted ++ key.take QED_KEY_LENGTH ++
          device1.hardware_sig.quantum_noise)).take QED_SIGNATURE_LENGTH ++ iv.take 16 ++
            encrypted),
        device1⟩ := by
  have hp0 : plaintext.length ≠ 0 := by simpa using hp
  have hd : (encrypted ++ key.take QED_KEY_LENGTH).length ≠ 0 := by
    have : encrypted.length ≠ 0 := by simpa using hne
    simp only [List.length_append]; omega
  simp only [qed_quantum_encrypt, hp0, if_false, hgen, ne_eq, not_true_eq_false,
    Option.getD_some, haes, qed_generate_quantum_signature, hd]

theorem decrypt_key_error {prim : Primitives} {device : qed_device_t}
    {key_id envelope : List Nat} (hlen : QED_SIGNATURE_LENGTH + 16 ≤ envelope.length)
    (hgen : (qed_generate_quantum_key prim device key_id QED_KEY_LENGTH).result ≠ QED_SUCCESS) :
    qed_quantum_decrypt prim device key_id envelope =
      ⟨(qed_generate_quantum_key prim device key_id QED_KEY_LENGTH).result, none,
        (qed_generate_quantum_key prim device key_id QED_KEY_LENGTH).device⟩ := by
  have h1 : ¬ envelope.length < QED_SIGNATURE_LENGTH + 16 := Nat.not_lt.mpr hlen
  simp only [qed_quantum_decrypt, h1, if_false, hgen, ne_eq, not_false_eq_true, if_true]

theorem key_names_length (n : Nat) : (key_names n).length = n := by
  simp [key_names]

theorem key_names_short (n : Nat) :
    ∀ x ∈ key_names n, x.length ≤ QED_MAX_KEY_ID_LENGTH - 1 := by
  intro x hx
  simp only [key_names, List.mem_map] at hx
  obtain ⟨i, _, rfl⟩ := hx
  simp [key_name, QED_MAX_KEY_ID_LENGTH]

theorem key_names_nodup (n : Nat) : (key_names n).Nodup := by
  refine List.Nodup.map ?_ (List.nodup_range n)
  intro a b hab
  simp only [key_name, List.cons.injEq, and_true] at hab
  omega

theorem ref_device_fresh :
    ref_device.initialized = true ∧ ref_device.key_count = 0 ∧
      ref_device.quantum_keys = List.replicate QED_MAX_KEYS zero_key :=
  @qed_init_success ref_prim none (some (16000000000, 8000000000)) rfl

/-- Deriving the first `n` names on the reference device fills the first `n` slots. -/
theorem derive_all_key_names (n : Nat) (hn : n ≤ QED_MAX_KEYS) :
    derive_all ref_prim ref_device (key_names n) =
      device_with_keys ref_prim ref_device (key_names n) := by
  have h := derive_all_filled ref_prim ref_device (key_names n) [] ref_device_fresh.1
    (by simpa using key_names_short n) (by simpa using key_names_nodup n)
    (by simpa [key_names_length] using hn)
  rw [device_with_keys_nil _ _ ref_device_fresh.2.2 ref_device_fresh.2.1] at h
  simpa using h

theorem scenario_encryption_eq :
    scenario_encryption =
      ⟨QED_SUCCESS, some scenario_envelope, scenario_encryption.device⟩ := by
  have hr : scenario_encryption.result = QED_SUCCESS := by
    set_option maxRecDepth 100000 in decide
  have ho : scenario_encryption.out.isSome = true := by
    set_option maxRecDepth 100000 in decide
  unfold scenario_envelope
  cases h : scenario_encryption with
  | mk result out device =>
    rw [h] at hr ho
    simp only at hr ho
    subst hr
    cases out with
    | none => simp at ho
    | some e => rfl

theorem ref_device_table_length : ref_device.quantum_keys.length = QED_MAX_KEYS := by
  rw [ref_device_fresh.2.2]; simp

/-- Witness of C1 (amended): the 1000 bytes of `0x41` encrypted under `"doc"` on
the reference device decrypt to the same 1000 bytes. -/
theorem round_trip_witness :
    qed_quantum_decrypt ref_prim scenario_encryption.device doc scenario_envelope =
      ⟨QED_SUCCESS, some (List.replicate 1000 0x41), scenario_encryption.device⟩ :=
  round_trip ref_prim ref_device scenario_encryption.device doc scenario_iv scenario_plaintext
    scenario_envelope ref_hash_length ref_decrypt_encrypt ref_device_table_length
    (by decide) (by decide) scenario_encryption_eq

theorem nearly_full_device_eq :
    nearly_full_device = device_with_keys ref_prim ref_device (key_names 1023) := rfl

theorem nearly_full_device_reached :
    derive_all ref_prim ref_device (key_names 1023) = nearly_full_device :=
  derive_all_key_names 1023 (by decide)

theorem long_id_no_match (ids : List (List Nat)) :
    ∀ x ∈ ids, x.take (QED_MAX_KEY_ID_LENGTH - 1) ≠ long_id := by
  intro x _ hx
  have h1 : (x.take (QED_MAX_KEY_ID_LENGTH - 1)).length = long_id.length := by rw [hx]
  rw [long_id, List.length_replicate, List.length_take, QED_MAX_KEY_ID_LENGTH] at h1
  omega

theorem long_id_generate :
    qed_generate_quantum_key ref_prim nearly_full_device long_id QED_KEY_LENGTH =
      ⟨QED_SUCCESS, some ref_key,
        device_with_keys ref_prim ref_device (key_names 1023 ++ [long_id])⟩ := by
  rw [nearly_full_device_eq]
  exact generate_on_filled ref_prim ref_device (key_names 1023) long_id
    ref_device_fresh.1 (by rw [key_names_length]; decide) (long_id_no_match _)

theorem long_id_envelope_length : long_id_envelope.length = 64 := by
  have hiv : scenario_iv.length = 16 := rfl
  simp only [long_id_envelope, long_id_ciphertext, List.length_append, List.length_take,
    ref_hash_length, hiv, QED_SIGNATURE_LENGTH, xor_bytes_length]
  rfl

theorem long_id_encryption_eq :
    long_id_encryption =
      ⟨QED_SUCCESS, some long_id_envelope,
        device_with_keys ref_prim ref_device (key_names 1023 ++ [long_id])⟩ := by
  have hne : long_id_ciphertext ≠ [] := by
    intro h0
    have := congrArg List.length h0
    simp [long_id_ciphertext, xor_bytes_length, ref_pad] at this
  have h := @encrypt_eq ref_prim nearly_full_device _ long_id ref_key scenario_iv [0x41]
    long_id_ciphertext (by simp) long_id_generate rfl hne
  unfold long_id_encryption long_id_envelope
  rw [h]
  simp only [device_with_keys]
  rfl

/-- Counterexample to C1 as stated (every key id): on the reference device with
1023 keys derived, encryption of one byte under a 256-byte identifier succeeds
and takes the last slot, storing the identifier cut to 255 bytes; decryption of
the returned envelope under the same identifier then finds no slot and fails
with `QED_ERROR_KEY_LIMIT_REACHED`, returning nothing. -/
theorem round_trip_fails_for_long_id :
    derive_all ref_prim ref_device (key_names 1023) = nearly_full_device ∧
    nearly_full_device.initialized = true ∧ nearly_full_device.key_count = 1023 ∧
    long_id_encryption.result = QED_SUCCESS ∧
    long_id_encryption.out.isSome = true ∧
    (qed_quantum_decrypt ref_prim long_id_encryption.device long_id
        (long_id_encryption.out.getD [])).result = QED_ERROR_KEY_LIMIT_REACHED ∧
    (qed_quantum_decrypt ref_prim long_id_encryption.device long_id
        (long_id_encryption.out.getD [])).out = none := by
  have hlim := generate_on_filled_limit ref_prim ref_device (key_names 1023 ++ [long_id])
    long_id ref_device_fresh.1 (by simp [key_names_length, QED_MAX_KEYS])
    (long_id_no_match _)
  have hdec := @decrypt_key_error ref_prim
    (device_with_keys ref_prim ref_device (key_names 1023 ++ [long_id])) long_id
    long_id_envelope (by rw [long_id_envelope_length]; decide) (by rw [hlim]; decide)
  rw [hlim] at hdec
  rw [long_id_encryption_eq]
  refine ⟨nearly_full_device_reached, ?_, ?_, rfl, rfl, ?_, ?_⟩
  · rw [nearly_full_device_eq]; exact ref_device_fresh.1
  · rw [nearly_full_device_eq]; simp [device_with_keys, key_names_length]
  · simp only [Option.getD_some]; rw [hdec]
  · simp only [Option.getD_some]; rw [hdec]

/-! ## Tampering with a produced envelope -/

theorem take_set_of_le {l : List Nat} {n m : Nat} (a : Nat) (h : m ≤ n) :
    (l.set n a).take m = l.take m := by
  rw [List.set_take, List.set_eq_of_length_le]
  rw [List.length_take]; omega

theorem flip_bit_parts (envelope : List Nat) (offset bit : Nat)
    (hoff : QED_SIGNATURE_LENGTH + 16 ≤ offset) :
    (flip_bit envelope offset bit).length = envelope.length ∧
      (flip_bit envelope offset bit).take QED_SIGNATURE_LENGTH =
        envelope.take QED_SIGNATURE_LENGTH ∧
      ((flip_bit envelope offset bit).drop QED_SIGNATURE_LENGTH).take 16 =
        (envelope.drop QED_SIGNATURE_LENGTH).take 16 := by
  refine ⟨by simp [flip_bit], take_set_of_le _ (by omega), ?_⟩
  have h48 : (flip_bit envelope offset bit).take (QED_SIGNATURE_LENGTH + 16) =
      envelope.take (QED_SIGNATURE_LENGTH + 16) := take_set_of_le _ hoff
  have hd := congrArg (List.drop QED_SIGNATURE_LENGTH) h48
  simpa [List.drop_take, QED_SIGNATURE_LENGTH] using hd

/-- Claim C2, as amended: an envelope that differs from a produced one only
inside the IV region `[32, 48)` (identifier of at most 255 bytes) passes the
signature check, because the tag is computed over ciphertext, key and noise
only.  `qed_quantum_decrypt` never answers `QED_ERROR_SIGNATURE_MISMATCH`: it
returns what AES-256-CBC decryption of the unchanged ciphertext yields under
the altered IV, `QED_SUCCESS` with that output or `QED_ERROR_DECRYPTION`. -/
theorem iv_tamper_passes_signature (prim : Primitives) (device device1 : qed_device_t)
    (key_id iv plaintext envelope envelope1 : List Nat)
    (hsha : ∀ d, (prim.SHA256 d).length = 32)
    (htab : device.quantum_keys.length = QED_MAX_KEYS)
    (hid : key_id.length ≤ QED_MAX_KEY_ID_LENGTH - 1) (hiv : iv.length = 16)
    (henc : qed_quantum_encrypt prim device key_id (some iv) plaintext =
      ⟨QED_SUCCESS, some envelope, device1⟩)
    (hlen : envelope1.length = envelope.length)
    (htag : envelope1.take QED_SIGNATURE_LENGTH = envelope.take QED_SIGNATURE_LENGTH)
    (hct : envelope1.drop (QED_SIGNATURE_LENGTH + 16) =
      envelope.drop (QED_SIGNATURE_LENGTH + 16)) :
    (qed_quantum_decrypt prim device1 key_id envelope1).result ≠
        QED_ERROR_SIGNATURE_MISMATCH ∧
      qed_quantum_decrypt prim device1 key_id envelope1 =
        match prim.aes_256_cbc_decrypt
            ((qed_generate_quantum_key prim device key_id QED_KEY_LENGTH).out.getD [])
            ((envelope1.drop QED_SIGNATURE_LENGTH).take 16)
            (envelope.drop (QED_SIGNATURE_LENGTH + 16)) with
        | none => ⟨QED_ERROR_DECRYPTION, none, device1⟩
        | some decrypted => ⟨QED_SUCCESS, some decrypted, device1⟩ := by
  have h := decrypt_same_tag_and_ciphertext hsha htab hid hiv henc hlen htag hct
  refine ⟨?_, h⟩
  rw [h]
  cases prim.aes_256_cbc_decrypt
      ((qed_generate_quantum_key prim device key_id QED_KEY_LENGTH).out.getD [])
      ((envelope1.drop QED_SIGNATURE_LENGTH).take 16)
      (envelope.drop (QED_SIGNATURE_LENGTH + 16)) <;> simp

/-- Claim C3, as amended to identifiers of at most 255 bytes: for an envelope
produced by `qed_quantum_encrypt`, flipping one bit of a byte at an offset of
48 or more makes `qed_quantum_decrypt` fail with
`QED_ERROR_SIGNATURE_MISMATCH` and return no plaintext, provided SHA-256 does
not collide on the two hash inputs (altered and original ciphertext, each
followed by the key and the noise). -/
theorem ciphertext_tamper_detected (prim : Primitives) (device device1 : qed_device_t)
    (key_id iv plaintext envelope : List Nat) (offset bit : Nat)
    (hsha : ∀ d, (prim.SHA256 d).length = 32)
    (htab : device.quantum_keys.length = QED_MAX_KEYS)
    (hid : key_id.length ≤ QED_MAX_KEY_ID_LENGTH - 1) (hiv : iv.length = 16)
    (henc : qed_quantum_encrypt prim device key_id (some iv) plaintext =
      ⟨QED_SUCCESS, some envelope, device1⟩)
    (hoff : QED_SIGNATURE_LENGTH + 16 ≤ offset)
    (hnc : prim.SHA256 ((flip_bit envelope offset bit).drop (QED_SIGNATURE_LENGTH + 16) ++
        (qed_generate_quantum_key prim device key_id QED_KEY_LENGTH).out.getD [] ++
        device.hardware_sig.quantum_noise) ≠
      prim.SHA256 (envelope.drop (QED_SIGNATURE_LENGTH + 16) ++
        (qed_generate_quantum_key prim device key_id QED_KEY_LENGTH).out.getD [] ++
        device.hardware_sig.quantum_noise)) :
    qed_quantum_decrypt prim device1 key_id (flip_bit envelope offset bit) =
      ⟨QED_ERROR_SIGNATURE_MISMATCH, none, device1⟩ := by
  obtain ⟨key, encrypted, hgen0, hgen, htake, _, _, hE⟩ :=
    encrypt_then_key hsha htab hid hiv henc
  obtain ⟨h1, _, h3, h4⟩ := envelope_parts (prim.SHA256
    (encrypted ++ key ++ device1.hardware_sig.quantum_noise)) (iv) encrypted (hsha _) hiv
  rw [← hE] at h1 h3 h4
  obtain ⟨hl, ht, _⟩ := flip_bit_parts envelope offset bit hoff
  have hhw : device1.hardware_sig = device.hardware_sig := by
    have := (generate_frame prim device key_id QED_KEY_LENGTH).1
    rw [hgen0] at this
    exact this
  rw [hgen0, h3, ← hhw] at hnc
  simp only [Option.getD_some] at hnc
  have hlen1 : QED_SIGNATURE_LENGTH + 16 ≤ (flip_bit envelope offset bit).length := by
    rw [hl, h4]; omega
  rw [decrypt_eq hlen1 hgen, ht, h1, htake]
  have hv : qed_verify_quantum_signature prim device1.hardware_sig
      ((flip_bit envelope offset bit).drop (QED_SIGNATURE_LENGTH + 16) ++ key)
      (prim.SHA256 (encrypted ++ key ++ device1.hardware_sig.quantum_noise)) ≠
        QED_SUCCESS := by
    rw [Ne, verify_eq_success]
    rintro ⟨_, heq⟩
    rw [List.take_of_length_le (by rw [hsha]; decide),
      List.take_of_length_le (by rw [hsha]; decide)] at heq
    exact hnc heq.symm
  rw [if_pos hv]

/-- Claim C4: whenever `qed_quantum_encrypt` succeeds with derived key `key`,
drawn IV `iv` and AES-256-CBC output `encrypted`, the envelope has length
`32 + 16 + |encrypted|`, its bytes `[0, 32)` are
`SHA256(encrypted || key || quantum_noise)`, its bytes `[32, 48)` are the IV,
the rest is `encrypted`, and `|encrypted|` is a positive multiple of 16 (the
last being what padded CBC output is). -/
theorem envelope_layout (prim : Primitives) (device device1 : qed_device_t)
    (key_id iv plaintext envelope : List Nat)
    (hsha : ∀ d, (prim.SHA256 d).length = 32) (hiv : iv.length = 16)
    (hpad : ∀ key iv p c, prim.aes_256_cbc_encrypt key iv p = some c →
      0 < c.length ∧ c.length % 16 = 0)
    (henc : qed_quantum_encrypt prim device key_id (some iv) plaintext =
      ⟨QED_SUCCESS, some envelope, device1⟩) :
    ∃ key encrypted,
      qed_generate_quantum_key prim device key_id QED_KEY_LENGTH =
        ⟨QED_SUCCESS, some key, device1⟩ ∧
      prim.aes_256_cbc_encrypt key iv plaintext = some encrypted ∧
      envelope.length = 32 + 16 + encrypted.length ∧
      envelope.take 32 =
        prim.SHA256 (encrypted ++ key ++ device.hardware_sig.quantum_noise) ∧
      (envelope.drop 32).take 16 = iv ∧
      envelope.drop 48 = encrypted ∧
      0 < encrypted.length ∧ encrypted.length % 16 = 0 := by
  obtain ⟨_, key, encrypted, hgen, _, haes, _, hE⟩ := encrypt_inv henc
  have hhw : device1.hardware_sig = device.hardware_sig := by
    have := (generate_frame prim device key_id QED_KEY_LENGTH).1
    rw [hgen] at this
    exact this
  rw [List.take_of_length_le (by rw [hsha]; decide), List.take_of_length_le (by omega),
    hhw] at hE
  obtain ⟨h1, h2, h3, h4⟩ := envelope_parts (prim.SHA256
    (encrypted ++ key ++ device.hardware_sig.quantum_noise)) (iv) encrypted (hsha _) hiv
  rw [← hE] at h1 h2 h3 h4
  exact ⟨key, encrypted, hgen, haes, h4, h1, h2, h3, hpad _ _ _ _ haes⟩

theorem generate_key_length {prim : Primitives} {device device1 : qed_device_t}
    {key_id key : List Nat} (hsha : ∀ d, (prim.SHA256 d).length = 32)
    (hwt : device.WellTyped)
    (h : qed_generate_quantum_key prim device key_id QED_KEY_LENGTH =
      ⟨QED_SUCCESS, some key, device1⟩) :
    key.length = QED_KEY_LENGTH := by
  have hres : (qed_generate_quantum_key prim device key_id QED_KEY_LENGTH).result =
      QED_SUCCESS := by rw [h]
  obtain ⟨hinit, hlen⟩ := generate_success_initialized hres
  cases hfind : find_key device.quantum_keys device.key_count key_id with
  | some i =>
    rw [generate_found hinit hlen hfind] at h
    simp only [qed_outcome.mk.injEq, Option.some.injEq, true_and] at h
    have hi := find_key_lt_length hfind
    have hmem : device.quantum_keys.getD i zero_key ∈ device.quantum_keys := by
      simp [List.getD_eq_getElem?_getD, List.getElem?_eq_getElem hi]
    have := (hwt.2.2 _ hmem).1
    rw [← h.1]
    rw [List.getD_eq_getElem?_getD] at this
    simp only [QED_KEY_LENGTH] at this ⊢
    simp [this]
  | none =>
    by_cases hroom : device.key_count < QED_MAX_KEYS
    · rw [generate_new hinit hlen hfind hroom] at h
      simp only [qed_outcome.mk.injEq, Option.some.injEq, true_and] at h
      rw [← h.1]
      have hl : (final_hash prim device.hardware_sig 32).length = 32 := hsha _
      simp [hl, QED_KEY_LENGTH]
    · rw [generate_limit hinit hlen hfind (Nat.le_of_not_lt hroom)] at h
      cases h

/-- Claim C5: for an envelope of at least 48 bytes on a device where the key
derivation succeeds with `key`, `qed_quantum_decrypt` returns
`QED_ERROR_SIGNATURE_MISMATCH` if and only if the first 32 bytes of the
envelope differ from `SHA256(envelope[48..) || key || quantum_noise)` (so that
it never returns it when they are equal); when they differ it outputs no
plaintext, and the outcome is the same whatever the AES decryption function
is: the cipher is not run. -/
theorem fail_closed_gate (prim : Primitives) (device device1 : qed_device_t)
    (key_id key envelope : List Nat)
    (hsha : ∀ d, (prim.SHA256 d).length = 32) (hwt : device.WellTyped)
    (hlen : 48 ≤ envelope.length)
    (hgen : qed_generate_quantum_key prim device key_id QED_KEY_LENGTH =
      ⟨QED_SUCCESS, some key, device1⟩) :
    ((qed_quantum_decrypt prim device key_id envelope).result = QED_ERROR_SIGNATURE_MISMATCH ↔
        envelope.take 32 ≠
          prim.SHA256 (envelope.drop 48 ++ key ++ device.hardware_sig.quantum_noise)) ∧
      (envelope.take 32 ≠
          prim.SHA256 (envelope.drop 48 ++ key ++ device.hardware_sig.quantum_noise) →
        ∀ decrypt : List Nat → List Nat → List Nat → Option (List Nat),
          qed_quantum_decrypt { prim with aes_256_cbc_decrypt := decrypt } device key_id
              envelope =
            ⟨QED_ERROR_SIGNATURE_MISMATCH, none, device1⟩) := by
  have hkl := generate_key_length hsha hwt hgen
  have hhw : device1.hardware_sig = device.hardware_sig := by
    have := (generate_frame prim device key_id QED_KEY_LENGTH).1
    rw [hgen] at this
    exact this
  have hdata : envelope.drop 48 ++ key ≠ [] := by
    intro h0
    have := congrArg List.length h0
    simp [hkl, QED_KEY_LENGTH] at this
  have hverify : ∀ p : Primitives, p.SHA256 = prim.SHA256 →
      (qed_verify_quantum_signature p device1.hardware_sig
          (envelope.drop (QED_SIGNATURE_LENGTH + 16) ++ key.take QED_KEY_LENGTH)
          (envelope.take QED_SIGNATURE_LENGTH) ≠ QED_SUCCESS ↔
        envelope.take 32 ≠
          prim.SHA256 (envelope.drop 48 ++ key ++ device.hardware_sig.quantum_noise)) := by
    intro p hp
    rw [Ne, verify_eq_success, hp, List.take_of_length_le (Nat.le_of_eq hkl), hhw,
      List.take_take, List.take_of_length_le (l := prim.SHA256 _) (by rw [hsha]; decide)]
    simp only [QED_SIGNATURE_LENGTH, Nat.reduceAdd, Nat.min_self]
    constructor
    · intro h heq
      exact h ⟨hdata, heq⟩
    · rintro h ⟨_, heq⟩
      exact h heq
  constructor
  · rw [decrypt_eq (by simpa [QED_SIGNATURE_LENGTH] using hlen) hgen]
    rw [← hverify prim rfl]
    by_cases hv : qed_verify_quantum_signature prim device1.hardware_sig
        (envelope.drop (QED_SIGNATURE_LENGTH + 16) ++ key.take QED_KEY_LENGTH)
        (envelope.take QED_SIGNATURE_LENGTH) ≠ QED_SUCCESS
    · rw [if_pos hv]
      exact ⟨fun _ => hv, fun _ => rfl⟩
    · rw [if_neg hv]
      cases prim.aes_256_cbc_decrypt key
        ((envelope.drop QED_SIGNATURE_LENGTH).take 16)
        (envelope.drop (QED_SIGNATURE_LENGTH + 16)) <;>
      exact ⟨fun h => (by cases h), fun h => absurd h hv⟩
  · intro hne decrypt
    have hgen1 : qed_generate_quantum_key { prim with aes_256_cbc_decrypt := decrypt }
        device key_id QED_KEY_LENGTH = ⟨QED_SUCCESS, some key, device1⟩ := hgen
    rw [decrypt_eq (by simpa [QED_SIGNATURE_LENGTH] using hlen) hgen1]
    exact if_pos ((hverify { prim with aes_256_cbc_decrypt := decrypt } rfl).mpr hne)

/-! ## The reference cipher under another IV -/

theorem ref_mask_succ (key iv : List Nat) (n : Nat) :
    ref_mask key iv (n + 1) =
      (key.getD 0 0 ^^^ iv.getD 0 0) ::
        (List.range n).map fun i =>
          key.getD ((i + 1) % 32) 0 ^^^ (if i + 1 < 16 then iv.getD (i + 1) 0 else 0) := by
  simp [ref_mask, List.range_succ_eq_map, Function.comp_def]

theorem ref_mask_set_zero (key iv : List Nat) (v n : Nat) (hiv : iv ≠ []) :
    ∃ t, ref_mask key iv (n + 1) = (key.getD 0 0 ^^^ iv.getD 0 0) :: t ∧
      ref_mask key (iv.set 0 v) (n + 1) = (key.getD 0 0 ^^^ v) :: t := by
  refine ⟨_, ref_mask_succ key iv n, ?_⟩
  rw [ref_mask_succ]
  cases iv with
  | nil => exact absurd rfl hiv
  | cons a as => simp

/-- Decrypting under an IV whose first byte was changed to `v` changes the
first byte of the output by the same difference and nothing else. -/
theorem ref_decrypt_other_iv (key iv ps c : List Nat) (p0 v : Nat) (hiv : iv ≠ [])
    (h : ref_encrypt key iv (p0 :: ps) = some c) :
    ref_decrypt key (iv.set 0 v) c = some ((p0 ^^^ (iv.getD 0 0 ^^^ v)) :: ps) := by
  simp only [ref_encrypt, Option.some.injEq] at h
  subst h
  obtain ⟨n, hn⟩ : ∃ n, (ref_pad (p0 :: ps)).length = n + 1 :=
    ⟨(ref_pad (p0 :: ps)).length - 1, by have := (ref_pad_length (p0 :: ps)).1; omega⟩
  obtain ⟨t, h1, h2⟩ := ref_mask_set_zero key iv v n hiv
  have hpad : ref_pad (p0 :: ps) = p0 :: (ref_pad (p0 :: ps)).tail := by simp [ref_pad]
  have hpad2 : ref_pad ((p0 ^^^ (iv.getD 0 0 ^^^ v)) :: ps) =
      (p0 ^^^ (iv.getD 0 0 ^^^ v)) :: (ref_pad (p0 :: ps)).tail := by simp [ref_pad]
  simp only [ref_decrypt, xor_bytes_length, hn, h1, h2]
  rw [hpad]
  simp only [xor_bytes, xor_bytes_xor_bytes]
  have hx : p0 ^^^ (key.getD 0 0 ^^^ iv.getD 0 0) ^^^ (key.getD 0 0 ^^^ v) =
      p0 ^^^ (iv.getD 0 0 ^^^ v) := by
    rw [Nat.xor_assoc, Nat.xor_assoc, ← Nat.xor_assoc (iv.getD 0 0), Nat.xor_comm (iv.getD 0 0),
      Nat.xor_assoc, ← Nat.xor_assoc (key.getD 0 0), Nat.xor_self, Nat.zero_xor]
  rw [hx, ← hpad2, ref_unpad_pad]

/-! ## The scenario of 1000 bytes under `"doc"` -/

theorem scenario_parts :
    ∃ key encrypted,
      qed_generate_quantum_key ref_prim ref_device doc QED_KEY_LENGTH =
        ⟨QED_SUCCESS, some key, scenario_encryption.device⟩ ∧
      qed_generate_quantum_key ref_prim scenario_encryption.device doc QED_KEY_LENGTH =
        ⟨QED_SUCCESS, some key, scenario_encryption.device⟩ ∧
      ref_encrypt key scenario_iv scenario_plaintext = some encrypted ∧
      scenario_envelope =
        ref_hash (encrypted ++ key ++ scenario_encryption.device.hardware_sig.quantum_noise) ++
          scenario_iv ++ encrypted := by
  obtain ⟨key, encrypted, h1, h2, _, h4, _, h6⟩ :=
    @encrypt_then_key ref_prim _ _ _ _ _ _ ref_hash_length ref_device_table_length
      (by decide : doc.length ≤ QED_MAX_KEY_ID_LENGTH - 1) (by decide : scenario_iv.length = 16)
      scenario_encryption_eq
  exact ⟨key, encrypted, h1, h2, h4, h6⟩

theorem set_iv_region {tag iv encrypted : List Nat} (v : Nat)
    (htag : tag.length = QED_SIGNATURE_LENGTH) (hiv : iv ≠ []) :
    (tag ++ iv ++ encrypted).set QED_SIGNATURE_LENGTH v = tag ++ iv.set 0 v ++ encrypted := by
  rw [List.append_assoc, ← htag, List.set_append_right _ _ (Nat.le_refl _), Nat.sub_self]
  cases iv with
  | nil => exact absurd rfl hiv
  | cons a as => simp

theorem scenario_tampered_facts :
    (scenario_envelope.set 32 6).length = scenario_envelope.length ∧
      (scenario_envelope.set 32 6).take QED_SIGNATURE_LENGTH =
        scenario_envelope.take QED_SIGNATURE_LENGTH ∧
      (scenario_envelope.set 32 6).drop (QED_SIGNATURE_LENGTH + 16) =
        scenario_envelope.drop (QED_SIGNATURE_LENGTH + 16) :=
  ⟨by simp, take_set_of_le _ (by decide), List.drop_set_of_lt _ _ (by decide)⟩

/-- Counterexample to C2 as stated: in the envelope of the 1000 bytes of `0x41`
under `"doc"`, whose byte at offset 32 is the first IV byte 7, that byte is
changed to 6.  `qed_quantum_decrypt` does not fail: the signature check passes
and the call returns `QED_SUCCESS` with 1000 bytes whose first byte is `0x40`. -/
theorem iv_tamper_undetected :
    scenario_envelope.getD 32 0 = 7 ∧
    qed_quantum_decrypt ref_prim scenario_encryption.device doc (scenario_envelope.set 32 6) =
      ⟨QED_SUCCESS, some (0x40 :: List.replicate 999 0x41), scenario_encryption.device⟩ := by
  obtain ⟨key, encrypted, hgen0, _, haes, hE⟩ := scenario_parts
  have htag : (ref_hash (encrypted ++ key ++
      scenario_encryption.device.hardware_sig.quantum_noise)).length = QED_SIGNATURE_LENGTH :=
    ref_hash_length _
  obtain ⟨hl, ht, hc⟩ := scenario_tampered_facts
  have hdec := @decrypt_same_tag_and_ciphertext ref_prim _ _ _ _ _ _ _ ref_hash_length
    ref_device_table_length (by decide : doc.length ≤ QED_MAX_KEY_ID_LENGTH - 1)
    (by decide : scenario_iv.length = 16) scenario_encryption_eq hl ht hc
  have hset : scenario_envelope.set 32 6 =
      ref_hash (encrypted ++ key ++ scenario_encryption.device.hardware_sig.quantum_noise) ++
        scenario_iv.set 0 6 ++ encrypted := by
    rw [hE]; exact set_iv_region 6 htag (by decide)
  obtain ⟨_, hiv1, _, _⟩ := envelope_parts (ref_hash (encrypted ++ key ++
    scenario_encryption.device.hardware_sig.quantum_noise)) (scenario_iv.set 0 6) encrypted htag (by simp [scenario_iv])
  obtain ⟨_, _, hct, _⟩ := envelope_parts (ref_hash (encrypted ++ key ++
    scenario_encryption.device.hardware_sig.quantum_noise)) (scenario_iv) encrypted htag (by decide)
  rw [← hset] at hiv1
  rw [← hE] at hct
  constructor
  · rw [hE, List.getD_eq_getElem?_getD, List.append_assoc,
      List.getElem?_append_right (by rw [htag]; decide), htag]
    rfl
  · rw [hdec, hgen0, hiv1, hct]
    have hp : scenario_plaintext = 0x41 :: List.replicate 999 0x41 := rfl
    rw [hp] at haes
    have := ref_decrypt_other_iv key scenario_iv (List.replicate 999 0x41) encrypted 0x41 6
      (by decide) haes
    simp only [Option.getD_some]
    show (match ref_decrypt key (scenario_iv.set 0 6) encrypted with
      | none => (⟨QED_ERROR_DECRYPTION, none, scenario_encryption.device⟩ : qed_outcome)
      | some decrypted => ⟨QED_SUCCESS, some decrypted, scenario_encryption.device⟩) = _
    rw [this]
    rfl

/-- Witness of C2 (amended): the scenario envelope with its byte at offset 32
changed is not answered with `QED_ERROR_SIGNATURE_MISMATCH`. -/
theorem iv_tamper_passes_signature_witness :
    (qed_quantum_decrypt ref_prim scenario_encryption.device doc
      (scenario_envelope.set 32 6)).result ≠ QED_ERROR_SIGNATURE_MISMATCH :=
  (iv_tamper_passes_signature ref_prim ref_device scenario_encryption.device doc scenario_iv
    scenario_plaintext scenario_envelope (scenario_envelope.set 32 6) ref_hash_length
    ref_device_table_length (by decide) (by decide) scenario_encryption_eq
    scenario_tampered_facts.1 scenario_tampered_facts.2.1 scenario_tampered_facts.2.2).1

/-! ## Evaluations on the reference device -/

theorem small_encryption_eq :
    small_encryption = ⟨QED_SUCCESS, some small_envelope, small_encryption.device⟩ := by
  set_option maxRecDepth 1000000 in decide

/-- Witness of C3 (amended): in the envelope of three bytes under `"doc"`, bit 0
of the first ciphertext byte (offset 48) is flipped; the two hash inputs do not
collide and decryption answers `QED_ERROR_SIGNATURE_MISMATCH`. -/
theorem ciphertext_tamper_detected_witness :
    qed_quantum_decrypt ref_prim small_encryption.device doc (flip_bit small_envelope 48 0) =
      ⟨QED_ERROR_SIGNATURE_MISMATCH, none, small_encryption.device⟩ :=
  ciphertext_tamper_detected ref_prim ref_device small_encryption.device doc scenario_iv
    [0x41, 0x42, 0x43] small_envelope 48 0 ref_hash_length ref_device_table_length
    (by decide) (by decide) small_encryption_eq (by decide)
    (by set_option maxRecDepth 1000000 in decide)

/-- Counterexample to C3 as stated (every key id): the envelope made under the
256-byte identifier with the last free slot has bit 0 of its byte at offset 48
flipped; the two hash inputs do not collide, yet decryption fails with
`QED_ERROR_KEY_LIMIT_REACHED`, not with `QED_ERROR_SIGNATURE_MISMATCH`. -/
theorem ciphertext_tamper_long_id :
    derive_all ref_prim ref_device (key_names 1023) = nearly_full_device ∧
    long_id_encryption.result = QED_SUCCESS ∧
    ref_prim.SHA256
        ((flip_bit (long_id_encryption.out.getD []) 48 0).drop 48 ++
          (qed_generate_quantum_key ref_prim nearly_full_device long_id
            QED_KEY_LENGTH).out.getD [] ++
          nearly_full_device.hardware_sig.quantum_noise) ≠
      ref_prim.SHA256
        ((long_id_encryption.out.getD []).drop 48 ++
          (qed_generate_quantum_key ref_prim nearly_full_device long_id
            QED_KEY_LENGTH).out.getD [] ++
          nearly_full_device.hardware_sig.quantum_noise) ∧
    (qed_quantum_decrypt ref_prim long_id_encryption.device long_id
        (flip_bit (long_id_encryption.out.getD []) 48 0)).result =
      QED_ERROR_KEY_LIMIT_REACHED := by
  have hlim := generate_on_filled_limit ref_prim ref_device (key_names 1023 ++ [long_id])
    long_id ref_device_fresh.1 (by simp [key_names_length, QED_MAX_KEYS])
    (long_id_no_match _)
  have hdec := @decrypt_key_error ref_prim
    (device_with_keys ref_prim ref_device (key_names 1023 ++ [long_id])) long_id
    (flip_bit long_id_envelope 48 0)
    (by rw [(flip_bit_parts _ 48 0 (by decide)).1, long_id_envelope_length]; decide)
    (by rw [hlim]; decide)
  rw [hlim] at hdec
  have hnoise : nearly_full_device.hardware_sig.quantum_noise =
      ref_device.hardware_sig.quantum_noise := by
    rw [nearly_full_device_eq]; rfl
  rw [long_id_encryption_eq, long_id_generate, hnoise]
  refine ⟨nearly_full_device_reached, rfl, ?_, ?_⟩
  · simp only [Option.getD_some]
    set_option maxRecDepth 1000000 in decide
  · simp only [Option.getD_some]; rw [hdec]

/-- Witness of C4: the layout of the envelope of the 1000 bytes under `"doc"`. -/
theorem envelope_layout_witness :
    ∃ key encrypted,
      qed_generate_quantum_key ref_prim ref_device doc QED_KEY_LENGTH =
        ⟨QED_SUCCESS, some key, scenario_encryption.device⟩ ∧
      ref_prim.aes_256_cbc_encrypt key scenario_iv scenario_plaintext = some encrypted ∧
      scenario_envelope.length = 32 + 16 + encrypted.length ∧
      scenario_envelope.take 32 =
        ref_prim.SHA256 (encrypted ++ key ++ ref_device.hardware_sig.quantum_noise) ∧
      (scenario_envelope.drop 32).take 16 = scenario_iv ∧
      scenario_envelope.drop 48 = encrypted ∧
      0 < encrypted.length ∧ encrypted.length % 16 = 0 :=
  envelope_layout ref_prim ref_device scenario_encryption.device doc scenario_iv
    scenario_plaintext scenario_envelope ref_hash_length (by decide) ref_encrypt_padded
    scenario_encryption_eq

theorem qed_init_wellTyped (prim : Primitives) (cpu_mhz : Option Nat)
    (info : Option (Nat × Nat)) : (qed_init prim cpu_mhz info).device.WellTyped := by
  have hz : ∀ k ∈ List.replicate QED_MAX_KEYS zero_key,
      k.key_data.length = QED_KEY_LENGTH ∧ k.key_id.length ≤ QED_MAX_KEY_ID_LENGTH - 1 := by
    intro k hk
    rw [List.eq_of_mem_replicate hk]
    simp [zero_key]
  cases info with
  | none =>
    cases cpu_mhz <;>
      exact ⟨by simp [qed_init, qed_detect_cpu_frequency, qed_detect_ram_signature, zero_device],
        by simp [qed_init, qed_detect_cpu_frequency, qed_detect_ram_signature, zero_device],
        by simpa [qed_init, qed_detect_cpu_frequency, qed_detect_ram_signature, zero_device]
          using hz⟩
  | some p =>
    cases cpu_mhz <;>
      exact ⟨by simp [qed_init, qed_detect_cpu_frequency, qed_detect_ram_signature,
          qed_measure_quantum_noise, zero_device],
        by simp [qed_init, qed_detect_cpu_frequency, qed_detect_ram_signature,
          qed_measure_quantum_noise, zero_device, List.length_take],
        by simpa [qed_init, qed_detect_cpu_frequency, qed_detect_ram_signature,
          qed_measure_quantum_noise, zero_device] using hz⟩

theorem scenario_envelope_length : 48 ≤ scenario_envelope.length := by
  obtain ⟨key, encrypted, _, _, _, hE⟩ := scenario_parts
  have hiv : scenario_iv.length = 16 := rfl
  rw [hE]
  simp only [List.length_append, ref_hash_length, hiv]
  omega

/-- Witness of C5: on the reference device, for the envelope of the 1000 bytes
under `"doc"`. -/
theorem fail_closed_gate_witness :
    (qed_quantum_decrypt ref_prim ref_device doc scenario_envelope).result =
        QED_ERROR_SIGNATURE_MISMATCH ↔
      scenario_envelope.take 32 ≠
        ref_prim.SHA256 (scenario_envelope.drop 48 ++
          (qed_generate_quantum_key ref_prim ref_device doc QED_KEY_LENGTH).out.getD [] ++
          ref_device.hardware_sig.quantum_noise) := by
  obtain ⟨key, _, hgen, _, _, _⟩ := scenario_parts
  have h := (fail_closed_gate ref_prim ref_device scenario_encryption.device doc key
    scenario_envelope ref_hash_length (qed_init_wellTyped _ _ _) scenario_envelope_length
    hgen).1
  rw [hgen]
  exact h

/-! ## Calls that keep a derived key -/

theorem encrypt_device (prim : Primitives) (device : qed_device_t) (key_id : List Nat)
    (iv : Option (List Nat)) (plaintext : List Nat) :
    (qed_quantum_encrypt prim device key_id iv plaintext).device =
      if plaintext.length = 0 then device
      else (qed_generate_quantum_key prim device key_id QED_KEY_LENGTH).device := by
  unfold qed_quantum_encrypt
  by_cases hp : plaintext.length = 0
  · simp [hp]
  · simp only [hp, if_false]
    split_ifs
    · rfl
    · cases iv with
      | none => rfl
      | some iv =>
        simp only []
        split
        · rfl
        · split_ifs <;> rfl

theorem decrypt_device (prim : Primitives) (device : qed_device_t)
    (key_id ciphertext : List Nat) :
    (qed_quantum_decrypt prim device key_id ciphertext).device =
      if ciphertext.length < QED_SIGNATURE_LENGTH + 16 then device
      else (qed_generate_quantum_key prim device key_id QED_KEY_LENGTH).device := by
  unfold qed_quantum_decrypt
  by_cases hp : ciphertext.length < QED_SIGNATURE_LENGTH + 16
  · simp [hp]
  · simp only [hp, if_false]
    split_ifs
    · rfl
    · rfl
    · split <;> rfl

theorem holds_key_generate_any {prim : Primitives} {device : qed_device_t}
    {key_id key : List Nat} (h : holds_key device key_id key) (other : List Nat)
    (key_length : Nat) :
    holds_key (qed_generate_quantum_key prim device other key_length).device key_id key := by
  obtain ⟨hinit, htab, j, hfind, hkey⟩ := h
  by_cases hlen : key_length = 0
  · subst hlen
    rw [generate_zero_length]
    exact ⟨hinit, htab, j, hfind, hkey⟩
  cases hf : find_key device.quantum_keys device.key_count other with
  | some i =>
    rw [generate_found hinit hlen hf]
    exact ⟨hinit, htab, j, hfind, hkey⟩
  | none =>
    by_cases hroom : device.key_count < QED_MAX_KEYS
    · rw [generate_new hinit hlen hf hroom]
      obtain ⟨hj, hm, hlt⟩ := find_key_eq_some.mp hfind
      refine ⟨hinit, by simpa using htab, j, ?_, ?_⟩
      · rw [find_key_eq_some]
        refine ⟨Nat.lt_succ_of_lt hj, ?_, ?_⟩
        · simp only []
          rw [getD_set_ne _ (Nat.ne_of_gt hj)]
          exact hm
        · intro i hi
          simp only []
          rw [getD_set_ne _ (Nat.ne_of_gt (Nat.lt_trans hi hj))]
          exact hlt i hi
      · simp only []
        rw [getD_set_ne _ (Nat.ne_of_gt hj)]
        exact hkey
    · rw [generate_limit hinit hlen hf (Nat.le_of_not_lt hroom)]
      exact ⟨hinit, htab, j, hfind, hkey⟩

theorem key_matches_two {key_id other : List Nat} {k : qed_quantum_key_t}
    (h1 : key_matches other k = true) (hne : other ≠ key_id) :
    key_matches key_id k = false := by
  simp only [key_matches, Bool.and_eq_true, beq_iff_eq] at h1
  simp only [key_matches, Bool.and_eq_false_imp, beq_eq_false_iff_ne]
  intro _ h
  exact hne (h1.2.symm.trans h)

theorem holds_key_wipe_other {device : qed_device_t} {key_id key : List Nat}
    (h : holds_key device key_id key) (other : List Nat) (hne : other ≠ key_id) :
    holds_key (qed_quantum_wipe device other).device key_id key := by
  obtain ⟨hinit, htab, j, hfind, hkey⟩ := h
  unfold qed_quantum_wipe
  cases hf : find_key device.quantum_keys device.key_count other with
  | none => exact ⟨hinit, htab, j, hfind, hkey⟩
  | some i =>
    obtain ⟨hj, hm, hlt⟩ := find_key_eq_some.mp hfind
    obtain ⟨_, hmi, _⟩ := find_key_eq_some.mp hf
    have hij : i ≠ j := by
      rintro rfl
      rw [key_matches_two hmi hne] at hm
      cases hm
    refine ⟨hinit, by simpa using htab, j, ?_, ?_⟩
    · rw [find_key_eq_some]
      refine ⟨hj, ?_, ?_⟩
      · simp only []
        rw [getD_set_ne _ hij]
        exact hm
      · intro i1 hi1
        simp only []
        by_cases hii : i = i1
        · subst hii
          rw [getD_set_eq _ (find_key_lt_length hf)]
          exact key_matches_zero_key _
        · rw [getD_set_ne _ hii]
          exact hlt i1 hi1
    · simp only []
      rw [getD_set_ne _ hij]
      exact hkey

theorem holds_key_run {prim : Primitives} {device : qed_device_t} {key_id key : List Nat}
    (h : holds_key device key_id key) (c : qed_call) (hc : c.wipes key_id = false) :
    holds_key (c.run prim device).device key_id key := by
  cases c with
  | generate_quantum_key other key_length => exact holds_key_generate_any h other key_length
  | quantum_wipe other =>
    exact holds_key_wipe_other h other (by simpa [qed_call.wipes] using hc)
  | quantum_wipe_all => simp [qed_call.wipes] at hc
  | quantum_encrypt other iv plaintext =>
    simp only [qed_call.run, encrypt_device]
    split_ifs
    · exact h
    · exact holds_key_generate_any h other QED_KEY_LENGTH
  | quantum_decrypt other ciphertext =>
    simp only [qed_call.run, decrypt_device]
    split_ifs
    · exact h
    · exact holds_key_generate_any h other QED_KEY_LENGTH

theorem holds_key_run_calls {prim : Primitives} {device : qed_device_t}
    {key_id key : List Nat} (h : holds_key device key_id key) (calls : List qed_call)
    (hc : ∀ c ∈ calls, c.wipes key_id = false) :
    holds_key (run_calls prim device calls) key_id key := by
  induction calls generalizing device with
  | nil => exact h
  | cons c cs ih =>
    simp only [run_calls]
    exact ih (holds_key_run h c (hc c (List.mem_cons_self _ _)))
      (fun c1 h1 => hc c1 (List.mem_cons_of_mem _ h1))

/-- Claim C6: if `qed_generate_quantum_key(device, id, 32)` succeeds with key
`key` for an identifier of at most 255 bytes, then after any sequence of calls
that contains no `qed_quantum_wipe` of that identifier and no
`qed_quantum_wipe_all` (derivations, encryptions, decryptions and wipes of other
identifiers may intervene), the same call succeeds, returns the same 32 bytes
and leaves the device, key table and `key_count` included, unchanged. -/
theorem idempotent_derivation (prim : Primitives) (device : qed_device_t)
    (key_id key : List Nat) (calls : List qed_call)
    (hsha : ∀ d, (prim.SHA256 d).length = 32)
    (htab : device.quantum_keys.length = QED_MAX_KEYS)
    (hid : key_id.length ≤ QED_MAX_KEY_ID_LENGTH - 1)
    (hres : (qed_generate_quantum_key prim device key_id QED_KEY_LENGTH).result = QED_SUCCESS)
    (hkey : (qed_generate_quantum_key prim device key_id QED_KEY_LENGTH).out = some key)
    (hcalls : ∀ c ∈ calls, c.wipes key_id = false) :
    qed_generate_quantum_key prim
        (run_calls prim (qed_generate_quantum_key prim device key_id QED_KEY_LENGTH).device
          calls) key_id QED_KEY_LENGTH =
      ⟨QED_SUCCESS, some key,
        run_calls prim (qed_generate_quantum_key prim device key_id QED_KEY_LENGTH).device
          calls⟩ := by
  have hgen : qed_generate_quantum_key prim device key_id QED_KEY_LENGTH =
      ⟨QED_SUCCESS, some key,
        (qed_generate_quantum_key prim device key_id QED_KEY_LENGTH).device⟩ := by
    cases h : qed_generate_quantum_key prim device key_id QED_KEY_LENGTH
    rw [h] at hres hkey
    simp only at hres hkey
    rw [hres, hkey]
  exact holds_key_generate
    (holds_key_run_calls (generate_holds_key hsha htab hid hgen) calls hcalls)

/-- Witness of C6: `"doc"` derived on the reference device, then again after
`intervening_calls`. -/
theorem idempotent_derivation_witness :
    qed_generate_quantum_key ref_prim
        (run_calls ref_prim (qed_generate_quantum_key ref_prim ref_device doc
          QED_KEY_LENGTH).device intervening_calls) doc QED_KEY_LENGTH =
      ⟨QED_SUCCESS, some ref_key,
        run_calls ref_prim (qed_generate_quantum_key ref_prim ref_device doc
          QED_KEY_LENGTH).device intervening_calls⟩ :=
  idempotent_derivation ref_prim ref_device doc ref_key intervening_calls ref_hash_length
    ref_device_table_length (by decide) (by decide)
    (by set_option maxRecDepth 1000000 in decide) (by decide)

/-! ## The capacity of the key table -/

theorem derive_all_fresh (prim : Primitives) (device : qed_device_t) (ids : List (List Nat))
    (hinit : device.initialized = true) (hcount : device.key_count = 0)
    (hkeys : device.quantum_keys = List.replicate QED_MAX_KEYS zero_key)
    (hshort : ∀ x ∈ ids, x.length ≤ QED_MAX_KEY_ID_LENGTH - 1)
    (hnodup : ids.Nodup) (hlen : ids.length ≤ QED_MAX_KEYS) :
    derive_all prim device ids = device_with_keys prim device ids := by
  have h := derive_all_filled prim device ids [] hinit (by simpa using hshort)
    (by simpa using hnodup) (by simpa using hlen)
  rw [device_with_keys_nil _ _ hkeys hcount] at h
  simpa using h

theorem not_mem_take_of_nodup {ids : List (List Nat)} (hnodup : ids.Nodup) {k : Nat}
    (hk : k < ids.length) : ids.getD k [] ∉ ids.take k := by
  have hsplit : ids = ids.take k ++ ids.getD k [] :: ids.drop (k + 1) := by
    rw [List.getD_eq_getElem?_getD, List.getElem?_eq_getElem hk, Option.getD_some,
      ← List.drop_eq_getElem_cons hk, List.take_append_drop]
  rw [hsplit] at hnodup
  intro hmem
  exact (List.nodup_append.mp hnodup).2.2 hmem (List.mem_cons_self _ _)

/-- Claim C7: starting from the device `qed_init` leaves, deriving 32-byte keys
for 1024 pairwise distinct identifiers of at most 255 bytes succeeds for each of
them, and a derivation for any further identifier outside the 1024 fails with
`QED_ERROR_KEY_LIMIT_REACHED`, writes no key and leaves the device, its key
table included, unchanged. -/
theorem capacity_bound (prim : Primitives) (cpu_mhz : Option Nat) (info : Option (Nat × Nat))
    (ids : List (List Nat))
    (hinit : (qed_init prim cpu_mhz info).result = QED_SUCCESS)
    (hlen : ids.length = QED_MAX_KEYS) (hnodup : ids.Nodup)
    (hshort : ∀ x ∈ ids, x.length ≤ QED_MAX_KEY_ID_LENGTH - 1) :
    (∀ k, k < QED_MAX_KEYS →
      (qed_generate_quantum_key prim
        (derive_all prim (qed_init prim cpu_mhz info).device (ids.take k))
        (ids.getD k []) QED_KEY_LENGTH).result = QED_SUCCESS) ∧
    (∀ key_id, key_id ∉ ids →
      qed_generate_quantum_key prim (derive_all prim (qed_init prim cpu_mhz info).device ids)
          key_id QED_KEY_LENGTH =
        ⟨QED_ERROR_KEY_LIMIT_REACHED, none,
          derive_all prim (qed_init prim cpu_mhz info).device ids⟩) := by
  obtain ⟨h1, h2, h3⟩ := qed_init_success hinit
  constructor
  · intro k hk
    have hsub : ∀ x ∈ ids.take k, x ∈ ids := fun x hx => List.mem_of_mem_take hx
    rw [derive_all_fresh prim _ (ids.take k) h1 h2 h3 (fun x hx => hshort x (hsub x hx))
      (List.Nodup.sublist (List.take_sublist k ids) hnodup)
      (by rw [List.length_take]; omega)]
    rw [generate_on_filled prim _ (ids.take k) (ids.getD k []) h1
      (by rw [List.length_take]; omega)]
    intro x hx
    rw [take_of_short (hshort x (hsub x hx))]
    rintro rfl
    exact not_mem_take_of_nodup hnodup (by omega) hx
  · intro key_id hnot
    rw [derive_all_fresh prim _ ids h1 h2 h3 hshort hnodup (Nat.le_of_eq hlen)]
    apply generate_on_filled_limit prim _ ids key_id h1 (Nat.le_of_eq hlen.symm)
    intro x hx
    rw [take_of_short (hshort x hx)]
    rintro rfl
    exact hnot hx

theorem doc_not_key_name (n : Nat) : doc ∉ key_names n := by
  intro h
  simp only [key_names, List.mem_map] at h
  obtain ⟨i, _, hi⟩ := h
  have := congrArg List.length hi
  simp [key_name, doc] at this

/-- Witness of C7: the 1024 two-byte names on the reference device; the last of
them still succeeds, and the further identifier `"doc"` fails. -/
theorem capacity_bound_witness :
    (qed_generate_quantum_key ref_prim
        (derive_all ref_prim ref_device ((key_names 1024).take 1023))
        ((key_names 1024).getD 1023 []) QED_KEY_LENGTH).result = QED_SUCCESS ∧
    qed_generate_quantum_key ref_prim (derive_all ref_prim ref_device (key_names 1024))
        doc QED_KEY_LENGTH =
      ⟨QED_ERROR_KEY_LIMIT_REACHED, none,
        derive_all ref_prim ref_device (key_names 1024)⟩ :=
  ⟨(capacity_bound ref_prim none (some (16000000000, 8000000000)) (key_names 1024) rfl
      (key_names_length 1024) (key_names_nodup 1024) (key_names_short 1024)).1 1023
      (by decide),
    (capacity_bound ref_prim none (some (16000000000, 8000000000)) (key_names 1024) rfl
      (key_names_length 1024) (key_names_nodup 1024) (key_names_short 1024)).2 doc
      (doc_not_key_name 1024)⟩

/-! ## Capacity after a wipe -/

theorem has_active_key_false {device : qed_device_t} {key_id : List Nat}
    (h : has_active_key device key_id = false) (j : Nat) :
    key_matches key_id (device.quantum_keys.getD j zero_key) = false := by
  by_cases hj : j < device.quantum_keys.length
  · simp only [has_active_key, List.any_eq_false] at h
    have hmem : device.quantum_keys.getD j zero_key ∈ device.quantum_keys := by
      simp [List.getD_eq_getElem?_getD, List.getElem?_eq_getElem hj]
    simpa using h _ hmem
  · simp [List.getD_eq_getElem?_getD, List.getElem?_eq_none (Nat.le_of_not_lt hj),
      key_matches_zero_key]

theorem find_key_of_no_active_key {device : qed_device_t} {key_id : List Nat}
    (h : has_active_key device key_id = false) (n : Nat) :
    find_key device.quantum_keys n key_id = none :=
  find_key_eq_none.mpr fun j _ => has_active_key_false h j

theorem wipe_key_count (device : qed_device_t) (key_id : List Nat) :
    (qed_quantum_wipe device key_id).device.key_count = device.key_count ∧
      (qed_quantum_wipe device key_id).device.initialized = device.initialized := by
  unfold qed_quantum_wipe
  cases find_key device.quantum_keys device.key_count key_id <;> exact ⟨rfl, rfl⟩

theorem wipe_no_active_key {device : qed_device_t} {key_id : List Nat}
    (h : has_active_key device key_id = false) (wiped : List Nat) :
    has_active_key (qed_quantum_wipe device wiped).device key_id = false := by
  unfold qed_quantum_wipe
  cases hf : find_key device.quantum_keys device.key_count wiped with
  | none => exact h
  | some i =>
    simp only [has_active_key, List.any_eq_false] at h ⊢
    intro k hk
    rcases List.mem_or_eq_of_mem_set hk with hmem | rfl
    · exact h k hmem
    · simp [key_matches_zero_key]

/-- Claim C8, as amended: capacity is counted by `key_count`, the number of
slots handed out since `qed_init` or the last `qed_quantum_wipe_all`, wiped
slots included.  For an initialized device and an identifier with no active
key, `qed_generate_quantum_key` fails with `QED_ERROR_KEY_LIMIT_REACHED` if and
only if `key_count` has reached 1024; `qed_quantum_wipe` leaves `key_count` as it
is, so on a device whose 1024 slots were handed out the derivation of such an
identifier still fails after a wipe, and the device is left unchanged. -/
theorem capacity_counts_slots (prim : Primitives) (device : qed_device_t)
    (key_id wiped : List Nat) (key_length : Nat)
    (hinit : device.initialized = true) (hlen : key_length ≠ 0)
    (hno : has_active_key device key_id = false) :
    ((qed_generate_quantum_key prim device key_id key_length).result =
        QED_ERROR_KEY_LIMIT_REACHED ↔ QED_MAX_KEYS ≤ device.key_count) ∧
      (qed_quantum_wipe device wiped).device.key_count = device.key_count ∧
      (QED_MAX_KEYS ≤ device.key_count →
        qed_generate_quantum_key prim (qed_quantum_wipe device wiped).device key_id
            key_length =
          ⟨QED_ERROR_KEY_LIMIT_REACHED, none, (qed_quantum_wipe device wiped).device⟩) := by
  have hfind := find_key_of_no_active_key hno device.key_count
  refine ⟨?_, (wipe_key_count device wiped).1, ?_⟩
  · by_cases hroom : device.key_count < QED_MAX_KEYS
    · rw [generate_new hinit hlen hfind hroom]
      constructor
      · intro h; cases h
      · intro h; omega
    · rw [generate_limit hinit hlen hfind (Nat.le_of_not_lt hroom)]
      exact ⟨fun _ => Nat.le_of_not_lt hroom, fun _ => rfl⟩
  · intro hfull
    have hw := wipe_key_count device wiped
    exact generate_limit (by rw [hw.2]; exact hinit) hlen
      (find_key_of_no_active_key (wipe_no_active_key hno wiped) _) (by rw [hw.1]; exact hfull)

theorem has_active_key_filled (prim : Primitives) (device : qed_device_t)
    (ids : List (List Nat)) (key_id : List Nat)
    (h : ∀ x ∈ ids, x.take (QED_MAX_KEY_ID_LENGTH - 1) ≠ key_id) :
    has_active_key (device_with_keys prim device ids) key_id = false := by
  simp only [has_active_key, device_with_keys, table_of, List.any_eq_false, List.mem_append,
    List.mem_map]
  rintro k (⟨x, hx, rfl⟩ | hk)
  · simpa [key_matches, derived_slot] using h x hx
  · rw [List.eq_of_mem_replicate hk]
    simp [key_matches_zero_key]

theorem countP_in_use_map (prim : Primitives) (hw_sig : qed_hardware_sig_t)
    (ids : List (List Nat)) :
    (ids.map (derived_slot prim hw_sig)).countP (fun k => k.in_use) = ids.length := by
  induction ids with
  | nil => rfl
  | cons x xs ih => simp [derived_slot, ih]

theorem countP_in_use_zero (n : Nat) :
    (List.replicate n zero_key).countP (fun k => k.in_use) = 0 := by
  induction n with
  | zero => rfl
  | succ n ih => simp [List.replicate_succ, zero_key]

theorem full_device_eq :
    full_device = device_with_keys ref_prim ref_device (key_names 1024) := rfl

theorem full_device_reached :
    derive_all ref_prim ref_device (key_names 1024) = full_device :=
  derive_all_key_names 1024 (by decide)

theorem key_names_cons (n : Nat) :
    key_names (n + 1) = key_name 0 :: (List.range n).map fun i => key_name (i + 1) := by
  simp [key_names, List.range_succ_eq_map, Function.comp_def]

theorem new_id_no_match (n : Nat) (hn : n ≤ 1024) :
    ∀ x ∈ key_names n, x.take (QED_MAX_KEY_ID_LENGTH - 1) ≠ new_id := by
  intro x hx
  rw [take_of_short (key_names_short n x hx)]
  simp only [key_names, List.mem_map, List.mem_range] at hx
  obtain ⟨i, hi, rfl⟩ := hx
  simp only [key_name, new_id, ne_eq, List.cons.injEq, and_true, not_and]
  omega

theorem wiped_device_eq :
    qed_quantum_wipe full_device (key_name 0) =
      ⟨QED_SUCCESS, none,
        { device_with_keys ref_prim ref_device (key_names 1024) with
          quantum_keys :=
            (table_of ref_prim ref_device.hardware_sig (key_names 1024)).set 0 zero_key }⟩ := by
  have hfind : find_key (table_of ref_prim ref_device.hardware_sig (key_names 1024)) 1024
      (key_name 0) = some 0 := by
    rw [find_key_eq_some]
    refine ⟨by decide, ?_, fun j hj => absurd hj (Nat.not_lt_zero j)⟩
    rw [table_of_getD_lt _ _ _ _ (by rw [key_names_length]; decide), key_names_cons]
    rfl
  rw [full_device_eq]
  simp only [qed_quantum_wipe, device_with_keys, key_names_length, hfind]

/-- Counterexample to C8 as stated: on the reference device 1024 distinct
identifiers are derived (`full_device`) and the first of them is wiped.  1023
keys are active and the identifier `new_id` has no active key, yet its
derivation fails with `QED_ERROR_KEY_LIMIT_REACHED`. -/
theorem wipe_does_not_free_capacity :
    derive_all ref_prim ref_device (key_names 1024) = full_device ∧
    qed_quantum_wipe full_device (key_name 0) = ⟨QED_SUCCESS, none, wiped_device⟩ ∧
    wiped_device.initialized = true ∧
    active_keys wiped_device = 1023 ∧
    has_active_key wiped_device new_id = false ∧
    (qed_generate_quantum_key ref_prim wiped_device new_id QED_KEY_LENGTH).result =
      QED_ERROR_KEY_LIMIT_REACHED := by
  have hdef : wiped_device =
      { device_with_keys ref_prim ref_device (key_names 1024) with
        quantum_keys :=
          (table_of ref_prim ref_device.hardware_sig (key_names 1024)).set 0 zero_key } := by
    rw [wiped_device, wiped_device_eq]
  have hno : has_active_key wiped_device new_id = false := by
    rw [wiped_device]
    apply wipe_no_active_key
    rw [full_device_eq]
    exact has_active_key_filled _ _ _ _ (new_id_no_match 1024 (by decide))
  have hinit : wiped_device.initialized = true := by
    rw [hdef]
    exact ref_device_fresh.1
  have hcount : wiped_device.key_count = 1024 := by
    rw [hdef]
    simp only [device_with_keys, key_names_length]
  refine ⟨full_device_reached, by rw [wiped_device_eq, hdef], hinit, ?_, hno, ?_⟩
  · rw [hdef]
    simp only [active_keys, device_with_keys, table_of, key_names_cons 1023, List.map_cons,
      List.cons_append, List.set_cons_zero, List.countP_cons, List.countP_append,
      countP_in_use_map, countP_in_use_zero]
    simp [zero_key]
  · rw [generate_limit hinit (by decide) (find_key_of_no_active_key hno _)
      (by rw [hcount]; decide)]

/-- Witness of C8 (amended): the reference device with its 1024 slots handed
out, the identifier `new_id`, and the wipe of the first identifier. -/
theorem capacity_counts_slots_witness :
    ((qed_generate_quantum_key ref_prim full_device new_id QED_KEY_LENGTH).result =
        QED_ERROR_KEY_LIMIT_REACHED ↔ QED_MAX_KEYS ≤ full_device.key_count) ∧
      (qed_quantum_wipe full_device (key_name 0)).device.key_count = full_device.key_count ∧
      (QED_MAX_KEYS ≤ full_device.key_count →
        qed_generate_quantum_key ref_prim (qed_quantum_wipe full_device (key_name 0)).device
            new_id QED_KEY_LENGTH =
          ⟨QED_ERROR_KEY_LIMIT_REACHED, none,
            (qed_quantum_wipe full_device (key_name 0)).device⟩) :=
  capacity_counts_slots ref_prim full_device new_id (key_name 0) QED_KEY_LENGTH
    (by rw [full_device_eq]; exact ref_device_fresh.1) (by decide)
    (by rw [full_device_eq]
        exact has_active_key_filled _ _ _ _ (new_id_no_match 1024 (by decide)))

/-! ## What a new derivation stores -/

theorem countP_set_one {p : qed_quantum_key_t → Bool} {l : List qed_quantum_key_t}
    {i : Nat} {x : qed_quantum_key_t} (hnone : ∀ k ∈ l, p k = false) (hi : i < l.length)
    (hx : p x = true) : (l.set i x).countP p = 1 := by
  induction l generalizing i with
  | nil => simp at hi
  | cons y ys ih =>
    cases i with
    | zero =>
      have h0 : ys.countP p = 0 := by
        rw [List.countP_eq_zero]
        intro k hk
        simp [hnone k (List.mem_cons_of_mem _ hk)]
      simp [List.countP_cons, hx, h0]
    | succ i =>
      have hy : p y = false := hnone y (List.mem_cons_self _ _)
      simp only [List.set_cons_succ, List.countP_cons, hy, Bool.false_eq_true, if_false,
        Nat.add_zero]
      exact ih (fun k hk => hnone k (List.mem_cons_of_mem _ hk))
        (Nat.lt_of_succ_lt_succ hi)

/-- Claim C9: on an initialized device with `key_count < 1024`, for an
identifier of at most 255 bytes with no active key,
`qed_generate_quantum_key(device, id, 32)` succeeds and returns
`K = SHA256(generate(signature, 64) || quantum_noise)`, `generate` being
`qed_generate_hardware_resonance`; afterwards slot `key_count` holds the
identifier, `K` and `in_use`, it is the one active entry with that identifier,
every other slot is unchanged and `key_count` is one larger. -/
theorem derivation_postcondition (prim : Primitives) (device : qed_device_t)
    (key_id : List Nat) (hsha : ∀ d, (prim.SHA256 d).length = 32)
    (hwt : device.WellTyped) (hinit : device.initialized = true)
    (hroom : device.key_count < QED_MAX_KEYS)
    (hid : key_id.length ≤ QED_MAX_KEY_ID_LENGTH - 1)
    (hno : has_active_key device key_id = false) :
    qed_generate_quantum_key prim device key_id 32 =
        ⟨QED_SUCCESS,
          some (prim.SHA256 ((qed_generate_hardware_resonance prim device.hardware_sig 64).2 ++
            device.hardware_sig.quantum_noise)),
          { device with
            quantum_keys := device.quantum_keys.set device.key_count
              ⟨key_id, prim.SHA256 ((qed_generate_hardware_resonance prim
                device.hardware_sig 64).2 ++ device.hardware_sig.quantum_noise), true⟩,
            key_count := device.key_count + 1 }⟩ ∧
      (device.quantum_keys.set device.key_count
          ⟨key_id, prim.SHA256 ((qed_generate_hardware_resonance prim
            device.hardware_sig 64).2 ++ device.hardware_sig.quantum_noise),
            true⟩)[device.key_count]? =
        some ⟨key_id, prim.SHA256 ((qed_generate_hardware_resonance prim
          device.hardware_sig 64).2 ++ device.hardware_sig.quantum_noise), true⟩ ∧
      (∀ i, i ≠ device.key_count →
        (device.quantum_keys.set device.key_count
          ⟨key_id, prim.SHA256 ((qed_generate_hardware_resonance prim
            device.hardware_sig 64).2 ++ device.hardware_sig.quantum_noise), true⟩)[i]? =
          device.quantum_keys[i]?) ∧
      (device.quantum_keys.set device.key_count
          ⟨key_id, prim.SHA256 ((qed_generate_hardware_resonance prim
            device.hardware_sig 64).2 ++ device.hardware_sig.quantum_noise),
            true⟩).countP (key_matches key_id) = 1 := by
  have hin : device.key_count < device.quantum_keys.length := by rw [hwt.1]; exact hroom
  have hold : (device.quantum_keys.getD device.key_count zero_key).key_data.length = 32 := by
    have hmem : device.quantum_keys.getD device.key_count zero_key ∈ device.quantum_keys := by
      simp [List.getD_eq_getElem?_getD, List.getElem?_eq_getElem hin]
    exact (hwt.2.2 _ hmem).1
  have hslot : new_key_slot prim device key_id 32 =
      ⟨key_id, prim.SHA256 ((qed_generate_hardware_resonance prim device.hardware_sig 64).2 ++
        device.hardware_sig.quantum_noise), true⟩ := by
    have hl := hsha ((qed_generate_hardware_resonance prim device.hardware_sig 64).2 ++
      device.hardware_sig.quantum_noise)
    simp only [new_key_slot, take_of_short hid, memcpy, final_hash, QED_KEY_LENGTH,
      gt_iff_lt, Nat.lt_irrefl, if_false, Nat.reduceMul]
    rw [List.take_of_length_le (Nat.le_of_eq hl), List.drop_of_length_le (Nat.le_of_eq hold),
      List.append_nil]
  refine ⟨?_, ?_, ?_, ?_⟩
  · rw [generate_new hinit (by decide) (find_key_of_no_active_key hno _) hroom, hslot]
    simp [final_hash, QED_KEY_LENGTH, hsha]
  · simp [List.getElem?_set, hin]
  · intro i hi
    simp [List.getElem?_set, Ne.symm hi]
  · apply countP_set_one _ hin
    · simp [key_matches]
    · intro k hk
      simp only [has_active_key, List.any_eq_false] at hno
      simpa using hno k hk

theorem ref_device_no_active_key (key_id : List Nat) :
    has_active_key ref_device key_id = false := by
  simp only [has_active_key, ref_device_fresh.2.2, List.any_eq_false]
  intro k hk
  rw [List.eq_of_mem_replicate hk]
  simp [key_matches_zero_key]

/-- Witness of C9: the derivation of `"doc"` on the reference device. -/
theorem derivation_postcondition_witness :
    qed_generate_quantum_key ref_prim ref_device doc 32 =
      ⟨QED_SUCCESS,
        some (ref_prim.SHA256
          ((qed_generate_hardware_resonance ref_prim ref_device.hardware_sig 64).2 ++
            ref_device.hardware_sig.quantum_noise)),
        { ref_device with
          quantum_keys := ref_device.quantum_keys.set ref_device.key_count
            ⟨doc, ref_prim.SHA256
              ((qed_generate_hardware_resonance ref_prim ref_device.hardware_sig 64).2 ++
                ref_device.hardware_sig.quantum_noise), true⟩,
          key_count := ref_device.key_count + 1 }⟩ :=
  (derivation_postcondition ref_prim ref_device doc ref_hash_length
    (qed_init_wellTyped _ _ _) ref_device_fresh.1
    (by rw [ref_device_fresh.2.1]; decide) (by decide) (ref_device_no_active_key doc)).1

/-! ## Keys under different identifiers -/

theorem uniform_keys_init {prim : Primitives} {cpu_mhz : Option Nat}
    {info : Option (Nat × Nat)} (h : (qed_init prim cpu_mhz info).result = QED_SUCCESS) :
    uniform_keys prim (qed_init prim cpu_mhz info).device := by
  intro k hk hin
  rw [(qed_init_success h).2.2] at hk
  rw [List.eq_of_mem_replicate hk] at hin
  simp [zero_key] at hin

theorem uniform_keys_generate {prim : Primitives} {device : qed_device_t}
    (hsha : ∀ d, (prim.SHA256 d).length = 32) (h : uniform_keys prim device)
    (key_id : List Nat) :
    uniform_keys prim (qed_generate_quantum_key prim device key_id QED_KEY_LENGTH).device := by
  by_cases hinit : device.initialized = true
  · cases hf : find_key device.quantum_keys device.key_count key_id with
    | some i => rw [generate_found hinit (by decide) hf]; exact h
    | none =>
      by_cases hroom : device.key_count < QED_MAX_KEYS
      · rw [generate_new hinit (by decide) hf hroom]
        intro k hk hin
        rcases List.mem_or_eq_of_mem_set hk with hmem | rfl
        · exact h k hmem hin
        · have hl : (final_hash prim device.hardware_sig 32).length = 32 := hsha _
          simp [new_key_slot, memcpy, QED_KEY_LENGTH, List.take_append_eq_append_take, hl]
      · rw [generate_limit hinit (by decide) hf (Nat.le_of_not_lt hroom)]; exact h
  · rw [generate_uninitialized (by decide) (by simpa using hinit)]; exact h

theorem uniform_keys_run {prim : Primitives} {device : qed_device_t}
    (hsha : ∀ d, (prim.SHA256 d).length = 32) (h : uniform_keys prim device) (c : qed_call)
    (hc : c.at_key_length = true) : uniform_keys prim (c.run prim device).device := by
  cases c with
  | generate_quantum_key other key_length =>
    have hk : key_length = QED_KEY_LENGTH := by simpa [qed_call.at_key_length] using hc
    subst hk
    exact uniform_keys_generate hsha h other
  | quantum_wipe other =>
    simp only [qed_call.run, qed_quantum_wipe]
    cases find_key device.quantum_keys device.key_count other with
    | none => exact h
    | some i =>
      intro k hk hin
      rcases List.mem_or_eq_of_mem_set hk with hmem | rfl
      · exact h k hmem hin
      · simp [zero_key] at hin
  | quantum_wipe_all =>
    intro k hk hin
    simp only [qed_call.run, qed_quantum_wipe_all, List.mem_map] at hk
    obtain ⟨k0, _, rfl⟩ := hk
    by_cases h0 : k0.in_use = true
    · simp [h0, zero_key] at hin
    · simp [h0] at hin
  | quantum_encrypt other iv plaintext =>
    simp only [qed_call.run, encrypt_device]
    split_ifs
    · exact h
    · exact uniform_keys_generate hsha h other
  | quantum_decrypt other ciphertext =>
    simp only [qed_call.run, decrypt_device]
    split_ifs
    · exact h
    · exact uniform_keys_generate hsha h other

theorem uniform_keys_run_calls {prim : Primitives} {device : qed_device_t}
    (hsha : ∀ d, (prim.SHA256 d).length = 32) (h : uniform_keys prim device)
    (calls : List qed_call) (hc : ∀ c ∈ calls, c.at_key_length = true) :
    uniform_keys prim (run_calls prim device calls) := by
  induction calls generalizing device with
  | nil => exact h
  | cons c cs ih =>
    simp only [run_calls]
    exact ih (uniform_keys_run hsha h c (hc c (List.mem_cons_self _ _)))
      (fun c1 h1 => hc c1 (List.mem_cons_of_mem _ h1))

theorem uniform_keys_derived {prim : Primitives} {device : qed_device_t}
    {key_id key : List Nat} (hsha : ∀ d, (prim.SHA256 d).length = 32)
    (h : uniform_keys prim device)
    (hres : (qed_generate_quantum_key prim device key_id QED_KEY_LENGTH).result = QED_SUCCESS)
    (hkey : (qed_generate_quantum_key prim device key_id QED_KEY_LENGTH).out = some key) :
    key = final_hash prim device.hardware_sig QED_KEY_LENGTH := by
  obtain ⟨hinit, hlen⟩ := generate_success_initialized hres
  have hl : (final_hash prim device.hardware_sig 32).length = 32 := hsha _
  cases hf : find_key device.quantum_keys device.key_count key_id with
  | some i =>
    rw [generate_found hinit hlen hf] at hkey
    simp only [Option.some.injEq] at hkey
    have hi := find_key_lt_length hf
    have hmem : device.quantum_keys.getD i zero_key ∈ device.quantum_keys := by
      simp [List.getD_eq_getElem?_getD, List.getElem?_eq_getElem hi]
    have hm := (find_key_eq_some.mp hf).2.1
    simp only [key_matches, Bool.and_eq_true] at hm
    rw [← hkey]
    simpa [QED_KEY_LENGTH] using h _ hmem hm.1
  | none =>
    by_cases hroom : device.key_count < QED_MAX_KEYS
    · rw [generate_new hinit hlen hf hroom] at hkey
      simp only [Option.some.injEq] at hkey
      rw [← hkey]
      simp [QED_KEY_LENGTH, hl]
    · rw [generate_limit hinit hlen hf (Nat.le_of_not_lt hroom)] at hres
      cases hres

/-- Claim C10, as amended: on every device reached from `qed_init` by calls that
derive keys at 32 bytes only (`qed_quantum_encrypt`, `qed_quantum_decrypt`,
`qed_generate_quantum_key` with length 32, `qed_quantum_wipe`,
`qed_quantum_wipe_all`), successful 32-byte derivations for any two identifiers
return the same bytes, `SHA256(generate(signature, 64) || quantum_noise)`: the
hashed material does not depend on the identifier. -/
theorem cross_identifier_key_equality (prim : Primitives) (cpu_mhz : Option Nat)
    (info : Option (Nat × Nat)) (calls : List qed_call) (a b key_a key_b : List Nat)
    (hsha : ∀ d, (prim.SHA256 d).length = 32)
    (hinit : (qed_init prim cpu_mhz info).result = QED_SUCCESS)
    (hcalls : ∀ c ∈ calls, c.at_key_length = true)
    (ha : (qed_generate_quantum_key prim
      (run_calls prim (qed_init prim cpu_mhz info).device calls) a 32).result = QED_SUCCESS)
    (hka : (qed_generate_quantum_key prim
      (run_calls prim (qed_init prim cpu_mhz info).device calls) a 32).out = some key_a)
    (hb : (qed_generate_quantum_key prim
      (run_calls prim (qed_init prim cpu_mhz info).device calls) b 32).result = QED_SUCCESS)
    (hkb : (qed_generate_quantum_key prim
      (run_calls prim (qed_init prim cpu_mhz info).device calls) b 32).out = some key_b) :
    key_a = key_b ∧
      key_a = prim.SHA256
        ((qed_generate_hardware_resonance prim
          (run_calls prim (qed_init prim cpu_mhz info).device calls).hardware_sig 64).2 ++
          (run_calls prim (qed_init prim cpu_mhz info).device
            calls).hardware_sig.quantum_noise) := by
  have hu := uniform_keys_run_calls hsha (uniform_keys_init hinit) calls hcalls
  have h1 := uniform_keys_derived hsha hu ha hka
  have h2 := uniform_keys_derived hsha hu hb hkb
  exact ⟨h1.trans h2.symm, h1⟩

/-- Witness of C10 (amended): `"alpha"` and `"beta"` on the reference device
after a derivation of `"alpha"`. -/
theorem cross_identifier_key_equality_witness :
    (qed_generate_quantum_key ref_prim (run_calls ref_prim ref_device alpha_calls) alpha
        32).out =
      (qed_generate_quantum_key ref_prim (run_calls ref_prim ref_device alpha_calls) beta
        32).out := by
  have h := cross_identifier_key_equality ref_prim none (some (16000000000, 8000000000))
    alpha_calls alpha beta ref_key ref_key ref_hash_length rfl (by decide)
    (by set_option maxRecDepth 1000000 in decide)
    (by set_option maxRecDepth 1000000 in decide)
    (by set_option maxRecDepth 1000000 in decide)
    (by set_option maxRecDepth 1000000 in decide)
  have e1 : (qed_generate_quantum_key ref_prim (run_calls ref_prim ref_device alpha_calls)
      alpha 32).out = some ref_key := by set_option maxRecDepth 1000000 in decide
  have e2 : (qed_generate_quantum_key ref_prim (run_calls ref_prim ref_device alpha_calls)
      beta 32).out = some ref_key := by set_option maxRecDepth 1000000 in decide
  rw [e1, e2]

/-- Counterexample to C10 as stated (every initialized device): on the reference
device `"alpha"` is first derived at 16 bytes.  A 32-byte derivation of
`"alpha"` then returns the cached slot, 16 digest bytes followed by 16 zero
bytes, while a 32-byte derivation of `"beta"` returns the 32-byte digest: both
succeed and the two keys differ. -/
theorem cached_key_differs :
    (qed_generate_quantum_key ref_prim ref_device alpha 16).result = QED_SUCCESS ∧
    alpha_device.initialized = true ∧
    (qed_generate_quantum_key ref_prim alpha_device alpha 32).result = QED_SUCCESS ∧
    (qed_generate_quantum_key ref_prim alpha_device beta 32).result = QED_SUCCESS ∧
    (qed_generate_quantum_key ref_prim alpha_device alpha 32).out =
      some ((final_hash ref_prim ref_device.hardware_sig 16).take 16 ++
        List.replicate 16 0) ∧
    (qed_generate_quantum_key ref_prim alpha_device beta 32).out =
      some (final_hash ref_prim ref_device.hardware_sig 32) ∧
    (qed_generate_quantum_key ref_prim alpha_device alpha 32).out ≠
      (qed_generate_quantum_key ref_prim alpha_device beta 32).out := by
  set_option maxRecDepth 1000000 in decide

/-! ## Envelopes and files too short for a tag and an IV -/

/-- Claim C11 (short envelope rejection).  For every device, identifier and
envelope of fewer than 48 bytes, `qed_quantum_decrypt` returns
`QED_ERROR_INVALID_INPUT`, outputs no plaintext and leaves the device as it
was.  When the input file holds such an envelope and can be read (an empty
file is never opened), `qed_decrypt_file` returns `QED_ERROR_INVALID_INPUT`
with the device and every file unchanged, whatever the cipher is; the device
and the files are unchanged also when the file cannot be read. -/
theorem short_envelope_rejected (prim : Primitives) (device : qed_device_t)
    (key_id envelope : List Nat) (files : file_system) (input_path output_path : List Nat)
    (hshort : envelope.length < 48) :
    qed_quantum_decrypt prim device key_id envelope =
        ⟨QED_ERROR_INVALID_INPUT, none, device⟩ ∧
      (files.content input_path = some envelope →
        (envelope ≠ [] → files.readable input_path = true) →
        qed_decrypt_file prim device key_id files input_path output_path =
          ⟨QED_ERROR_INVALID_INPUT, device, files⟩) ∧
      (files.content input_path = some envelope →
        (qed_decrypt_file prim device key_id files input_path output_path).device = device ∧
        (qed_decrypt_file prim device key_id files input_path output_path).files = files) := by
  have h48 : envelope.length < QED_SIGNATURE_LENGTH + 16 := hshort
  refine ⟨by simp [qed_quantum_decrypt, h48], ?_, ?_⟩
  · intro hfile hread
    by_cases hsame : qed_paths_are_same files input_path output_path = true
    · simp [qed_decrypt_file, qed_file_exists, hfile, hsame]
    · by_cases he : envelope = []
      · simp [qed_decrypt_file, qed_file_exists, qed_read_file, hfile, hsame, he,
          QED_SIGNATURE_LENGTH]
      · have hl : envelope.length ≠ 0 := by simpa using he
        simp [qed_decrypt_file, qed_file_exists, qed_read_file, hfile, hsame, hl, hread he, h48]
  · intro hfile
    by_cases hsame : qed_paths_are_same files input_path output_path = true
    · simp [qed_decrypt_file, qed_file_exists, hfile, hsame]
    · by_cases he : envelope = []
      · simp [qed_decrypt_file, qed_file_exists, qed_read_file, hfile, hsame, he,
          QED_SIGNATURE_LENGTH]
      · have hl : envelope.length ≠ 0 := by simpa using he
        by_cases hr : files.readable input_path = true
        · simp [qed_decrypt_file, qed_file_exists, qed_read_file, hfile, hsame, hl, hr, h48]
        · simp [qed_decrypt_file, qed_file_exists, qed_read_file, hfile, hsame, hl, hr]

/-- Witness of C11: the three bytes of the file `"in"` on the reference
device. -/
theorem short_envelope_rejected_witness :
    qed_quantum_decrypt ref_prim ref_device doc [1, 2, 3] =
        ⟨QED_ERROR_INVALID_INPUT, none, ref_device⟩ ∧
      qed_decrypt_file ref_prim ref_device doc short_file_system [105, 110] [111] =
        ⟨QED_ERROR_INVALID_INPUT, ref_device, short_file_system⟩ :=
  have h := short_envelope_rejected ref_prim ref_device doc [1, 2, 3] short_file_system
    [105, 110] [111] (by decide)
  ⟨h.1, h.2.1 rfl (fun _ => rfl)⟩

/-! ## The bounds of the key table -/

theorem qed_init_table (prim : Primitives) (cpu_mhz : Option Nat) (info : Option (Nat × Nat)) :
    (qed_init prim cpu_mhz info).device.quantum_keys = List.replicate QED_MAX_KEYS zero_key ∧
      (qed_init prim cpu_mhz info).device.key_count = 0 := by
  cases info with
  | none =>
    cases cpu_mhz <;>
      simp [qed_init, qed_detect_cpu_frequency, qed_detect_ram_signature, zero_device]
  | some p =>
    cases cpu_mhz <;>
      simp [qed_init, qed_detect_cpu_frequency, qed_detect_ram_signature,
        qed_measure_quantum_noise, zero_device]

theorem getD_replicate_zero_key (n i : Nat) :
    (List.replicate n zero_key).getD i zero_key = zero_key := by
  by_cases hi : i < n
  · simp [List.getD_eq_getElem?_getD, List.getElem?_replicate, hi]
  · simp [List.getD_eq_getElem?_getD, List.getElem?_replicate, hi]

theorem table_bounds_init (prim : Primitives) (cpu_mhz : Option Nat)
    (info : Option (Nat × Nat)) : table_bounds (qed_init prim cpu_mhz info).device := by
  have h := qed_init_table prim cpu_mhz info
  refine ⟨by rw [h.1]; simp, by rw [h.2]; exact Nat.zero_le _, ?_⟩
  intro i _
  rw [h.1, getD_replicate_zero_key]
  rfl

theorem table_bounds_generate {prim : Primitives} {device : qed_device_t}
    (h : table_bounds device) (key_id : List Nat) (key_length : Nat) :
    table_bounds (qed_generate_quantum_key prim device key_id key_length).device := by
  by_cases hlen : key_length = 0
  · subst hlen; rw [generate_zero_length]; exact h
  by_cases hinit : device.initialized = true
  · cases hfind : find_key device.quantum_keys device.key_count key_id with
    | some i => rw [generate_found hinit hlen hfind]; exact h
    | none =>
      by_cases hroom : device.key_count < QED_MAX_KEYS
      · rw [generate_new hinit hlen hfind hroom]
        refine ⟨by simpa using h.1, hroom, ?_⟩
        intro i hi
        have hne : device.key_count ≠ i := by
          have : device.key_count + 1 ≤ i := hi
          omega
        show ((device.quantum_keys.set device.key_count _).getD i zero_key).in_use = false
        rw [getD_set_ne _ hne]
        exact h.2.2 i (by have : device.key_count + 1 ≤ i := hi; omega)
      · rw [generate_limit hinit hlen hfind (Nat.le_of_not_lt hroom)]; exact h
  · rw [generate_uninitialized hlen (by simpa using hinit)]; exact h

theorem getD_set_in_use {keys : List qed_quantum_key_t} (i j : Nat)
    (h : (keys.getD j zero_key).in_use = false) :
    ((keys.set i zero_key).getD j zero_key).in_use = false := by
  by_cases hij : i = j
  · subst hij
    by_cases hi : i < keys.length
    · rw [getD_set_eq _ hi]; rfl
    · rw [List.set_eq_of_length_le (Nat.le_of_not_lt hi)]; exact h
  · rw [getD_set_ne _ hij]; exact h

theorem table_bounds_wipe {device : qed_device_t} (h : table_bounds device)
    (key_id : List Nat) : table_bounds (qed_quantum_wipe device key_id).device := by
  unfold qed_quantum_wipe
  cases find_key device.quantum_keys device.key_count key_id with
  | none => exact h
  | some i =>
    refine ⟨by simpa using h.1, h.2.1, ?_⟩
    intro j hj
    exact getD_set_in_use i j (h.2.2 j hj)

theorem wipe_all_in_use (device : qed_device_t) :
    ∀ k ∈ (qed_quantum_wipe_all device).device.quantum_keys, k.in_use = false := by
  intro k hk
  simp only [qed_quantum_wipe_all, List.mem_map] at hk
  obtain ⟨k0, _, rfl⟩ := hk
  by_cases h0 : k0.in_use = true
  · simp [h0, zero_key]
  · simp [h0]

theorem getD_in_use_of_all {keys : List qed_quantum_key_t}
    (h : ∀ k ∈ keys, k.in_use = false) (i : Nat) :
    (keys.getD i zero_key).in_use = false := by
  by_cases hi : i < keys.length
  · have hmem : keys.getD i zero_key ∈ keys := by
      simp [List.getD_eq_getElem?_getD, List.getElem?_eq_getElem hi]
    exact h _ hmem
  · simp [List.getD_eq_getElem?_getD, List.getElem?_eq_none (Nat.le_of_not_lt hi), zero_key]

theorem table_bounds_wipe_all {device : qed_device_t} (h : table_bounds device) :
    table_bounds (qed_quantum_wipe_all device).device := by
  refine ⟨by simpa [qed_quantum_wipe_all] using h.1, Nat.zero_le _, ?_⟩
  intro i _
  exact getD_in_use_of_all (wipe_all_in_use device) i

theorem table_bounds_run {prim : Primitives} {device : qed_device_t}
    (h : table_bounds device) (c : qed_call) : table_bounds (c.run prim device).device := by
  cases c with
  | generate_quantum_key key_id key_length => exact table_bounds_generate h key_id key_length
  | quantum_wipe key_id => exact table_bounds_wipe h key_id
  | quantum_wipe_all => exact table_bounds_wipe_all h
  | quantum_encrypt key_id iv plaintext =>
    simp only [qed_call.run, encrypt_device]
    split_ifs
    · exact h
    · exact table_bounds_generate h key_id QED_KEY_LENGTH
  | quantum_decrypt key_id ciphertext =>
    simp only [qed_call.run, decrypt_device]
    split_ifs
    · exact h
    · exact table_bounds_generate h key_id QED_KEY_LENGTH

theorem table_bounds_run_calls {prim : Primitives} {device : qed_device_t}
    (h : table_bounds device) (calls : List qed_call) :
    table_bounds (run_calls prim device calls) := by
  induction calls generalizing device with
  | nil => exact h
  | cons c cs ih => exact ih (table_bounds_run h c)

/-- With every active slot below `n`, at most `n` slots are active. -/
theorem countP_in_use_le {keys : List qed_quantum_key_t} {n : Nat}
    (h : ∀ i, n ≤ i → (keys.getD i zero_key).in_use = false) :
    keys.countP (fun k => k.in_use) ≤ n := by
  induction keys generalizing n with
  | nil => simp
  | cons k ks ih =>
    cases n with
    | zero =>
      have hall : ∀ x ∈ k :: ks, ¬ (fun k => k.in_use) x = true := by
        intro x hx
        obtain ⟨i, hi, rfl⟩ := List.getElem_of_mem hx
        have := h i (Nat.zero_le _)
        simp only [List.getD_eq_getElem?_getD, List.getElem?_eq_getElem hi,
          Option.getD_some] at this
        simp [this]
      rw [List.countP_eq_zero.mpr hall]
    | succ n =>
      have hks : ks.countP (fun k => k.in_use) ≤ n := by
        apply ih
        intro i hi
        have := h (i + 1) (by omega)
        simpa [List.getD_eq_getElem?_getD] using this
      rw [List.countP_cons]
      split_ifs <;> omega

theorem derive_in_table {prim : Primitives} {device : qed_device_t} {key_id : List Nat}
    {key_length : Nat} (h : table_bounds device)
    (hfind : find_key device.quantum_keys device.key_count key_id = none)
    (hres : (qed_generate_quantum_key prim device key_id key_length).result = QED_SUCCESS) :
    device.key_count < device.quantum_keys.length ∧
      (qed_generate_quantum_key prim device key_id key_length).device.quantum_keys =
        device.quantum_keys.set device.key_count
          (new_key_slot prim device key_id key_length) := by
  by_cases hlen : key_length = 0
  · subst hlen; simp [generate_zero_length] at hres
  by_cases hinit : device.initialized = true
  · by_cases hroom : device.key_count < QED_MAX_KEYS
    · rw [generate_new hinit hlen hfind hroom]
      exact ⟨by rw [h.1]; exact hroom, rfl⟩
    · simp [generate_limit hinit hlen hfind (Nat.le_of_not_lt hroom)] at hres
  · simp [generate_uninitialized hlen (by simpa using hinit)] at hres

/-- Claim C14 (key-table bound invariant).  In every device state reached from
`qed_init` by a sequence of calls (derivations at any length and with any
identifier, wipes, wipe-all, encryptions and decryptions), the table has 1024
slots, at most `key_count` and hence at most 1024 of them are active,
`key_count` is at most 1024, every active slot sits at an index below
`key_count`, and a derivation that finds no key and succeeds writes the slot at
index `key_count`, which is inside the table. -/
theorem key_table_bounds (prim : Primitives) (cpu_mhz : Option Nat)
    (info : Option (Nat × Nat)) (calls : List qed_call) :
    (run_calls prim (qed_init prim cpu_mhz info).device calls).quantum_keys.length =
        QED_MAX_KEYS ∧
      active_keys (run_calls prim (qed_init prim cpu_mhz info).device calls) ≤
        (run_calls prim (qed_init prim cpu_mhz info).device calls).key_count ∧
      active_keys (run_calls prim (qed_init prim cpu_mhz info).device calls) ≤ 1024 ∧
      (run_calls prim (qed_init prim cpu_mhz info).device calls).key_count ≤ 1024 ∧
      (∀ i,
        ((run_calls prim (qed_init prim cpu_mhz info).device calls).quantum_keys.getD i
            zero_key).in_use = true →
          i < (run_calls prim (qed_init prim cpu_mhz info).device calls).key_count) ∧
      ∀ key_id key_length,
        find_key (run_calls prim (qed_init prim cpu_mhz info).device calls).quantum_keys
            (run_calls prim (qed_init prim cpu_mhz info).device calls).key_count key_id = none →
        (qed_generate_quantum_key prim
            (run_calls prim (qed_init prim cpu_mhz info).device calls) key_id
            key_length).result = QED_SUCCESS →
        (run_calls prim (qed_init prim cpu_mhz info).device calls).key_count < 1024 ∧
          (qed_generate_quantum_key prim
              (run_calls prim (qed_init prim cpu_mhz info).device calls) key_id
              key_length).device.quantum_keys =
            (run_calls prim (qed_init prim cpu_mhz info).device calls).quantum_keys.set
              (run_calls prim (qed_init prim cpu_mhz info).device calls).key_count
              (new_key_slot prim (run_calls prim (qed_init prim cpu_mhz info).device calls)
                key_id key_length) := by
  have h := @table_bounds_run_calls prim _ (table_bounds_init prim cpu_mhz info) calls
  have hact := countP_in_use_le h.2.2
  refine ⟨h.1, hact, Nat.le_trans hact h.2.1, h.2.1, ?_, ?_⟩
  · intro i hi
    by_contra hlt
    have := h.2.2 i (Nat.le_of_not_lt hlt)
    rw [this] at hi
    cases hi
  · intro key_id key_length hfind hres
    have hd := derive_in_table h hfind hres
    exact ⟨by have := hd.1; rw [h.1] at this; exact this, hd.2⟩

/-! ## One active entry per identifier -/

theorem countP_zero_of_getD {p : qed_quantum_key_t → Bool} {keys : List qed_quantum_key_t}
    (h : ∀ j, p (keys.getD j zero_key) = false) : keys.countP p = 0 := by
  rw [List.countP_eq_zero]
  intro x hx
  obtain ⟨i, hi, rfl⟩ := List.getElem_of_mem hx
  have := h i
  simp only [List.getD_eq_getElem?_getD, List.getElem?_eq_getElem hi, Option.getD_some] at this
  simp [this]

theorem key_matches_in_use {key_id : List Nat} {k : qed_quantum_key_t}
    (h : k.in_use = false) : key_matches key_id k = false := by
  simp [key_matches, h]

/-- When the lookup loop finds nothing and no slot from `key_count` on is
active, no slot of the table matches. -/
theorem no_match_of_find_none {device : qed_device_t} {key_id : List Nat}
    (hb : actives_below_count device)
    (hfind : find_key device.quantum_keys device.key_count key_id = none) (j : Nat) :
    key_matches key_id (device.quantum_keys.getD j zero_key) = false := by
  by_cases hj : j < device.key_count
  · exact find_key_eq_none.mp hfind j hj
  · exact key_matches_in_use (hb j (Nat.le_of_not_lt hj))

theorem getElem_eq_getD {keys : List qed_quantum_key_t} {i : Nat} (hi : i < keys.length) :
    keys[i] = keys.getD i zero_key := by
  simp [List.getD_eq_getElem?_getD, List.getElem?_eq_getElem hi]

theorem unique_active_ids_generate {prim : Primitives} {device : qed_device_t}
    (hb : table_bounds device) (h : unique_active_ids device) (key_id : List Nat)
    (key_length : Nat) (hshort : key_id.length ≤ QED_MAX_KEY_ID_LENGTH - 1) :
    unique_active_ids (qed_generate_quantum_key prim device key_id key_length).device := by
  by_cases hlen : key_length = 0
  · subst hlen; rw [generate_zero_length]; exact h
  by_cases hinit : device.initialized = true
  · cases hfind : find_key device.quantum_keys device.key_count key_id with
    | some i => rw [generate_found hinit hlen hfind]; exact h
    | none =>
      by_cases hroom : device.key_count < QED_MAX_KEYS
      · rw [generate_new hinit hlen hfind hroom]
        intro other
        have hi : device.key_count < device.quantum_keys.length := by rw [hb.1]; exact hroom
        show (device.quantum_keys.set device.key_count _).countP (key_matches other) ≤ 1
        rw [List.countP_set _ _ _ _ hi, getElem_eq_getD hi,
          key_matches_in_use (hb.2.2 _ (Nat.le_refl _))]
        simp only [Bool.false_eq_true, if_false, Nat.sub_zero]
        by_cases hm : key_matches other (new_key_slot prim device key_id key_length) = true
        · have ho : other = key_id := by
            simp only [key_matches, new_key_slot, Bool.true_and, beq_iff_eq] at hm
            rw [← hm, List.take_of_length_le hshort]
          subst ho
          rw [countP_zero_of_getD (no_match_of_find_none hb.2.2 hfind), if_pos hm]
        · rw [if_neg hm]
          exact h other
      · rw [generate_limit hinit hlen hfind (Nat.le_of_not_lt hroom)]; exact h
  · rw [generate_uninitialized hlen (by simpa using hinit)]; exact h

theorem countP_set_zero_key_le (keys : List qed_quantum_key_t) (i : Nat) (key_id : List Nat) :
    (keys.set i zero_key).countP (key_matches key_id) ≤ keys.countP (key_matches key_id) := by
  by_cases hi : i < keys.length
  · rw [List.countP_set _ _ _ _ hi, key_matches_zero_key]
    simp
  · rw [List.set_eq_of_length_le (Nat.le_of_not_lt hi)]

theorem unique_active_ids_wipe {device : qed_device_t} (h : unique_active_ids device)
    (key_id : List Nat) : unique_active_ids (qed_quantum_wipe device key_id).device := by
  unfold qed_quantum_wipe
  cases find_key device.quantum_keys device.key_count key_id with
  | none => exact h
  | some i =>
    intro other
    exact Nat.le_trans (countP_set_zero_key_le _ i other) (h other)

theorem unique_active_ids_wipe_all (device : qed_device_t) :
    unique_active_ids (qed_quantum_wipe_all device).device := by
  intro other
  rw [countP_zero_of_getD]
  · exact Nat.zero_le _
  · intro j
    exact key_matches_in_use (getD_in_use_of_all (wipe_all_in_use device) j)

theorem unique_active_ids_run {prim : Primitives} {device : qed_device_t}
    (hb : table_bounds device) (h : unique_active_ids device) (c : qed_call)
    (hc : c.short_ids = true) : unique_active_ids (c.run prim device).device := by
  cases c with
  | generate_quantum_key key_id key_length =>
    exact unique_active_ids_generate hb h key_id key_length
      (by simpa [qed_call.short_ids] using hc)
  | quantum_wipe key_id => exact unique_active_ids_wipe h key_id
  | quantum_wipe_all => exact unique_active_ids_wipe_all device
  | quantum_encrypt key_id iv plaintext =>
    simp only [qed_call.run, encrypt_device]
    split_ifs
    · exact h
    · exact unique_active_ids_generate hb h key_id QED_KEY_LENGTH
        (by simpa [qed_call.short_ids] using hc)
  | quantum_decrypt key_id ciphertext =>
    simp only [qed_call.run, decrypt_device]
    split_ifs
    · exact h
    · exact unique_active_ids_generate hb h key_id QED_KEY_LENGTH
        (by simpa [qed_call.short_ids] using hc)

theorem unique_active_ids_run_calls {prim : Primitives} {device : qed_device_t}
    (hb : table_bounds device) (h : unique_active_ids device) (calls : List qed_call)
    (hc : ∀ c ∈ calls, c.short_ids = true) :
    unique_active_ids (run_calls prim device calls) := by
  induction calls generalizing device with
  | nil => exact h
  | cons c cs ih =>
    simp only [run_calls]
    exact ih (table_bounds_run hb c) (unique_active_ids_run hb h c (hc c (List.mem_cons_self _ _)))
      (fun c1 h1 => hc c1 (List.mem_cons_of_mem _ h1))

theorem unique_active_ids_init (prim : Primitives) (cpu_mhz : Option Nat)
    (info : Option (Nat × Nat)) : unique_active_ids (qed_init prim cpu_mhz info).device := by
  intro other
  rw [countP_zero_of_getD]
  · exact Nat.zero_le _
  · intro j
    rw [(qed_init_table prim cpu_mhz info).1, getD_replicate_zero_key]
    exact key_matches_zero_key _

/-- Claim C13 (key uniqueness invariant).  In every device state reached from
`qed_init` by a sequence of calls whose derivations use identifiers of at most
255 bytes (derivations at any length, encryptions, decryptions, wipes of any
identifier, wipe-all), at most one slot of the table is active with a given
identifier. -/
theorem key_uniqueness (prim : Primitives) (cpu_mhz : Option Nat)
    (info : Option (Nat × Nat)) (calls : List qed_call)
    (hshort : ∀ c ∈ calls, c.short_ids = true) (key_id : List Nat) :
    (run_calls prim (qed_init prim cpu_mhz info).device calls).quantum_keys.countP
      (key_matches key_id) ≤ 1 :=
  unique_active_ids_run_calls (table_bounds_init prim cpu_mhz info)
    (unique_active_ids_init prim cpu_mhz info) calls hshort key_id

/-- Witness of C13: a sequence that derives `"doc"` three times around a wipe,
on the reference device. -/
theorem key_uniqueness_witness :
    (run_calls ref_prim ref_device short_calls).quantum_keys.countP (key_matches doc) ≤ 1 :=
  key_uniqueness ref_prim none (some (16000000000, 8000000000)) short_calls (by decide) doc

/-! ## Wiping one key -/

theorem has_active_key_iff {device : qed_device_t} {key_id : List Nat} :
    has_active_key device key_id = true ↔
      ∃ j, key_matches key_id (device.quantum_keys.getD j zero_key) = true := by
  constructor
  · intro h
    simp only [has_active_key, List.any_eq_true] at h
    obtain ⟨k, hk, hm⟩ := h
    obtain ⟨i, hi, rfl⟩ := List.getElem_of_mem hk
    exact ⟨i, by rw [← getElem_eq_getD hi]; exact hm⟩
  · intro ⟨j, hj⟩
    by_contra hn
    have := has_active_key_false (by simpa using hn) j
    rw [this] at hj
    cases hj

theorem find_key_isSome_iff {device : qed_device_t} {key_id : List Nat}
    (hb : actives_below_count device) :
    (∃ i, find_key device.quantum_keys device.key_count key_id = some i) ↔
      has_active_key device key_id = true := by
  constructor
  · intro ⟨i, hi⟩
    exact has_active_key_iff.mpr ⟨i, (find_key_eq_some.mp hi).2.1⟩
  · intro h
    cases hfind : find_key device.quantum_keys device.key_count key_id with
    | some i => exact ⟨i, rfl⟩
    | none =>
      obtain ⟨j, hj⟩ := has_active_key_iff.mp h
      rw [no_match_of_find_none hb hfind j] at hj
      cases hj

theorem has_active_key_of_countP {device : qed_device_t} {key_id : List Nat}
    (h : device.quantum_keys.countP (key_matches key_id) = 0) :
    has_active_key device key_id = false := by
  rw [List.countP_eq_zero] at h
  simp only [has_active_key, List.any_eq_false]
  exact h

/-- Claim C12, as amended (wipe).  On every device whose active slots lie below
`key_count`, `qed_quantum_wipe` returns `QED_SUCCESS` exactly when an active
slot holds the identifier; then the first such slot becomes zero (identifier,
key bytes, `in_use`), every other slot, `key_count`, the hardware signature and
`initialized` are unchanged; otherwise the call returns
`QED_ERROR_KEY_NOT_FOUND` and the device is unchanged.  When at most one active
slot holds the identifier, a second wipe returns `QED_ERROR_KEY_NOT_FOUND`. -/
theorem wipe_effect (device : qed_device_t) (key_id : List Nat)
    (hbelow : actives_below_count device) :
    ((qed_quantum_wipe device key_id).result = QED_SUCCESS ↔
        has_active_key device key_id = true) ∧
      (has_active_key device key_id = true →
        ∃ i, i < device.key_count ∧ i < device.quantum_keys.length ∧
          key_matches key_id (device.quantum_keys.getD i zero_key) = true ∧
          (∀ j, j < i → key_matches key_id (device.quantum_keys.getD j zero_key) = false) ∧
          qed_quantum_wipe device key_id =
            ⟨QED_SUCCESS, none,
              { device with quantum_keys := device.quantum_keys.set i zero_key }⟩ ∧
          (qed_quantum_wipe device key_id).device.quantum_keys.getD i zero_key = zero_key ∧
          ∀ j, j ≠ i →
            (qed_quantum_wipe device key_id).device.quantum_keys.getD j zero_key =
              device.quantum_keys.getD j zero_key) ∧
      (has_active_key device key_id = false →
        qed_quantum_wipe device key_id = ⟨QED_ERROR_KEY_NOT_FOUND, none, device⟩) ∧
      (device.quantum_keys.countP (key_matches key_id) ≤ 1 →
        (qed_quantum_wipe (qed_quantum_wipe device key_id).device key_id).result =
          QED_ERROR_KEY_NOT_FOUND) := by
  have hnone : ∀ d : qed_device_t, has_active_key d key_id = false →
      qed_quantum_wipe d key_id = ⟨QED_ERROR_KEY_NOT_FOUND, none, d⟩ := by
    intro d h
    simp [qed_quantum_wipe, find_key_of_no_active_key h]
  have hsome : ∀ i, find_key device.quantum_keys device.key_count key_id = some i →
      qed_quantum_wipe device key_id =
        ⟨QED_SUCCESS, none, { device with quantum_keys := device.quantum_keys.set i zero_key }⟩ := by
    intro i h
    simp [qed_quantum_wipe, h]
  refine ⟨?_, ?_, hnone device, ?_⟩
  · constructor
    · intro hres
      by_contra hn
      rw [hnone device (by simpa using hn)] at hres
      cases hres
    · intro h
      obtain ⟨i, hi⟩ := (find_key_isSome_iff hbelow).mpr h
      rw [hsome i hi]
  · intro h
    obtain ⟨i, hi⟩ := (find_key_isSome_iff hbelow).mpr h
    have hs := find_key_eq_some.mp hi
    have hlt := find_key_lt_length hi
    refine ⟨i, hs.1, hlt, hs.2.1, hs.2.2, hsome i hi, ?_, ?_⟩
    · rw [hsome i hi]; exact getD_set_eq _ hlt
    · intro j hj
      rw [hsome i hi]; exact getD_set_ne _ (Ne.symm hj)
  · intro hcount
    cases hfind : find_key device.quantum_keys device.key_count key_id with
    | none =>
      have h1 : qed_quantum_wipe device key_id = ⟨QED_ERROR_KEY_NOT_FOUND, none, device⟩ := by
        simp [qed_quantum_wipe, hfind]
      rw [h1]
      show (qed_quantum_wipe device key_id).result = QED_ERROR_KEY_NOT_FOUND
      rw [h1]
    | some i =>
      have hs := find_key_eq_some.mp hfind
      have hlt := find_key_lt_length hfind
      rw [hsome i hfind]
      have hzero : (device.quantum_keys.set i zero_key).countP (key_matches key_id) = 0 := by
        rw [List.countP_set _ _ _ _ hlt, getElem_eq_getD hlt, hs.2.1, key_matches_zero_key]
        simp only [if_true, Bool.false_eq_true, if_false, Nat.add_zero]
        omega
      rw [hnone _ (has_active_key_of_countP hzero)]

/-- Witness of C12 (amended): the key of `"alpha"` on the reference device is
wiped, and a second wipe does not find it. -/
theorem wipe_effect_witness :
    (qed_quantum_wipe alpha_device alpha).result = QED_SUCCESS ∧
      (qed_quantum_wipe (qed_quantum_wipe alpha_device alpha).device alpha).result =
        QED_ERROR_KEY_NOT_FOUND :=
  have h := wipe_effect alpha_device alpha
    (table_bounds_generate (table_bounds_init ref_prim none (some (16000000000, 8000000000)))
      alpha 16).2.2
  ⟨h.1.mpr (by decide),
    h.2.2.2
      (unique_active_ids_generate (table_bounds_init ref_prim none (some (16000000000, 8000000000)))
        (unique_active_ids_init ref_prim none (some (16000000000, 8000000000))) alpha 16
        (by decide) alpha)⟩

theorem twice_derived_device_reached :
    run_calls ref_prim ref_device
        [.generate_quantum_key long_id QED_KEY_LENGTH,
          .generate_quantum_key long_id QED_KEY_LENGTH] =
      twice_derived_device := by
  have h0 : device_with_keys ref_prim ref_device [] = ref_device :=
    device_with_keys_nil _ _ ref_device_fresh.2.2 ref_device_fresh.2.1
  have h1 := generate_on_filled ref_prim ref_device [] long_id ref_device_fresh.1
    (by decide) (long_id_no_match _)
  have h2 := generate_on_filled ref_prim ref_device [long_id] long_id ref_device_fresh.1
    (by decide) (long_id_no_match _)
  rw [h0] at h1
  simp only [run_calls, qed_call.run, h1, List.nil_append, h2]
  rfl

/-- Counterexample to C12 as stated: after two derivations of the 256-byte
identifier `long_id` on the reference device, two active slots hold its first
255 bytes; wiping that 255-byte identifier succeeds, and wiping it a second
time, with no derivation in between, succeeds again. -/
theorem second_wipe_succeeds :
    run_calls ref_prim ref_device
        [.generate_quantum_key long_id QED_KEY_LENGTH,
          .generate_quantum_key long_id QED_KEY_LENGTH] =
      twice_derived_device ∧
      (qed_quantum_wipe twice_derived_device long_id_stored).result = QED_SUCCESS ∧
      (qed_quantum_wipe (qed_quantum_wipe twice_derived_device long_id_stored).device
        long_id_stored).result = QED_SUCCESS ∧
      (qed_quantum_wipe (qed_quantum_wipe twice_derived_device long_id_stored).device
        long_id_stored).result ≠ QED_ERROR_KEY_NOT_FOUND := by
  have h1 : (qed_quantum_wipe twice_derived_device long_id_stored).result = QED_SUCCESS := by
    set_option maxRecDepth 100000 in decide
  have h2 : (qed_quantum_wipe (qed_quantum_wipe twice_derived_device long_id_stored).device
      long_id_stored).result = QED_SUCCESS := by
    set_option maxRecDepth 100000 in decide
  refine ⟨twice_derived_device_reached, h1, h2, ?_⟩
  rw [h2]; decide

/-! ## The loop of the noise string -/

theorem toDigitsCore_length_ge (fuel n : Nat) (ds : List Char) :
    ds.length ≤ (Nat.toDigitsCore 10 fuel n ds).length := by
  induction fuel generalizing n ds with
  | zero => simp [Nat.toDigitsCore]
  | succ fuel ih =>
    simp only [Nat.toDigitsCore]
    split_ifs
    · simp
    · exact Nat.le_trans (by simp) (ih _ _)

theorem decimal_length_pos (n : Nat) : 1 ≤ (decimal n).length := by
  unfold decimal
  rw [List.length_map, Nat.toDigits, Nat.toDigitsCore]
  split_ifs
  · simp
  · exact Nat.le_trans (by simp) (toDigitsCore_length_ge _ _ _)

/-- Each hash byte adds at least one character while fewer than 63 are
stored. -/
theorem quantum_noise_loop_ge (hash noise : List Nat)
    (h : noise.length ≤ QED_QUANTUM_NOISE_LENGTH - 1) :
    min (noise.length + hash.length) (QED_QUANTUM_NOISE_LENGTH - 1) ≤
      (quantum_noise_loop hash noise).length := by
  induction hash generalizing noise with
  | nil => simp [quantum_noise_loop]
  | cons b bs ih =>
    have hpos := decimal_length_pos (b % 256)
    have h1 : (noise ++ (decimal (b % 256)).take
        (QED_QUANTUM_NOISE_LENGTH - noise.length - 1)).length ≤ QED_QUANTUM_NOISE_LENGTH - 1 := by
      rw [List.length_append, List.length_take]
      simp only [QED_QUANTUM_NOISE_LENGTH] at h ⊢
      omega
    have h2 : min (noise.length + 1) (QED_QUANTUM_NOISE_LENGTH - 1) ≤
        (noise ++ (decimal (b % 256)).take
          (QED_QUANTUM_NOISE_LENGTH - noise.length - 1)).length := by
      rw [List.length_append, List.length_take]
      simp only [QED_QUANTUM_NOISE_LENGTH] at h ⊢
      omega
    simp only [quantum_noise_loop]
    split_ifs with hfull
    · simp only [QED_QUANTUM_NOISE_LENGTH] at hfull h1
      omega
    · have := ih _ h1
      simp only [List.length_cons, QED_QUANTUM_NOISE_LENGTH] at this h2 ⊢
      omega

/-! ## The bytes of the hardware resonance -/

/-- The C cast to `int` is the floor of a non-negative value and the ceiling
of a negative one. -/
theorem int_cast_eq (x : double) :
    int_cast x = if 0 ≤ x.value then Int.floor x.value else Int.ceil x.value := by
  unfold int_cast double.value
  by_cases he : x.exponent ≥ 0
  · rw [if_pos he]
    obtain ⟨n, hn⟩ := Int.eq_ofNat_of_zero_le he
    have hv : (x.mantissa : ℚ) * (2 : ℚ) ^ x.exponent =
        ((x.mantissa * ((2 ^ n : Nat) : Int) : Int) : ℚ) := by
      rw [hn]; push_cast; rw [zpow_natCast]
    rw [hv, Int.floor_intCast, Int.ceil_intCast, ite_self, hn, Int.toNat_ofNat]
  · rw [if_neg he]
    have hk : x.exponent = -(((-x.exponent).toNat : Nat) : Int) := by
      rw [Int.toNat_of_nonneg (by omega)]; omega
    generalize (-x.exponent).toNat = k at hk
    have hv : (x.mantissa : ℚ) * (2 : ℚ) ^ x.exponent = (x.mantissa : ℚ) / ((2 ^ k : Nat) : ℚ) := by
      rw [hk, zpow_neg, zpow_natCast]; push_cast; rfl
    have hd : (0 : ℚ) < ((2 ^ k : Nat) : ℚ) := by positivity
    rw [hv]
    by_cases hm : 0 ≤ x.mantissa
    · have h0 : (0 : ℚ) ≤ (x.mantissa : ℚ) / ((2 ^ k : Nat) : ℚ) :=
        div_nonneg (by exact_mod_cast hm) hd.le
      rw [if_pos h0, Rat.floor_intCast_div_natCast, Int.tdiv_eq_ediv hm (by positivity)]
    · have h0 : ¬ (0 : ℚ) ≤ (x.mantissa : ℚ) / ((2 ^ k : Nat) : ℚ) := by
        rw [not_le]
        exact div_neg_of_neg_of_pos (by exact_mod_cast (not_le.mp hm)) hd
      have hneg : (x.mantissa : ℚ) / ((2 ^ k : Nat) : ℚ) =
          -(((-x.mantissa : Int) : ℚ) / ((2 ^ k : Nat) : ℚ)) := by
        push_cast; ring
      rw [if_neg h0, hneg, Int.ceil_neg, Rat.floor_intCast_div_natCast]
      have hx : x.mantissa = -(-x.mantissa) := by omega
      rw [hx, Int.neg_tdiv, Int.tdiv_eq_ediv (by omega) (by positivity)]
      simp

/-- The C remainder followed by the cast to `uint8_t` is the remainder modulo
256. -/
theorem tmod_emod_256 (a : Int) : Int.tmod a 256 % 256 = a % 256 := by
  have h := Int.tmod_add_tdiv a 256
  have : a % 256 = (Int.tmod a 256 + 256 * Int.tdiv a 256) % 256 := by rw [h]
  rw [this, Int.add_mul_emod_self_left]

theorem resonance_getD (prim : Primitives) (hw_sig : qed_hardware_sig_t) (length i : Nat)
    (hi : i < length) :
    (qed_generate_hardware_resonance prim hw_sig length).2.getD i 0 =
      (int_cast (resonance_sum prim hw_sig length i) % 256).toNat := by
  have hlen : length ≠ 0 := by omega
  simp only [qed_generate_hardware_resonance, hlen, if_false, List.getD_eq_getElem?_getD,
    List.getElem?_map, List.getElem?_range hi, Option.map_some', Option.getD_some,
    tmod_emod_256]

/-- Claim C16, as amended (resonance formula).  For every hardware signature,
every length and every index `i < length`, the call succeeds with `length`
bytes, and byte `i` is `trunc(x) mod 256`.  Here `x` is the double the code
computes for `resonance * 128 + 128 + digit`, with
`resonance = sin(2 * M_PI * 1174000 * (i / length) / 1e6) *
(1 + 0.17 * sin(2 * M_PI * cpu_frequency * (ram_signature / 1e9) / 1e9))` and
`digit = noise[i mod len(noise)] - '0'`, every operation and conversion rounded
to the nearest double and `sin` the sine of the library; `trunc` rounds toward
zero and `mod` is the non-negative remainder, so that the byte is
`floor(x) mod 256` when `x >= 0` and `ceil(x) mod 256` when `x < 0`. -/
theorem resonance_byte (prim : Primitives) (hw_sig : qed_hardware_sig_t) (length i : Nat)
    (hi : i < length) :
    (qed_generate_hardware_resonance prim hw_sig length).1 = QED_SUCCESS ∧
      (qed_generate_hardware_resonance prim hw_sig length).2.length = length ∧
      resonance_sum prim hw_sig length i =
        double.add
          (double.add
            (double.mul
              (double.mul
                (prim.sin
                  (double.div
                    (double.mul
                      (double.mul (double.mul (double.ofInt 2) M_PI) (double.ofInt 1174000))
                      (double.div (double.ofInt i) (double.ofInt length)))
                    (double.ofInt 1000000)))
                (double.add (double.ofInt 1)
                  (double.mul (round_quotient 17 100 0)
                    (prim.sin
                      (double.div
                        (double.mul
                          (double.mul (double.mul (double.ofInt 2) M_PI)
                            (double_of_bits hw_sig.cpu_frequency))
                          (double.div (double.ofInt hw_sig.ram_signature)
                            (double.ofInt 1000000000)))
                        (double.ofInt 1000000000))))))
              (double.ofInt 128))
            (double.ofInt 128))
          (double.ofInt
            ((hw_sig.quantum_noise.getD (i % hw_sig.quantum_noise.length) 0 : Nat) - 48)) ∧
      (qed_generate_hardware_resonance prim hw_sig length).2.getD i 0 =
        (int_cast (resonance_sum prim hw_sig length i) % 256).toNat ∧
      (0 ≤ (resonance_sum prim hw_sig length i).value →
        (qed_generate_hardware_resonance prim hw_sig length).2.getD i 0 =
          (Int.floor (resonance_sum prim hw_sig length i).value % 256).toNat) ∧
      ((resonance_sum prim hw_sig length i).value < 0 →
        (qed_generate_hardware_resonance prim hw_sig length).2.getD i 0 =
          (Int.ceil (resonance_sum prim hw_sig length i).value % 256).toNat) := by
  have hlen : length ≠ 0 := by omega
  refine ⟨by simp [qed_generate_hardware_resonance, hlen],
    by simp [qed_generate_hardware_resonance, hlen], rfl,
    resonance_getD prim hw_sig length i hi, ?_, ?_⟩
  · intro hx
    rw [resonance_getD prim hw_sig length i hi, int_cast_eq, if_pos hx]
  · intro hx
    rw [resonance_getD prim hw_sig length i hi, int_cast_eq, if_neg (not_le.mpr hx)]

/-- The double the code computes at `i = 41`, `length = 64` for `resonance_sig`:
`-2691160784467 * 2 ^ -44`, that is -0.15297477969323836. -/
theorem resonance_sum_at_41 :
    resonance_sum std_prim resonance_sig 64 41 = ⟨-2691160784467, -44⟩ := by
  decide!

/-- The double the code computes at `i = 500`, `length = 587` for
`resonance_sig`: `4503599627370495 * 2 ^ -45`, that is `128 - 2 ^ -45`. -/
theorem resonance_sum_at_500 :
    resonance_sum std_prim resonance_sig 587 500 = ⟨4503599627370495, -45⟩ := by
  decide!

/-- Witness of C16 (amended): byte 41 of 64 for `resonance_sig`, where the
double is negative, is its ceiling modulo 256. -/
theorem resonance_byte_witness :
    (resonance_sum std_prim resonance_sig 64 41).value < 0 ∧
      (qed_generate_hardware_resonance std_prim resonance_sig 64).2.getD 41 0 =
        (Int.ceil (resonance_sum std_prim resonance_sig 64 41).value % 256).toNat :=
  have h : (resonance_sum std_prim resonance_sig 64 41).value < 0 := by
    rw [resonance_sum_at_41]; norm_num [double.value]
  ⟨h, (resonance_byte std_prim resonance_sig 64 41 (by decide)).2.2.2.2.2 h⟩

/-- The exact value of `resonance * 128 + 128 + digit` at `i = 41`,
`length = 64`, `cpu_frequency = 2.4e9`, `ram_signature = 500000` and digit 0
lies strictly between -1 and 0. -/
theorem resonance_at_41 :
    -1 < Real.sin (2 * Real.pi * 1174000 * (41 / 64) / 1000000) *
          (1 + 17 / 100 *
            Real.sin (2 * Real.pi * 2400000000 * (500000 / 1000000000) / 1000000000))
          * 128 + 128 + 0 ∧
      Real.sin (2 * Real.pi * 1174000 * (41 / 64) / 1000000) *
          (1 + 17 / 100 *
            Real.sin (2 * Real.pi * 2400000000 * (500000 / 1000000000) / 1000000000))
          * 128 + 128 + 0 < 0 := by
  have hpi1 : (3 : ℝ) < Real.pi := Real.pi_gt_three
  have hpi2 : Real.pi < (4 : ℝ) := Real.pi_lt_four
  have hA : 2 * Real.pi * 1174000 * (41 / 64) / 1000000 =
      2 * Real.pi - (Real.pi / 2 - Real.pi * (67 / 16000)) := by ring
  have hB : 2 * Real.pi * 2400000000 * (500000 / 1000000000) / 1000000000 =
      Real.pi * (3 / 1250) := by ring
  rw [hA, hB, Real.sin_two_pi_sub, Real.sin_pi_div_two_sub]
  generalize hθ : Real.pi * (67 / 16000) = θ
  generalize hφ : Real.pi * (3 / 1250) = φ
  have hθ0 : 0 ≤ θ := by rw [← hθ]; positivity
  have hθ1 : θ ≤ 1 / 50 := by rw [← hθ]; linarith only [hpi2]
  have hφ0 : 0 < φ := by rw [← hφ]; positivity
  have hφ1 : φ ≤ 1 / 100 := by rw [← hφ]; linarith only [hpi2]
  have hφ2 : 7 / 1000 ≤ φ := by rw [← hφ]; linarith only [hpi1]
  have hc1 : 1 - θ ^ 2 / 2 ≤ Real.cos θ := Real.one_sub_sq_div_two_le_cos
  have hc2 : Real.cos θ ≤ 1 := Real.cos_le_one _
  have hsq : θ ^ 2 ≤ (1 / 50) ^ 2 := pow_le_pow_left₀ hθ0 hθ1 2
  have hc3 : (9997 / 10000 : ℝ) ≤ Real.cos θ := by norm_num at hsq; linarith only [hsq, hc1]
  have hs1 : Real.sin φ < φ := Real.sin_lt hφ0
  have hs2 : φ - φ ^ 3 / 4 < Real.sin φ := Real.sin_gt_sub_cube hφ0 (by linarith only [hφ1])
  have hcube : φ ^ 3 ≤ (1 / 100) ^ 3 := pow_le_pow_left₀ hφ0.le hφ1 3
  have hs3 : (6 / 1000 : ℝ) ≤ Real.sin φ := by norm_num at hcube; linarith only [hcube, hs2, hφ2]
  have hs4 : Real.sin φ ≤ 1 / 100 := by linarith only [hs1, hφ1]
  generalize Real.cos θ = c at hc2 hc3 ⊢
  generalize Real.sin φ = s at hs3 hs4 ⊢
  have hlow : 9997 / 10000 * (1 + 17 / 100 * (6 / 1000)) ≤ c * (1 + 17 / 100 * s) :=
    mul_le_mul hc3 (by linarith only [hs3]) (by norm_num) (by linarith only [hc3])
  have hhigh : c * (1 + 17 / 100 * s) ≤ 1 * (1 + 17 / 100 * (1 / 100)) :=
    mul_le_mul hc2 (by linarith only [hs4]) (by linarith only [hs3]) (by norm_num)
  norm_num at hlow hhigh
  constructor
  · linarith only [hhigh]
  · linarith only [hlow]

/-- The exact value of `resonance * 128 + 128 + digit` at `i = 500`,
`length = 587` and digit 0 is 128: the argument of the first sine is `2 pi`. -/
theorem resonance_at_500 :
    Real.sin (2 * Real.pi * 1174000 * (500 / 587) / 1000000) *
          (1 + 17 / 100 *
            Real.sin (2 * Real.pi * 2400000000 * (500000 / 1000000000) / 1000000000))
          * 128 + 128 + 0 = 128 := by
  have hA : 2 * Real.pi * 1174000 * (500 / 587) / 1000000 = 2 * Real.pi := by ring
  rw [hA, Real.sin_two_pi]
  ring

/-- Counterexample to C16 as stated, for `cpu_frequency = 2.4e9`,
`ram_signature = 500000` and the noise string `"0"`.  At `length = 64`,
`i = 41` the value `x` of `resonance * 128 + 128 + digit` is about -0.153, as
a double and over the real numbers, so `floor(x) mod 256` is 255, but the byte
written is `trunc(x) mod 256 = 0`.  At `length = 587`, `i = 500` the value is
128 over the real numbers, where the first sine is `sin(2 pi) = 0`, and
`128 - 2 ^ -45` as a double, so `floor(x) mod 256` is 128 over the real numbers
but the byte written is 127. -/
theorem resonance_byte_not_floor :
    (qed_generate_hardware_resonance std_prim resonance_sig 64).2.getD 41 0 = 0 ∧
      resonance_sum std_prim resonance_sig 64 41 = ⟨-2691160784467, -44⟩ ∧
      (Int.floor (resonance_sum std_prim resonance_sig 64 41).value % 256).toNat = 255 ∧
      (Int.floor
        (Real.sin (2 * Real.pi * 1174000 * (41 / 64) / 1000000) *
          (1 + 17 / 100 *
            Real.sin (2 * Real.pi * 2400000000 * (500000 / 1000000000) / 1000000000))
          * 128 + 128 + 0) % 256).toNat = 255 ∧
      (qed_generate_hardware_resonance std_prim resonance_sig 587).2.getD 500 0 = 127 ∧
      resonance_sum std_prim resonance_sig 587 500 = ⟨4503599627370495, -45⟩ ∧
      (Int.floor
        (Real.sin (2 * Real.pi * 1174000 * (500 / 587) / 1000000) *
          (1 + 17 / 100 *
            Real.sin (2 * Real.pi * 2400000000 * (500000 / 1000000000) / 1000000000))
          * 128 + 128 + 0) % 256).toNat = 128 := by
  have h41 := resonance_at_41
  have hf : Int.floor
      (Real.sin (2 * Real.pi * 1174000 * (41 / 64) / 1000000) *
        (1 + 17 / 100 *
          Real.sin (2 * Real.pi * 2400000000 * (500000 / 1000000000) / 1000000000))
        * 128 + 128 + 0) = -1 := by
    rw [Int.floor_eq_iff]
    constructor
    · push_cast; linarith [h41.1]
    · push_cast; linarith [h41.2]
  have hq : Int.floor (resonance_sum std_prim resonance_sig 64 41).value = -1 := by
    rw [resonance_sum_at_41, Int.floor_eq_iff]
    norm_num [double.value]
  refine ⟨?_, resonance_sum_at_41, ?_, ?_, ?_, resonance_sum_at_500, ?_⟩
  · rw [resonance_getD _ _ _ _ (by decide), resonance_sum_at_41]; decide
  · rw [hq]; decide
  · rw [hf]; decide
  · rw [resonance_getD _ _ _ _ (by decide), resonance_sum_at_500]; decide
  · rw [resonance_at_500]
    have : Int.floor (128 : ℝ) = 128 := by exact_mod_cast Int.floor_intCast (128 : Int)
    rw [this]; decide

/-! ## The signature engine -/

/-- Claim C17 (signature engine).  For every hardware signature and non-empty
data, `qed_generate_quantum_signature` returns `SHA256(data || quantum_noise)`;
`qed_verify_quantum_signature` returns `QED_SUCCESS` exactly when the 32 bytes
it is given are that tag, and `QED_ERROR_SIGNATURE_MISMATCH` otherwise; so
verifying the generated tag succeeds. -/
theorem signature_engine (prim : Primitives) (hw_sig : qed_hardware_sig_t)
    (data tag : List Nat) (hdata : data ≠ [])
    (hsha : ∀ d, (prim.SHA256 d).length = 32) (htag : tag.length = 32) :
    qed_generate_quantum_signature prim hw_sig data =
        (QED_SUCCESS, some (prim.SHA256 (data ++ hw_sig.quantum_noise))) ∧
      (qed_verify_quantum_signature prim hw_sig data tag = QED_SUCCESS ↔
        tag = prim.SHA256 (data ++ hw_sig.quantum_noise)) ∧
      (tag ≠ prim.SHA256 (data ++ hw_sig.quantum_noise) →
        qed_verify_quantum_signature prim hw_sig data tag = QED_ERROR_SIGNATURE_MISMATCH) ∧
      qed_verify_quantum_signature prim hw_sig data
        (prim.SHA256 (data ++ hw_sig.quantum_noise)) = QED_SUCCESS := by
  have hl : data.length ≠ 0 := by simpa using hdata
  have ht : tag.take QED_SIGNATURE_LENGTH = tag :=
    List.take_of_length_le (by rw [htag]; decide)
  have hs : (prim.SHA256 (data ++ hw_sig.quantum_noise)).take QED_SIGNATURE_LENGTH =
      prim.SHA256 (data ++ hw_sig.quantum_noise) :=
    List.take_of_length_le (by rw [hsha]; decide)
  refine ⟨by simp [qed_generate_quantum_signature, hl], ?_, ?_, ?_⟩
  · rw [verify_eq_success, ht, hs]
    exact ⟨fun h => h.2, fun h => ⟨hdata, h⟩⟩
  · intro hne
    simp only [qed_verify_quantum_signature, qed_generate_quantum_signature, hl, if_false,
      ne_eq, not_true_eq_false, Option.getD_some, ht, hs]
    rw [if_pos hne]
  · rw [verify_eq_success]
    exact ⟨hdata, rfl⟩

/-- Witness of C17: the data `"doc"` under the signature of the reference
device. -/
theorem signature_engine_witness :
    qed_verify_quantum_signature ref_prim ref_device.hardware_sig doc
      (ref_prim.SHA256 (doc ++ ref_device.hardware_sig.quantum_noise)) = QED_SUCCESS :=
  (signature_engine ref_prim ref_device.hardware_sig doc
    (ref_prim.SHA256 (doc ++ ref_device.hardware_sig.quantum_noise)) (by decide)
    ref_hash_length (ref_hash_length _)).2.2.2

/-! ## Devices that are not initialized -/

/-- Claim C18 (initialization gate).  On a device whose `initialized` flag is
false, `qed_generate_quantum_key` (at any length), `qed_quantum_encrypt` of a
non-empty plaintext and `qed_quantum_decrypt` of an envelope of at least 48
bytes each return an error (`QED_ERROR_HARDWARE`, or `QED_ERROR_INVALID_INPUT`
for a derivation at length 0), write nothing through their output pointer and
leave the device as it was. -/
theorem initialization_gate (prim : Primitives) (device : qed_device_t)
    (key_id : List Nat) (key_length : Nat) (iv : Option (List Nat))
    (plaintext envelope : List Nat)
    (hinit : device.initialized = false) (hplain : plaintext ≠ [])
    (henv : 48 ≤ envelope.length) :
    qed_generate_quantum_key prim device key_id key_length =
        ⟨if key_length = 0 then QED_ERROR_INVALID_INPUT else QED_ERROR_HARDWARE, none, device⟩ ∧
      (qed_generate_quantum_key prim device key_id key_length).result ≠ QED_SUCCESS ∧
      qed_quantum_encrypt prim device key_id iv plaintext =
        ⟨QED_ERROR_HARDWARE, none, device⟩ ∧
      qed_quantum_decrypt prim device key_id envelope =
        ⟨QED_ERROR_HARDWARE, none, device⟩ := by
  have hk : qed_generate_quantum_key prim device key_id QED_KEY_LENGTH =
      ⟨QED_ERROR_HARDWARE, none, device⟩ :=
    generate_uninitialized (by decide) hinit
  have hp : plaintext.length ≠ 0 := by simpa using hplain
  have he : ¬ envelope.length < QED_SIGNATURE_LENGTH + 16 := by
    simp only [QED_SIGNATURE_LENGTH]; omega
  refine ⟨?_, ?_, ?_, ?_⟩
  · by_cases hlen : key_length = 0
    · subst hlen; simp [generate_zero_length]
    · rw [generate_uninitialized hlen hinit, if_neg hlen]
  · by_cases hlen : key_length = 0
    · subst hlen; simp [generate_zero_length]
    · rw [generate_uninitialized hlen hinit]; simp
  · simp [qed_quantum_encrypt, hp, hk]
  · simp [qed_quantum_decrypt, he, hk]

/-- Witness of C18: the zeroed device. -/
theorem initialization_gate_witness :
    qed_generate_quantum_key ref_prim zero_device doc 32 =
        ⟨QED_ERROR_HARDWARE, none, zero_device⟩ ∧
      qed_quantum_encrypt ref_prim zero_device doc (some scenario_iv) [1, 2, 3] =
        ⟨QED_ERROR_HARDWARE, none, zero_device⟩ ∧
      qed_quantum_decrypt ref_prim zero_device doc (List.replicate 48 0) =
        ⟨QED_ERROR_HARDWARE, none, zero_device⟩ :=
  have h := initialization_gate ref_prim zero_device doc 32 (some scenario_iv) [1, 2, 3]
    (List.replicate 48 0) rfl (by decide) (by decide)
  ⟨h.1, h.2.2.1, h.2.2.2⟩

/-! ## Cleanup -/

/-- Claim C19 (cleanup erasure).  For every device state, `qed_cleanup` returns
`QED_SUCCESS` and leaves a device in which each of the 1024 slots has an empty
(all-zero) identifier, 32 zero key bytes and `in_use` false, `key_count` is 0,
the noise string is empty (all-zero), the other fingerprint fields are 0 and
`initialized` is false; a key derivation on it returns an error and no key. -/
theorem cleanup_erases (device : qed_device_t) :
    (qed_cleanup device).result = QED_SUCCESS ∧
      (qed_cleanup device).device.quantum_keys.length = QED_MAX_KEYS ∧
      (∀ k ∈ (qed_cleanup device).device.quantum_keys,
        k.key_id = [] ∧ k.key_data = List.replicate QED_KEY_LENGTH 0 ∧ k.in_use = false) ∧
      (qed_cleanup device).device.key_count = 0 ∧
      (qed_cleanup device).device.hardware_sig.quantum_noise = [] ∧
      (qed_cleanup device).device.hardware_sig.cpu_frequency = 0 ∧
      (qed_cleanup device).device.hardware_sig.ram_total = 0 ∧
      (qed_cleanup device).device.hardware_sig.ram_available = 0 ∧
      (qed_cleanup device).device.hardware_sig.ram_signature = 0 ∧
      (qed_cleanup device).device.initialized = false ∧
      ∀ (prim : Primitives) (key_id : List Nat) (key_length : Nat),
        (qed_generate_quantum_key prim (qed_cleanup device).device key_id key_length).result ≠
            QED_SUCCESS ∧
          (qed_generate_quantum_key prim (qed_cleanup device).device key_id key_length).out =
            none := by
  have hd : (qed_cleanup device).device = zero_device := rfl
  rw [hd]
  refine ⟨rfl, by simp [zero_device], ?_, rfl, rfl, rfl, rfl, rfl, rfl, rfl, ?_⟩
  · intro k hk
    simp only [zero_device] at hk
    rw [List.eq_of_mem_replicate hk]
    exact ⟨rfl, rfl, rfl⟩
  · intro prim key_id key_length
    by_cases hlen : key_length = 0
    · subst hlen; simp [generate_zero_length]
    · rw [@generate_uninitialized prim zero_device key_id key_length hlen rfl]; simp

/-! ## Input and output at the same path -/

/-- Counterexample to C20 as stated: with the existing file `"in"` given as
input and as output, `qed_encrypt_file` and `qed_decrypt_file` return
`QED_ERROR_INVALID_INPUT`, not `QED_ERROR_FILE_IO`. -/
theorem same_path_is_invalid_input :
    qed_file_exists short_file_system [105, 110] = true ∧
      qed_paths_are_same short_file_system [105, 110] [105, 110] = true ∧
      (qed_encrypt_file ref_prim ref_device doc (some scenario_iv) short_file_system
        [105, 110] [105, 110]).result = QED_ERROR_INVALID_INPUT ∧
      (qed_encrypt_file ref_prim ref_device doc (some scenario_iv) short_file_system
        [105, 110] [105, 110]).result ≠ QED_ERROR_FILE_IO ∧
      (qed_decrypt_file ref_prim ref_device doc short_file_system
        [105, 110] [105, 110]).result = QED_ERROR_INVALID_INPUT ∧
      (qed_decrypt_file ref_prim ref_device doc short_file_system
        [105, 110] [105, 110]).result ≠ QED_ERROR_FILE_IO := by
  have he : (qed_encrypt_file ref_prim ref_device doc (some scenario_iv) short_file_system
      [105, 110] [105, 110]).result = QED_ERROR_INVALID_INPUT := rfl
  have hd : (qed_decrypt_file ref_prim ref_device doc short_file_system
      [105, 110] [105, 110]).result = QED_ERROR_INVALID_INPUT := rfl
  refine ⟨rfl, rfl, he, ?_, hd, ?_⟩
  · rw [he]; decide
  · rw [hd]; decide

/-- Claim C20, as amended (path collision).  For every device, identifier and pair
of paths where the input file exists and both paths resolve to the same
canonical path, `qed_encrypt_file` and `qed_decrypt_file` return
`QED_ERROR_INVALID_INPUT` and leave the device and every file as they were: the
input is not read, no key is derived and nothing is written. -/
theorem path_collision (prim : Primitives) (device : qed_device_t) (key_id : List Nat)
    (iv : Option (List Nat)) (files : file_system) (input_path output_path : List Nat)
    (hexists : qed_file_exists files input_path = true)
    (hsame : qed_paths_are_same files input_path output_path = true) :
    qed_encrypt_file prim device key_id iv files input_path output_path =
        ⟨QED_ERROR_INVALID_INPUT, device, files⟩ ∧
      qed_decrypt_file prim device key_id files input_path output_path =
        ⟨QED_ERROR_INVALID_INPUT, device, files⟩ := by
  constructor
  · simp [qed_encrypt_file, hexists, hsame]
  · simp [qed_decrypt_file, hexists, hsame]

/-- Witness of C20 (amended): the file `"in"` as input and output on the
reference device. -/
theorem path_collision_witness :
    qed_encrypt_file ref_prim ref_device doc (some scenario_iv) short_file_system
        [105, 110] [105, 110] =
        ⟨QED_ERROR_INVALID_INPUT, ref_device, short_file_system⟩ ∧
      qed_decrypt_file ref_prim ref_device doc short_file_system [105, 110] [105, 110] =
        ⟨QED_ERROR_INVALID_INPUT, ref_device, short_file_system⟩ :=
  path_collision ref_prim ref_device doc (some scenario_iv) short_file_system
    [105, 110] [105, 110] rfl rfl

/-! ## Files of length zero -/

/-- Counterexample to C21 as stated: the file `"in"` has length zero and
`"out"` is another, writable path.  `qed_encrypt_file` returns
`QED_ERROR_INVALID_INPUT` and no file `"out"` exists afterwards;
`qed_decrypt_file` of the zero-length file returns `QED_ERROR_INVALID_INPUT`
as well. -/
theorem empty_file_not_written :
    empty_file_system.content [105, 110] = some [] ∧
      qed_paths_are_same empty_file_system [105, 110] [111, 117, 116] = false ∧
      empty_file_system.writable [111, 117, 116] = true ∧
      (qed_encrypt_file ref_prim ref_device doc (some scenario_iv) empty_file_system
        [105, 110] [111, 117, 116]).result = QED_ERROR_INVALID_INPUT ∧
      (qed_encrypt_file ref_prim ref_device doc (some scenario_iv) empty_file_system
        [105, 110] [111, 117, 116]).result ≠ QED_SUCCESS ∧
      (qed_encrypt_file ref_prim ref_device doc (some scenario_iv) empty_file_system
        [105, 110] [111, 117, 116]).files.content [111, 117, 116] = none ∧
      (qed_decrypt_file ref_prim ref_device doc empty_file_system
        [105, 110] [111, 117, 116]).result = QED_ERROR_INVALID_INPUT := by
  have he : (qed_encrypt_file ref_prim ref_device doc (some scenario_iv) empty_file_system
      [105, 110] [111, 117, 116]).result = QED_ERROR_INVALID_INPUT := rfl
  refine ⟨rfl, rfl, rfl, he, ?_, rfl, rfl⟩
  rw [he]; decide

/-- Claim C21, as amended (empty file).  For every device and identifier, when
the input file has length zero, `qed_encrypt_file` leaves the device as it
was and its outcome is the same for every cipher and every drawn IV
(`qed_quantum_encrypt` is not invoked, no key is derived); `qed_decrypt_file`
of a zero-length file returns `QED_ERROR_INVALID_INPUT` with the device and
every file unchanged. -/
theorem empty_file_no_cipher (prim : Primitives) (device : qed_device_t) (key_id : List Nat)
    (iv : Option (List Nat)) (files : file_system) (input_path output_path : List Nat)
    (hempty : files.content input_path = some []) :
    (qed_encrypt_file prim device key_id iv files input_path output_path).device = device ∧
      (∀ (prim1 : Primitives) (iv1 : Option (List Nat)),
        qed_encrypt_file prim1 device key_id iv1 files input_path output_path =
          qed_encrypt_file prim device key_id iv files input_path output_path) ∧
      qed_decrypt_file prim device key_id files input_path output_path =
        ⟨QED_ERROR_INVALID_INPUT, device, files⟩ := by
  have henc : ∀ (prim1 : Primitives) (iv1 : Option (List Nat)),
      qed_encrypt_file prim1 device key_id iv1 files input_path output_path =
        if qed_paths_are_same files input_path output_path then
          ⟨QED_ERROR_INVALID_INPUT, device, files⟩
        else
          ⟨(qed_write_file files output_path none).1, device,
            (qed_write_file files output_path none).2⟩ := by
    intro prim1 iv1
    by_cases hsame : qed_paths_are_same files input_path output_path = true
    · simp [qed_encrypt_file, qed_file_exists, hempty, hsame]
    · simp [qed_encrypt_file, qed_file_exists, qed_read_file, hempty, hsame]
  refine ⟨?_, fun prim1 iv1 => by rw [henc prim1 iv1, henc prim iv], ?_⟩
  · rw [henc prim iv]
    split_ifs <;> rfl
  · by_cases hsame : qed_paths_are_same files input_path output_path = true
    · simp [qed_decrypt_file, qed_file_exists, hempty, hsame]
    · simp [qed_decrypt_file, qed_file_exists, qed_read_file, hempty, hsame,
        QED_SIGNATURE_LENGTH]

/-- Witness of C21 (amended): the zero-length file `"in"` on the reference
device. -/
theorem empty_file_no_cipher_witness :
    (qed_encrypt_file ref_prim ref_device doc (some scenario_iv) empty_file_system
        [105, 110] [111, 117, 116]).device = ref_device ∧
      qed_decrypt_file ref_prim ref_device doc empty_file_system [105, 110] [111, 117, 116] =
        ⟨QED_ERROR_INVALID_INPUT, ref_device, empty_file_system⟩ :=
  have h := empty_file_no_cipher ref_prim ref_device doc (some scenario_iv) empty_file_system
    [105, 110] [111, 117, 116] rfl
  ⟨h.1, h.2.2⟩

/-! ## The content of the noise string -/

theorem digitChar_digit (d : Nat) (hd : d < 10) :
    48 ≤ (Nat.digitChar d).toNat ∧ (Nat.digitChar d).toNat ≤ 57 := by
  interval_cases d <;> decide

theorem toDigitsCore_digits (fuel n : Nat) (ds : List Char)
    (hds : ∀ c ∈ ds, 48 ≤ c.toNat ∧ c.toNat ≤ 57) :
    ∀ c ∈ Nat.toDigitsCore 10 fuel n ds, 48 ≤ c.toNat ∧ c.toNat ≤ 57 := by
  induction fuel generalizing n ds with
  | zero => simpa [Nat.toDigitsCore] using hds
  | succ fuel ih =>
    have hcons : ∀ c ∈ Nat.digitChar (n % 10) :: ds, 48 ≤ c.toNat ∧ c.toNat ≤ 57 := by
      intro c hc
      rcases List.mem_cons.mp hc with rfl | hc
      · exact digitChar_digit _ (Nat.mod_lt _ (by decide))
      · exact hds c hc
    simp only [Nat.toDigitsCore]
    split_ifs
    · exact hcons
    · exact ih _ _ hcons

/-- Every character of a decimal representation is an ASCII digit. -/
theorem decimal_digit (n : Nat) : ∀ c ∈ decimal n, 48 ≤ c ∧ c ≤ 57 := by
  intro c hc
  simp only [decimal, List.mem_map] at hc
  obtain ⟨ch, hch, rfl⟩ := hc
  exact toDigitsCore_digits _ _ [] (by simp) ch hch

theorem decimal_digits_digit (hash : List Nat) :
    ∀ c ∈ decimal_digits hash, 48 ≤ c ∧ c ≤ 57 := by
  intro c hc
  simp only [decimal_digits, List.mem_flatten, List.mem_map] at hc
  obtain ⟨l, ⟨b, _, rfl⟩, hcl⟩ := hc
  exact decimal_digit _ c hcl

/-- A byte has one to three decimal digits, without a leading zero, and they
are its value in base ten. -/
theorem decimal_byte :
    ∀ b, b < 256 →
      1 ≤ (decimal b).length ∧ (decimal b).length ≤ 3 ∧
        (b ≠ 0 → (decimal b).head? ≠ some 48) ∧
        (decimal b).foldl (fun acc c => 10 * acc + (c - 48)) 0 = b := by
  set_option maxRecDepth 100000 in decide

/-- The loop leaves the first 63 characters of what is stored followed by the
digits of the hash bytes. -/
theorem quantum_noise_loop_eq (hash noise : List Nat)
    (h : noise.length ≤ QED_QUANTUM_NOISE_LENGTH - 1) :
    quantum_noise_loop hash noise =
      noise ++ (decimal_digits hash).take (QED_QUANTUM_NOISE_LENGTH - 1 - noise.length) := by
  induction hash generalizing noise with
  | nil => simp [quantum_noise_loop, decimal_digits]
  | cons b bs ih =>
    have hd : decimal_digits (b :: bs) = decimal (b % 256) ++ decimal_digits bs := by
      simp [decimal_digits]
    have h1 : (noise ++ (decimal (b % 256)).take
        (QED_QUANTUM_NOISE_LENGTH - noise.length - 1)).length ≤ QED_QUANTUM_NOISE_LENGTH - 1 := by
      rw [List.length_append, List.length_take]
      simp only [QED_QUANTUM_NOISE_LENGTH] at h ⊢
      omega
    have hnot : ¬ (noise ++ (decimal (b % 256)).take
        (QED_QUANTUM_NOISE_LENGTH - noise.length - 1)).length ≥ QED_QUANTUM_NOISE_LENGTH := by
      simp only [QED_QUANTUM_NOISE_LENGTH] at h1 ⊢
      omega
    simp only [quantum_noise_loop]
    rw [if_neg hnot, ih _ h1, hd, List.take_append_eq_append_take, List.append_assoc]
    have e1 : QED_QUANTUM_NOISE_LENGTH - noise.length - 1 =
        QED_QUANTUM_NOISE_LENGTH - 1 - noise.length := by omega
    have e2 : QED_QUANTUM_NOISE_LENGTH - 1 -
        (noise ++ (decimal (b % 256)).take
          (QED_QUANTUM_NOISE_LENGTH - noise.length - 1)).length =
        QED_QUANTUM_NOISE_LENGTH - 1 - noise.length - (decimal (b % 256)).length := by
      rw [List.length_append, List.length_take]
      omega
    rw [e2, e1]

theorem measure_noise_eq (prim : Primitives) (hw_sig : qed_hardware_sig_t)
    (hempty : hw_sig.quantum_noise = []) (hsha : ∀ d, (prim.SHA256 d).length = 32) :
    (qed_measure_quantum_noise prim hw_sig).2.quantum_noise =
      (decimal_digits
        (prim.SHA256 (prim.printf_f6 hw_sig.cpu_frequency ++
          decimal hw_sig.ram_signature))).take (QED_QUANTUM_NOISE_LENGTH - 1) := by
  have htake : (prim.SHA256 (prim.printf_f6 hw_sig.cpu_frequency ++
      decimal hw_sig.ram_signature)).take (min 32 QED_QUANTUM_NOISE_LENGTH) =
      prim.SHA256 (prim.printf_f6 hw_sig.cpu_frequency ++ decimal hw_sig.ram_signature) :=
    List.take_of_length_le (by rw [hsha]; decide)
  simp only [qed_measure_quantum_noise, htake, hempty]
  rw [quantum_noise_loop_eq _ [] (by decide)]
  simp only [List.nil_append, List.length_nil, Nat.sub_zero, List.take_take]
  rfl

/-- Claim C22 (noise content).  With `H` the digest of the seed string (32
bytes) and `D` the decimal digits of the bytes of `H` in order,
`qed_measure_quantum_noise` on an empty noise buffer leaves a prefix of `D`,
all of `D` when `D` has fewer than 64 characters; every character of the noise
is an ASCII digit and the noise is not empty. -/
theorem noise_content (prim : Primitives) (hw_sig : qed_hardware_sig_t)
    (hempty : hw_sig.quantum_noise = []) (hsha : ∀ d, (prim.SHA256 d).length = 32) :
    (qed_measure_quantum_noise prim hw_sig).2.quantum_noise <+:
        decimal_digits
          (prim.SHA256 (prim.printf_f6 hw_sig.cpu_frequency ++ decimal hw_sig.ram_signature)) ∧
      ((decimal_digits
          (prim.SHA256 (prim.printf_f6 hw_sig.cpu_frequency ++
            decimal hw_sig.ram_signature))).length < QED_QUANTUM_NOISE_LENGTH →
        (qed_measure_quantum_noise prim hw_sig).2.quantum_noise =
          decimal_digits
            (prim.SHA256 (prim.printf_f6 hw_sig.cpu_frequency ++
              decimal hw_sig.ram_signature))) ∧
      (∀ c ∈ (qed_measure_quantum_noise prim hw_sig).2.quantum_noise, 48 ≤ c ∧ c ≤ 57) ∧
      (qed_measure_quantum_noise prim hw_sig).2.quantum_noise ≠ [] := by
  rw [measure_noise_eq prim hw_sig hempty hsha]
  refine ⟨List.take_prefix _ _, ?_, ?_, ?_⟩
  · intro hshort
    exact List.take_of_length_le (by simp only [QED_QUANTUM_NOISE_LENGTH] at hshort ⊢; omega)
  · intro c hc
    exact decimal_digits_digit _ c (List.mem_of_mem_take hc)
  · intro h0
    have hlen := congrArg List.length h0
    have hge := quantum_noise_loop_ge
      (prim.SHA256 (prim.printf_f6 hw_sig.cpu_frequency ++ decimal hw_sig.ram_signature)) []
      (by decide)
    rw [quantum_noise_loop_eq _ [] (by decide), hsha] at hge
    simp only [List.nil_append, List.length_nil, Nat.sub_zero, QED_QUANTUM_NOISE_LENGTH,
      List.length_take] at hge hlen
    omega

/-- Witness of C22: the signature of the reference device before its noise is
measured. -/
theorem noise_content_witness :
    (∀ c ∈ (qed_measure_quantum_noise ref_prim
        { ref_device.hardware_sig with quantum_noise := [] }).2.quantum_noise,
        48 ≤ c ∧ c ≤ 57) ∧
      (qed_measure_quantum_noise ref_prim
        { ref_device.hardware_sig with quantum_noise := [] }).2.quantum_noise ≠ [] :=
  have h := noise_content ref_prim { ref_device.hardware_sig with quantum_noise := [] } rfl
    ref_hash_length
  ⟨h.2.2.1, h.2.2.2⟩

/-! ## The noise string is one character short -/

/-- The digest has 32 bytes. -/
theorem sha256_length (d : List Nat) : (sha256 d).length = 32 := by
  simp [sha256, word_bytes]

/-- Claim C15 (noise length), what the code leaves instead of 64 characters.
For every `cpu_frequency` and `ram_signature` and an empty noise buffer,
`qed_measure_quantum_noise` returns `QED_SUCCESS` and leaves the first 63
decimal digits of the 32 hash bytes: the size `64 - strlen(noise)` it passes
to `snprintf` counts the terminating NUL, so the string never reaches 64
characters, and it has 63 whenever the hash bytes have 63 digits or more. -/
theorem noise_one_short (prim : Primitives) (hw_sig : qed_hardware_sig_t)
    (hempty : hw_sig.quantum_noise = []) (hsha : ∀ d, (prim.SHA256 d).length = 32) :
    (qed_measure_quantum_noise prim hw_sig).1 = QED_SUCCESS ∧
      (qed_measure_quantum_noise prim hw_sig).2.quantum_noise =
        (decimal_digits
          (prim.SHA256 (prim.printf_f6 hw_sig.cpu_frequency ++
            decimal hw_sig.ram_signature))).take 63 ∧
      (qed_measure_quantum_noise prim hw_sig).2.quantum_noise.length ≤ 63 ∧
      (qed_measure_quantum_noise prim hw_sig).2.quantum_noise.length ≠
        QED_QUANTUM_NOISE_LENGTH ∧
      (63 ≤ (decimal_digits
          (prim.SHA256 (prim.printf_f6 hw_sig.cpu_frequency ++
            decimal hw_sig.ram_signature))).length →
        (qed_measure_quantum_noise prim hw_sig).2.quantum_noise.length = 63) := by
  have h := measure_noise_eq prim hw_sig hempty hsha
  have h63 : QED_QUANTUM_NOISE_LENGTH - 1 = 63 := rfl
  rw [h63] at h
  have hle : (qed_measure_quantum_noise prim hw_sig).2.quantum_noise.length ≤ 63 := by
    rw [h, List.length_take]; omega
  refine ⟨rfl, h, hle, ?_, ?_⟩
  · simp only [QED_QUANTUM_NOISE_LENGTH]; omega
  · intro hd
    rw [h, List.length_take]; omega

/-- Witness of C15: `qed_init` on a machine whose `/proc/cpuinfo`
gives no frequency and whose `sysinfo` reports 16000000000 bytes of RAM,
8000000000 of them free, computed with SHA-256 and `"%.6f"`.  The seed is
`"2400000000.00000053352"`, the decimal digits of its hash have 81 characters,
and the noise string is their first 63, not 64. -/
theorem noise_one_short_witness :
    (qed_init std_prim none (some (16000000000, 8000000000))).result = QED_SUCCESS ∧
      (qed_init std_prim none (some (16000000000, 8000000000))).device.hardware_sig =
        (qed_measure_quantum_noise std_prim noise_sig).2 ∧
      std_prim.printf_f6 noise_sig.cpu_frequency ++ decimal noise_sig.ram_signature =
        "2400000000.00000053352".toList.map Char.toNat ∧
      (decimal_digits
        (std_prim.SHA256 (std_prim.printf_f6 noise_sig.cpu_frequency ++
          decimal noise_sig.ram_signature))).length = 81 ∧
      (qed_measure_quantum_noise std_prim noise_sig).2.quantum_noise =
        "102108529010721381222461192921816519026154224159209392481432453".toList.map
          Char.toNat ∧
      (qed_measure_quantum_noise std_prim noise_sig).2.quantum_noise.length = 63 ∧
      (qed_measure_quantum_noise std_prim noise_sig).2.quantum_noise.length ≠
        QED_QUANTUM_NOISE_LENGTH := by
  have h := noise_one_short std_prim noise_sig rfl sha256_length
  have hd : (decimal_digits
      (std_prim.SHA256 (std_prim.printf_f6 noise_sig.cpu_frequency ++
        decimal noise_sig.ram_signature))).length = 81 := by
    decide!
  refine ⟨by decide!, by decide!, by decide!, hd, by decide!, h.2.2.2.2 (by rw [hd]; decide),
    h.2.2.2.1⟩

/-! ## The error strings -/

/-- The nine error codes get their table entry, every value outside
`-9 .. -1` gets `"Unknown error"`, and no call reads outside the table. -/
theorem error_string_table :
    qed_get_error_string (qed_result_t.value QED_ERROR_MEMORY) =
        some "Memory allocation error" ∧
      qed_get_error_string (qed_result_t.value QED_ERROR_FILE_IO) = some "File I/O error" ∧
      qed_get_error_string (qed_result_t.value QED_ERROR_HARDWARE) =
        some "Hardware detection error" ∧
      qed_get_error_string (qed_result_t.value QED_ERROR_ENCRYPTION) =
        some "Encryption error" ∧
      qed_get_error_string (qed_result_t.value QED_ERROR_DECRYPTION) =
        some "Decryption error" ∧
      qed_get_error_string (qed_result_t.value QED_ERROR_SIGNATURE_MISMATCH) =
        some "Signature mismatch" ∧
      qed_get_error_string (qed_result_t.value QED_ERROR_KEY_NOT_FOUND) =
        some "Key not found" ∧
      qed_get_error_string (qed_result_t.value QED_ERROR_INVALID_INPUT) =
        some "Invalid input" ∧
      qed_get_error_string (qed_result_t.value QED_ERROR_KEY_LIMIT_REACHED) =
        some "Key limit reached" ∧
      (∀ result : Int, result ≥ 0 ∨ result < -9 →
        qed_get_error_string result = some "Unknown error") ∧
      ∀ result : Int, (qed_get_error_string result).isSome = true := by
  refine ⟨by decide, by decide, by decide, by decide, by decide, by decide, by decide,
    by decide, by decide, ?_, ?_⟩
  · intro result h
    simp [qed_get_error_string, h]
  · intro result
    unfold qed_get_error_string
    split_ifs with h
    · rfl
    · have h1 : (-result).toNat < error_strings.length := by
        simp only [error_strings, List.length_cons, List.length_nil]
        omega
      simp [List.getElem?_eq_getElem h1]

/-- Claim C23 at the code `QED_SUCCESS`: the value is 0, the test
`result >= 0` holds, and the function returns `"Unknown error"`; the entry
`"Success"` at index 0 of the table is never returned. -/
theorem error_string_of_success :
    qed_result_t.value QED_SUCCESS = 0 ∧
      qed_get_error_string (qed_result_t.value QED_SUCCESS) = some "Unknown error" ∧
      error_strings[0]? = some "Success" ∧
      qed_get_error_string (qed_result_t.value QED_SUCCESS) ≠ some "Success" ∧
      ∀ result : Int, qed_get_error_string result ≠ some "Success" := by
  refine ⟨rfl, by decide, by decide, by decide, ?_⟩
  intro result
  unfold qed_get_error_string
  split_ifs with h
  · decide
  · have h1 : -9 ≤ result ∧ result < 0 := by omega
    obtain ⟨n, hn⟩ : ∃ n : Nat, result = -(n : Int) := ⟨(-result).toNat, by omega⟩
    subst hn
    have hn9 : 1 ≤ n ∧ n ≤ 9 := by omega
    simp only [neg_neg, Int.toNat_ofNat]
    obtain ⟨h1, h9⟩ := hn9
    interval_cases n <;> decide

/-! ## Decryption under another identifier -/

theorem generate_key_count_le (prim : Primitives) (device : qed_device_t) (key_id : List Nat)
    (key_length : Nat) :
    (qed_generate_quantum_key prim device key_id key_length).device.key_count ≤
      device.key_count + 1 := by
  by_cases hlen : key_length = 0
  · subst hlen; simp [generate_zero_length]
  by_cases hinit : device.initialized = true
  · cases hfind : find_key device.quantum_keys device.key_count key_id with
    | some i => simp [generate_found hinit hlen hfind]
    | none =>
      by_cases hroom : device.key_count < QED_MAX_KEYS
      · simp [generate_new hinit hlen hfind hroom]
      · simp [generate_limit hinit hlen hfind (Nat.le_of_not_lt hroom)]
  · simp [generate_uninitialized hlen (by simpa using hinit)]

/-- On an initialized device with a free slot, where every stored key is the
32-byte digest, a derivation at 32 bytes succeeds and returns that digest. -/
theorem uniform_keys_generate_eq {prim : Primitives} {device : qed_device_t}
    (hsha : ∀ d, (prim.SHA256 d).length = 32) (h : uniform_keys prim device)
    (hinit : device.initialized = true) (hroom : device.key_count < QED_MAX_KEYS)
    (key_id : List Nat) :
    qed_generate_quantum_key prim device key_id QED_KEY_LENGTH =
      ⟨QED_SUCCESS, some (final_hash prim device.hardware_sig QED_KEY_LENGTH),
        (qed_generate_quantum_key prim device key_id QED_KEY_LENGTH).device⟩ := by
  have hres : (qed_generate_quantum_key prim device key_id QED_KEY_LENGTH).result =
      QED_SUCCESS := by
    cases hfind : find_key device.quantum_keys device.key_count key_id with
    | some i => rw [generate_found hinit (by decide) hfind]
    | none => rw [generate_new hinit (by decide) hfind hroom]
  obtain ⟨key, hout, _⟩ := generate_success_out hres
  have hkey := uniform_keys_derived hsha h hres hout
  cases hg : qed_generate_quantum_key prim device key_id QED_KEY_LENGTH with
  | mk r o d =>
    rw [hg] at hres hout
    simp only at hres hout
    rw [hres, hout, hkey]

/-- Decryption under any identifier on a device whose stored keys are all the
32-byte digest. -/
theorem decrypt_other_id_uniform {prim : Primitives} {device device1 : qed_device_t}
    {a b iv plaintext envelope : List Nat}
    (hsha : ∀ d, (prim.SHA256 d).length = 32)
    (hinv : ∀ key iv p c, prim.aes_256_cbc_encrypt key iv p = some c →
      prim.aes_256_cbc_decrypt key iv c = some p)
    (huni : uniform_keys prim device)
    (hroom : device.key_count + 2 ≤ QED_MAX_KEYS) (hiv : iv.length = 16)
    (henc : qed_quantum_encrypt prim device a (some iv) plaintext =
      ⟨QED_SUCCESS, some envelope, device1⟩) :
    qed_quantum_decrypt prim device1 b envelope =
      ⟨QED_SUCCESS, some plaintext,
        (qed_generate_quantum_key prim device1 b QED_KEY_LENGTH).device⟩ := by
  obtain ⟨_, key, encrypted, hgen, htake, haes, hne, hE⟩ := encrypt_inv henc
  have hres : (qed_generate_quantum_key prim device a QED_KEY_LENGTH).result = QED_SUCCESS := by
    rw [hgen]
  have hkey : key = final_hash prim device.hardware_sig QED_KEY_LENGTH :=
    uniform_keys_derived hsha huni hres (by rw [hgen])
  have hd1 : (qed_generate_quantum_key prim device a QED_KEY_LENGTH).device = device1 := by
    rw [hgen]
  have hframe := generate_frame prim device a QED_KEY_LENGTH
  rw [hd1] at hframe
  have huni1 : uniform_keys prim device1 := by
    have := uniform_keys_generate hsha huni a
    rw [hd1] at this
    exact this
  have hinit1 : device1.initialized = true := by
    rw [hframe.2.1]; exact (generate_success_initialized hres).1
  have hroom1 : device1.key_count < QED_MAX_KEYS := by
    have := generate_key_count_le prim device a QED_KEY_LENGTH
    rw [hd1] at this
    omega
  have hgenb := uniform_keys_generate_eq hsha huni1 hinit1 hroom1 b
  rw [hframe.1, ← hkey] at hgenb
  have hhw2 : (qed_generate_quantum_key prim device1 b QED_KEY_LENGTH).device.hardware_sig =
      device1.hardware_sig := (generate_frame prim device1 b QED_KEY_LENGTH).1
  have hE1 : envelope =
      prim.SHA256 (encrypted ++ key ++ device1.hardware_sig.quantum_noise) ++ iv ++
        encrypted := by
    rw [hE, List.take_of_length_le (by rw [hsha]; decide), List.take_of_length_le (by omega)]
  obtain ⟨h1, h2, h3, h4⟩ := envelope_parts (prim.SHA256
    (encrypted ++ key ++ device1.hardware_sig.quantum_noise)) (iv) encrypted (hsha _) hiv
  rw [← hE1] at h1 h2 h3 h4
  have hlen : QED_SIGNATURE_LENGTH + 16 ≤ envelope.length := by rw [h4]; omega
  rw [decrypt_eq hlen hgenb, h1, h2, h3, htake, hhw2]
  have hv : qed_verify_quantum_signature prim device1.hardware_sig (encrypted ++ key)
      (prim.SHA256 (encrypted ++ key ++ device1.hardware_sig.quantum_noise)) = QED_SUCCESS := by
    rw [verify_eq_success]
    exact ⟨hne, rfl⟩
  rw [hv]
  simp [hinv _ _ _ _ haes]

/-- Claim C24, as amended to devices whose keys were all derived at 32 bytes:
on a device reached from `qed_init` by calls that derive keys at 32 bytes only,
with `key_count` at most 1022 (two slots not yet handed out), for any two
identifiers `a` and `b` and every plaintext, if `qed_quantum_encrypt` under `a`
returns an envelope then `qed_quantum_decrypt` of it under `b` succeeds and
returns the plaintext; in particular it does not return
`QED_ERROR_SIGNATURE_MISMATCH`.  AES-256-CBC is an invertible cipher and
SHA-256 gives 32 bytes. -/
theorem decrypt_under_other_id (prim : Primitives) (cpu_mhz : Option Nat)
    (info : Option (Nat × Nat)) (calls : List qed_call) (device1 : qed_device_t)
    (a b iv plaintext envelope : List Nat)
    (hsha : ∀ d, (prim.SHA256 d).length = 32)
    (hinv : ∀ key iv p c, prim.aes_256_cbc_encrypt key iv p = some c →
      prim.aes_256_cbc_decrypt key iv c = some p)
    (hinit : (qed_init prim cpu_mhz info).result = QED_SUCCESS)
    (hcalls : ∀ c ∈ calls, c.at_key_length = true)
    (hroom : (run_calls prim (qed_init prim cpu_mhz info).device calls).key_count + 2 ≤
      QED_MAX_KEYS)
    (hiv : iv.length = 16)
    (henc : qed_quantum_encrypt prim (run_calls prim (qed_init prim cpu_mhz info).device calls)
      a (some iv) plaintext = ⟨QED_SUCCESS, some envelope, device1⟩) :
    (qed_quantum_decrypt prim device1 b envelope).result = QED_SUCCESS ∧
      (qed_quantum_decrypt prim device1 b envelope).out = some plaintext ∧
      (qed_quantum_decrypt prim device1 b envelope).result ≠ QED_ERROR_SIGNATURE_MISMATCH := by
  have hu := uniform_keys_run_calls hsha (uniform_keys_init hinit) calls hcalls
  rw [decrypt_other_id_uniform hsha hinv hu hroom hiv henc]
  exact ⟨rfl, rfl, by simp⟩

/-- Counterexample to C24 as stated (every initialized device): on the
reference device `"alpha"` was derived at 16 bytes, and 1023 slots are free.
Three bytes are encrypted under `"beta"`; decryption of the envelope under
`"alpha"` uses the cached key and fails with `QED_ERROR_SIGNATURE_MISMATCH`. -/
theorem other_id_signature_mismatch :
    alpha_device.initialized = true ∧ alpha_device.key_count = 1 ∧
      beta_encryption.result = QED_SUCCESS ∧
      (qed_quantum_decrypt ref_prim beta_encryption.device alpha
        (beta_encryption.out.getD [])).result = QED_ERROR_SIGNATURE_MISMATCH ∧
      (qed_quantum_decrypt ref_prim beta_encryption.device alpha
        (beta_encryption.out.getD [])).out = none := by
  set_option maxRecDepth 1000000 in decide

/-- Witness of C24 (amended): the envelope of three bytes made under `"doc"` on
the reference device decrypts under `"beta"`. -/
theorem decrypt_under_other_id_witness :
    (qed_quantum_decrypt ref_prim small_encryption.device beta small_envelope).result =
        QED_SUCCESS ∧
      (qed_quantum_decrypt ref_prim small_encryption.device beta small_envelope).out =
        some [0x41, 0x42, 0x43] :=
  have h := decrypt_under_other_id ref_prim none (some (16000000000, 8000000000)) []
    small_encryption.device doc beta scenario_iv [0x41, 0x42, 0x43] small_envelope
    ref_hash_length ref_decrypt_encrypt rfl (by decide)
    (by show ref_device.key_count + 2 ≤ QED_MAX_KEYS; rw [ref_device_fresh.2.1]; decide)
    (by decide) small_encryption_eq
  ⟨h.1, h.2.1⟩

/-! ## An envelope with an altered tag -/

/-- Claim C25, as amended to identifiers of at most 255 bytes: for an envelope
produced by `qed_quantum_encrypt` and an envelope of the same length that
differs from it inside the tag region `[0, 32)` and nowhere else,
`qed_quantum_decrypt` returns `QED_ERROR_SIGNATURE_MISMATCH` and no plaintext;
SHA-256 only has to give 32 bytes. -/
theorem tag_tamper_detected (prim : Primitives) (device device1 : qed_device_t)
    (key_id iv plaintext envelope envelope1 : List Nat)
    (hsha : ∀ d, (prim.SHA256 d).length = 32)
    (htab : device.quantum_keys.length = QED_MAX_KEYS)
    (hid : key_id.length ≤ QED_MAX_KEY_ID_LENGTH - 1) (hiv : iv.length = 16)
    (henc : qed_quantum_encrypt prim device key_id (some iv) plaintext =
      ⟨QED_SUCCESS, some envelope, device1⟩)
    (hlen : envelope1.length = envelope.length)
    (htag : envelope1.take QED_SIGNATURE_LENGTH ≠ envelope.take QED_SIGNATURE_LENGTH)
    (hrest : envelope1.drop QED_SIGNATURE_LENGTH = envelope.drop QED_SIGNATURE_LENGTH) :
    qed_quantum_decrypt prim device1 key_id envelope1 =
      ⟨QED_ERROR_SIGNATURE_MISMATCH, none, device1⟩ := by
  obtain ⟨key, encrypted, _, hgen, htake, _, _, hE⟩ :=
    encrypt_then_key hsha htab hid hiv henc
  obtain ⟨h1, _, h3, h4⟩ := envelope_parts (prim.SHA256
    (encrypted ++ key ++ device1.hardware_sig.quantum_noise)) (iv) encrypted (hsha _) hiv
  rw [← hE] at h1 h3 h4
  have hlen1 : QED_SIGNATURE_LENGTH + 16 ≤ envelope1.length := by rw [hlen, h4]; omega
  have hct : envelope1.drop (QED_SIGNATURE_LENGTH + 16) = encrypted := by
    rw [← h3, ← List.drop_drop, ← List.drop_drop, hrest]
  rw [decrypt_eq hlen1 hgen, hct, htake]
  have hv : qed_verify_quantum_signature prim device1.hardware_sig (encrypted ++ key)
      (envelope1.take QED_SIGNATURE_LENGTH) ≠ QED_SUCCESS := by
    rw [Ne, verify_eq_success]
    intro ⟨_, h⟩
    apply htag
    have hs : (prim.SHA256 (encrypted ++ key ++ device1.hardware_sig.quantum_noise)).take
        QED_SIGNATURE_LENGTH =
        prim.SHA256 (encrypted ++ key ++ device1.hardware_sig.quantum_noise) :=
      List.take_of_length_le (by rw [hsha]; decide)
    rw [List.take_take, Nat.min_self, hs] at h
    rw [h1, h]
  rw [if_pos hv]

/-- Witness of C25 (amended): bit 0 of the first tag byte is flipped in the
envelope of three bytes under `"doc"`. -/
theorem tag_tamper_detected_witness :
    qed_quantum_decrypt ref_prim small_encryption.device doc (flip_bit small_envelope 0 0) =
      ⟨QED_ERROR_SIGNATURE_MISMATCH, none, small_encryption.device⟩ :=
  tag_tamper_detected ref_prim ref_device small_encryption.device doc scenario_iv
    [0x41, 0x42, 0x43] small_envelope (flip_bit small_envelope 0 0) ref_hash_length
    ref_device_table_length (by decide) (by decide) small_encryption_eq
    (by simp [flip_bit])
    (by set_option maxRecDepth 1000000 in decide)
    (by set_option maxRecDepth 1000000 in decide)

/-- Counterexample to C25 as stated (every key id): the envelope made under the
256-byte identifier with the last free slot has bit 0 of its first tag byte
flipped, the rest being unchanged; decryption fails with
`QED_ERROR_KEY_LIMIT_REACHED`, not with `QED_ERROR_SIGNATURE_MISMATCH`. -/
theorem tag_tamper_long_id :
    derive_all ref_prim ref_device (key_names 1023) = nearly_full_device ∧
    long_id_encryption.result = QED_SUCCESS ∧
    long_id_encryption.out = some long_id_envelope ∧
    (flip_bit long_id_envelope 0 0).take 32 ≠ long_id_envelope.take 32 ∧
    (flip_bit long_id_envelope 0 0).drop 32 = long_id_envelope.drop 32 ∧
    (qed_quantum_decrypt ref_prim long_id_encryption.device long_id
        (flip_bit long_id_envelope 0 0)).result = QED_ERROR_KEY_LIMIT_REACHED ∧
    (qed_quantum_decrypt ref_prim long_id_encryption.device long_id
        (flip_bit long_id_envelope 0 0)).result ≠ QED_ERROR_SIGNATURE_MISMATCH := by
  have hlim := generate_on_filled_limit ref_prim ref_device (key_names 1023 ++ [long_id])
    long_id ref_device_fresh.1 (by simp [key_names_length, QED_MAX_KEYS])
    (long_id_no_match _)
  have hdec := @decrypt_key_error ref_prim
    (device_with_keys ref_prim ref_device (key_names 1023 ++ [long_id])) long_id
    (flip_bit long_id_envelope 0 0)
    (by
      have : (flip_bit long_id_envelope 0 0).length = long_id_envelope.length := by
        simp [flip_bit]
      rw [this, long_id_envelope_length]; decide)
    (by rw [hlim]; decide)
  rw [hlim] at hdec
  rw [long_id_encryption_eq]
  refine ⟨nearly_full_device_reached, rfl, rfl, ?_, ?_, ?_, ?_⟩
  · set_option maxRecDepth 1000000 in decide
  · set_option maxRecDepth 1000000 in decide
  · simp only []; rw [hdec]
  · simp only []; rw [hdec]; decide

/-! ## A wiped slot is not handed out again -/

/-- Slot `n` has been handed out (`n < key_count`) and is zero. -/
theorem released_slot_generate {prim : Primitives} {device : qed_device_t} {n : Nat}
    (h : n < device.key_count ∧ device.quantum_keys.getD n zero_key = zero_key)
    (key_id : List Nat) (key_length : Nat) :
    n < (qed_generate_quantum_key prim device key_id key_length).device.key_count ∧
      (qed_generate_quantum_key prim device key_id key_length).device.quantum_keys.getD n
        zero_key = zero_key := by
  by_cases hlen : key_length = 0
  · subst hlen; rw [generate_zero_length]; exact h
  by_cases hinit : device.initialized = true
  · cases hfind : find_key device.quantum_keys device.key_count key_id with
    | some i => rw [generate_found hinit hlen hfind]; exact h
    | none =>
      by_cases hroom : device.key_count < QED_MAX_KEYS
      · rw [generate_new hinit hlen hfind hroom]
        refine ⟨Nat.lt_succ_of_lt h.1, ?_⟩
        show (device.quantum_keys.set device.key_count _).getD n zero_key = zero_key
        rw [getD_set_ne _ (Nat.ne_of_gt h.1)]
        exact h.2
      · rw [generate_limit hinit hlen hfind (Nat.le_of_not_lt hroom)]; exact h
  · rw [generate_uninitialized hlen (by simpa using hinit)]; exact h

theorem getD_set_zero_key {keys : List qed_quantum_key_t} (i n : Nat)
    (h : keys.getD n zero_key = zero_key) :
    (keys.set i zero_key).getD n zero_key = zero_key := by
  by_cases hin : i = n
  · subst hin
    by_cases hi : i < keys.length
    · exact getD_set_eq _ hi
    · rw [List.set_eq_of_length_le (Nat.le_of_not_lt hi)]; exact h
  · rw [getD_set_ne _ hin]; exact h

theorem released_slot_run {prim : Primitives} {device : qed_device_t} {n : Nat}
    (h : n < device.key_count ∧ device.quantum_keys.getD n zero_key = zero_key)
    (c : qed_call) (hc : c ≠ qed_call.quantum_wipe_all) :
    n < (c.run prim device).device.key_count ∧
      (c.run prim device).device.quantum_keys.getD n zero_key = zero_key := by
  cases c with
  | generate_quantum_key key_id key_length => exact released_slot_generate h key_id key_length
  | quantum_wipe key_id =>
    simp only [qed_call.run, qed_quantum_wipe]
    cases find_key device.quantum_keys device.key_count key_id with
    | none => exact h
    | some i => exact ⟨h.1, getD_set_zero_key i n h.2⟩
  | quantum_wipe_all => exact absurd rfl hc
  | quantum_encrypt key_id iv plaintext =>
    simp only [qed_call.run, encrypt_device]
    split_ifs
    · exact h
    · exact released_slot_generate h key_id QED_KEY_LENGTH
  | quantum_decrypt key_id ciphertext =>
    simp only [qed_call.run, decrypt_device]
    split_ifs
    · exact h
    · exact released_slot_generate h key_id QED_KEY_LENGTH

theorem released_slot_run_calls {prim : Primitives} {device : qed_device_t} {n : Nat}
    (h : n < device.key_count ∧ device.quantum_keys.getD n zero_key = zero_key)
    (calls : List qed_call) (hc : ∀ c ∈ calls, c ≠ qed_call.quantum_wipe_all) :
    n < (run_calls prim device calls).key_count ∧
      (run_calls prim device calls).quantum_keys.getD n zero_key = zero_key := by
  induction calls generalizing device with
  | nil => exact h
  | cons c cs ih =>
    simp only [run_calls]
    exact ih (released_slot_run h c (hc c (List.mem_cons_self _ _)))
      (fun c1 h1 => hc c1 (List.mem_cons_of_mem _ h1))

/-- The device after a new derivation at index `key_count` and a wipe of the
same identifier: the device with the new slot when the wipe finds nothing (an
identifier that does not fit the slot), the device with slot `key_count` zero
otherwise. -/
theorem wipe_after_generate {prim : Primitives} {device : qed_device_t} {key_id : List Nat}
    (htab : device.quantum_keys.length = QED_MAX_KEYS)
    (hfind : find_key device.quantum_keys device.key_count key_id = none)
    (hres : (qed_generate_quantum_key prim device key_id QED_KEY_LENGTH).result = QED_SUCCESS) :
    device.key_count < QED_MAX_KEYS ∧
      qed_generate_quantum_key prim device key_id QED_KEY_LENGTH =
        ⟨QED_SUCCESS, some ((final_hash prim device.hardware_sig QED_KEY_LENGTH).take 32),
          { device with
            quantum_keys :=
              device.quantum_keys.set device.key_count
                (new_key_slot prim device key_id QED_KEY_LENGTH),
            key_count := device.key_count + 1 }⟩ ∧
      (∃ s,
        (s = zero_key ∨
          (s = new_key_slot prim device key_id QED_KEY_LENGTH ∧
            key_matches key_id s = false)) ∧
        (key_id.length ≤ QED_MAX_KEY_ID_LENGTH - 1 → s = zero_key) ∧
        qed_quantum_wipe (qed_generate_quantum_key prim device key_id QED_KEY_LENGTH).device
            key_id =
          ⟨if s = zero_key then QED_SUCCESS else QED_ERROR_KEY_NOT_FOUND, none,
            { device with
              quantum_keys := device.quantum_keys.set device.key_count s,
              key_count := device.key_count + 1 }⟩) := by
  obtain ⟨hinit, hlen⟩ := generate_success_initialized hres
  have hroom : device.key_count < QED_MAX_KEYS := by
    by_contra hroom
    rw [generate_limit hinit hlen hfind (Nat.le_of_not_lt hroom)] at hres
    cases hres
  have hin : device.key_count < device.quantum_keys.length := by rw [htab]; exact hroom
  have hgen := @generate_new prim device key_id QED_KEY_LENGTH hinit hlen hfind hroom
  have hgen1 : qed_generate_quantum_key prim device key_id QED_KEY_LENGTH =
      ⟨QED_SUCCESS, some ((final_hash prim device.hardware_sig QED_KEY_LENGTH).take 32),
        { device with
          quantum_keys :=
            device.quantum_keys.set device.key_count
              (new_key_slot prim device key_id QED_KEY_LENGTH),
          key_count := device.key_count + 1 }⟩ := by
    rw [hgen]; rfl
  refine ⟨hroom, hgen1, ?_⟩
  rw [hgen1]
  by_cases hm : key_matches key_id (new_key_slot prim device key_id QED_KEY_LENGTH) = true
  · have hf : find_key
        (device.quantum_keys.set device.key_count
          (new_key_slot prim device key_id QED_KEY_LENGTH))
        (device.key_count + 1) key_id = some device.key_count := by
      rw [find_key_eq_some]
      refine ⟨Nat.lt_succ_self _, by rw [getD_set_eq _ hin]; exact hm, ?_⟩
      intro j hj
      rw [getD_set_ne _ (Nat.ne_of_gt hj)]
      exact find_key_eq_none.mp hfind j hj
    refine ⟨zero_key, Or.inl rfl, fun _ => rfl, ?_⟩
    simp only [qed_quantum_wipe, hf, if_true, List.set_set]
  · have hm1 : key_matches key_id (new_key_slot prim device key_id QED_KEY_LENGTH) = false := by
      simpa using hm
    have hf : find_key
        (device.quantum_keys.set device.key_count
          (new_key_slot prim device key_id QED_KEY_LENGTH))
        (device.key_count + 1) key_id = none := by
      rw [find_key_eq_none]
      intro j hj
      by_cases hjk : j = device.key_count
      · subst hjk; rw [getD_set_eq _ hin]; exact hm1
      · rw [getD_set_ne _ (Ne.symm hjk)]
        exact find_key_eq_none.mp hfind j (by omega)
    have hne : new_key_slot prim device key_id QED_KEY_LENGTH ≠ zero_key := by
      intro h0
      have := congrArg qed_quantum_key_t.in_use h0
      simp [new_key_slot, zero_key] at this
    refine ⟨new_key_slot prim device key_id QED_KEY_LENGTH, Or.inr ⟨rfl, hm1⟩, ?_, ?_⟩
    · intro hid
      exfalso
      simp [key_matches, new_key_slot, take_of_short hid] at hm1
    · simp only [qed_quantum_wipe, hf, if_neg hne]

/-- Claim C26 (wipe does not retire the key or free its slot).  When a
derivation at 32 bytes finds no key and succeeds, it returns `K` and stores it
at index `n = key_count`.  After `qed_quantum_wipe` of the identifier
`key_count` is still `n + 1`; with `n + 1 < 1024` a further derivation at 32
bytes succeeds, returns the same bytes `K`, stores them in the slot at index
`n + 1` and raises `key_count` to `n + 2`.  For an identifier of at most 255
bytes the wipe succeeds and slot `n` is zero; it stays zero, below `key_count`,
through the further derivation and through every sequence of calls without
`qed_quantum_wipe_all`. -/
theorem wipe_keeps_slot_taken (prim : Primitives) (device : qed_device_t) (key_id : List Nat)
    (hsha : ∀ d, (prim.SHA256 d).length = 32)
    (htab : device.quantum_keys.length = QED_MAX_KEYS)
    (hfind : find_key device.quantum_keys device.key_count key_id = none)
    (hres : (qed_generate_quantum_key prim device key_id QED_KEY_LENGTH).result = QED_SUCCESS) :
    (qed_generate_quantum_key prim device key_id QED_KEY_LENGTH).device.key_count =
        device.key_count + 1 ∧
      (qed_quantum_wipe (qed_generate_quantum_key prim device key_id QED_KEY_LENGTH).device
        key_id).device.key_count = device.key_count + 1 ∧
      (device.key_count + 1 < QED_MAX_KEYS →
        (qed_generate_quantum_key prim
            (qed_quantum_wipe
              (qed_generate_quantum_key prim device key_id QED_KEY_LENGTH).device
              key_id).device key_id QED_KEY_LENGTH).result = QED_SUCCESS ∧
          (qed_generate_quantum_key prim
            (qed_quantum_wipe
              (qed_generate_quantum_key prim device key_id QED_KEY_LENGTH).device
              key_id).device key_id QED_KEY_LENGTH).out =
            (qed_generate_quantum_key prim device key_id QED_KEY_LENGTH).out ∧
          (qed_generate_quantum_key prim
            (qed_quantum_wipe
              (qed_generate_quantum_key prim device key_id QED_KEY_LENGTH).device
              key_id).device key_id QED_KEY_LENGTH).device.key_count = device.key_count + 2 ∧
          ((qed_generate_quantum_key prim
            (qed_quantum_wipe
              (qed_generate_quantum_key prim device key_id QED_KEY_LENGTH).device
              key_id).device key_id QED_KEY_LENGTH).device.quantum_keys.getD
              (device.key_count + 1) zero_key).in_use = true ∧
          some (((qed_generate_quantum_key prim
            (qed_quantum_wipe
              (qed_generate_quantum_key prim device key_id QED_KEY_LENGTH).device
              key_id).device key_id QED_KEY_LENGTH).device.quantum_keys.getD
              (device.key_count + 1) zero_key).key_data.take 32) =
            (qed_generate_quantum_key prim device key_id QED_KEY_LENGTH).out) ∧
      (key_id.length ≤ QED_MAX_KEY_ID_LENGTH - 1 →
        (qed_quantum_wipe (qed_generate_quantum_key prim device key_id QED_KEY_LENGTH).device
            key_id).result = QED_SUCCESS ∧
          ∀ calls : List qed_call, (∀ c ∈ calls, c ≠ qed_call.quantum_wipe_all) →
            device.key_count <
                (run_calls prim
                  (qed_quantum_wipe
                    (qed_generate_quantum_key prim device key_id QED_KEY_LENGTH).device
                    key_id).device calls).key_count ∧
              (run_calls prim
                (qed_quantum_wipe
                  (qed_generate_quantum_key prim device key_id QED_KEY_LENGTH).device
                  key_id).device calls).quantum_keys.getD device.key_count zero_key =
                zero_key) := by
  obtain ⟨hinit, _⟩ := generate_success_initialized hres
  obtain ⟨hroom, hgen1, s, hs, hshort, hw⟩ := wipe_after_generate htab hfind hres
  have hin : device.key_count < device.quantum_keys.length := by rw [htab]; exact hroom
  have hsm : key_matches key_id s = false := by
    rcases hs with rfl | ⟨_, h⟩
    · exact key_matches_zero_key _
    · exact h
  rw [hw]
  refine ⟨by rw [hgen1], rfl, ?_, ?_⟩
  · intro hroom1
    have hf2 : find_key (device.quantum_keys.set device.key_count s) (device.key_count + 1)
        key_id = none := by
      rw [find_key_eq_none]
      intro j hj
      by_cases hjk : j = device.key_count
      · subst hjk; rw [getD_set_eq _ hin]; exact hsm
      · rw [getD_set_ne _ (Ne.symm hjk)]
        exact find_key_eq_none.mp hfind j (by omega)
    have hgen2 := @generate_new prim
      { device with
        quantum_keys := device.quantum_keys.set device.key_count s,
        key_count := device.key_count + 1 } key_id QED_KEY_LENGTH hinit (by decide) hf2 hroom1
    have hin1 : device.key_count + 1 < (device.quantum_keys.set device.key_count s).length := by
      rw [List.length_set, htab]; exact hroom1
    have hl : (final_hash prim device.hardware_sig 32).length = 32 := hsha _
    rw [hgen2, hgen1]
    refine ⟨rfl, rfl, rfl, ?_, ?_⟩
    · simp only [getD_set_eq _ hin1]
      rfl
    · simp only [getD_set_eq _ hin1]
      simp [new_key_slot, memcpy, QED_KEY_LENGTH, List.take_append_eq_append_take, hl]
  · intro hid
    have hz := hshort hid
    subst hz
    refine ⟨by simp, ?_⟩
    intro calls hcalls
    exact released_slot_run_calls ⟨Nat.lt_succ_self _, getD_set_eq _ hin⟩ calls hcalls

/-- Witness of C26: `"doc"` derived, wiped and derived again on the reference
device; slot 0 stays zero through `later_calls`. -/
theorem wipe_keeps_slot_taken_witness :
    (qed_quantum_wipe (qed_generate_quantum_key ref_prim ref_device doc QED_KEY_LENGTH).device
        doc).device.key_count = ref_device.key_count + 1 ∧
      (qed_generate_quantum_key ref_prim
        (qed_quantum_wipe (qed_generate_quantum_key ref_prim ref_device doc QED_KEY_LENGTH).device
          doc).device doc QED_KEY_LENGTH).out =
        (qed_generate_quantum_key ref_prim ref_device doc QED_KEY_LENGTH).out ∧
      (run_calls ref_prim
        (qed_quantum_wipe (qed_generate_quantum_key ref_prim ref_device doc QED_KEY_LENGTH).device
          doc).device later_calls).quantum_keys.getD ref_device.key_count zero_key = zero_key :=
  have h := wipe_keeps_slot_taken ref_prim ref_device doc ref_hash_length
    ref_device_table_length (find_key_of_no_active_key (ref_device_no_active_key doc) _)
    (by set_option maxRecDepth 1000000 in decide)
  ⟨h.2.1, (h.2.2.1 (by rw [ref_device_fresh.2.1]; decide)).2.1,
    ((h.2.2.2 (by decide)).2 later_calls (by decide)).2⟩

/-! ## Identifiers of 256 bytes or more -/

theorem getD_key_id_length {keys : List qed_quantum_key_t}
    (hids : ∀ k ∈ keys, k.key_id.length ≤ QED_MAX_KEY_ID_LENGTH - 1) (j : Nat) :
    (keys.getD j zero_key).key_id.length ≤ QED_MAX_KEY_ID_LENGTH - 1 := by
  by_cases hj : j < keys.length
  · have hmem : keys.getD j zero_key ∈ keys := by
      simp [List.getD_eq_getElem?_getD, List.getElem?_eq_getElem hj]
    exact hids _ hmem
  · simp [List.getD_eq_getElem?_getD, List.getElem?_eq_none (Nat.le_of_not_lt hj), zero_key]

/-- No slot holds an identifier of 256 bytes or more, so the lookup loop does
not find one. -/
theorem find_key_over_long {keys : List qed_quantum_key_t} {key_id : List Nat}
    (hids : ∀ k ∈ keys, k.key_id.length ≤ QED_MAX_KEY_ID_LENGTH - 1)
    (hlong : QED_MAX_KEY_ID_LENGTH ≤ key_id.length) (n : Nat) :
    find_key keys n key_id = none := by
  rw [find_key_eq_none]
  intro j _
  have hl := getD_key_id_length hids j
  simp only [key_matches, Bool.and_eq_false_imp, beq_eq_false_iff_ne, ne_eq]
  intro _ heq
  rw [heq] at hl
  simp only [QED_MAX_KEY_ID_LENGTH] at hl hlong
  omega

theorem key_ids_after_generate {prim : Primitives} {device : qed_device_t}
    (hids : ∀ k ∈ device.quantum_keys, k.key_id.length ≤ QED_MAX_KEY_ID_LENGTH - 1)
    (key_id : List Nat) (key_length : Nat) :
    ∀ k ∈ (qed_generate_quantum_key prim device key_id key_length).device.quantum_keys,
      k.key_id.length ≤ QED_MAX_KEY_ID_LENGTH - 1 := by
  by_cases hlen : key_length = 0
  · subst hlen; rw [generate_zero_length]; exact hids
  by_cases hinit : device.initialized = true
  · cases hfind : find_key device.quantum_keys device.key_count key_id with
    | some i => rw [generate_found hinit hlen hfind]; exact hids
    | none =>
      by_cases hroom : device.key_count < QED_MAX_KEYS
      · rw [generate_new hinit hlen hfind hroom]
        intro k hk
        rcases List.mem_or_eq_of_mem_set hk with hmem | rfl
        · exact hids k hmem
        · simp only [new_key_slot, List.length_take]
          exact Nat.min_le_left _ _
      · rw [generate_limit hinit hlen hfind (Nat.le_of_not_lt hroom)]; exact hids
  · rw [generate_uninitialized hlen (by simpa using hinit)]; exact hids

/-- Claim C27 (over-long identifiers).  On an initialized device whose slots
hold identifiers of at most 255 bytes, for an identifier of 256 bytes or more
and a key length from 1 on whose `key_length * 2` resonance bytes and the noise
string fit the 1024 bytes of `hash_input` (as the 32 bytes the cipher engine
asks for do): the lookup finds nothing; a derivation succeeds exactly when
`key_count` is below 1024, and then stores the first 255 bytes of the
identifier in the active slot at index `key_count` and increments `key_count`;
two derivations leave two active slots with that same stored identifier; and
`qed_quantum_wipe` with the identifier returns `QED_ERROR_KEY_NOT_FOUND`,
before and after the derivations. -/
theorem over_long_identifier (prim : Primitives) (device : qed_device_t)
    (key_id : List Nat) (key_length : Nat)
    (hinit : device.initialized = true)
    (htab : device.quantum_keys.length = QED_MAX_KEYS)
    (hids : ∀ k ∈ device.quantum_keys, k.key_id.length ≤ QED_MAX_KEY_ID_LENGTH - 1)
    (hlong : QED_MAX_KEY_ID_LENGTH ≤ key_id.length) (hlen : key_length ≠ 0)
    (_hfit : key_length * 2 + device.hardware_sig.quantum_noise.length ≤ 1024) :
    find_key device.quantum_keys device.key_count key_id = none ∧
      ((qed_generate_quantum_key prim device key_id key_length).result = QED_SUCCESS ↔
        device.key_count < QED_MAX_KEYS) ∧
      (device.key_count < QED_MAX_KEYS →
        (qed_generate_quantum_key prim device key_id key_length).device.key_count =
            device.key_count + 1 ∧
          ((qed_generate_quantum_key prim device key_id key_length).device.quantum_keys.getD
              device.key_count zero_key).key_id = key_id.take 255 ∧
          ((qed_generate_quantum_key prim device key_id key_length).device.quantum_keys.getD
              device.key_count zero_key).in_use = true ∧
          ∀ j, j ≠ device.key_count →
            (qed_generate_quantum_key prim device key_id key_length).device.quantum_keys.getD
                j zero_key = device.quantum_keys.getD j zero_key) ∧
      (device.key_count + 2 ≤ QED_MAX_KEYS →
        (qed_generate_quantum_key prim
            (qed_generate_quantum_key prim device key_id key_length).device key_id
            key_length).result = QED_SUCCESS ∧
          (qed_generate_quantum_key prim
            (qed_generate_quantum_key prim device key_id key_length).device key_id
            key_length).device.key_count = device.key_count + 2 ∧
          ∀ j, j = device.key_count ∨ j = device.key_count + 1 →
            ((qed_generate_quantum_key prim
                (qed_generate_quantum_key prim device key_id key_length).device key_id
                key_length).device.quantum_keys.getD j zero_key).key_id = key_id.take 255 ∧
              ((qed_generate_quantum_key prim
                (qed_generate_quantum_key prim device key_id key_length).device key_id
                key_length).device.quantum_keys.getD j zero_key).in_use = true) ∧
      qed_quantum_wipe device key_id = ⟨QED_ERROR_KEY_NOT_FOUND, none, device⟩ ∧
      (qed_quantum_wipe (qed_generate_quantum_key prim device key_id key_length).device
        key_id).result = QED_ERROR_KEY_NOT_FOUND ∧
      (qed_quantum_wipe
        (qed_generate_quantum_key prim
          (qed_generate_quantum_key prim device key_id key_length).device key_id
          key_length).device key_id).result = QED_ERROR_KEY_NOT_FOUND := by
  have hfind := @find_key_over_long device.quantum_keys key_id hids hlong device.key_count
  have hwipe : ∀ d : qed_device_t,
      (∀ k ∈ d.quantum_keys, k.key_id.length ≤ QED_MAX_KEY_ID_LENGTH - 1) →
      qed_quantum_wipe d key_id = ⟨QED_ERROR_KEY_NOT_FOUND, none, d⟩ := by
    intro d hd
    simp [qed_quantum_wipe, @find_key_over_long d.quantum_keys key_id hd hlong d.key_count]
  have hids1 := @key_ids_after_generate prim device hids key_id key_length
  have hids2 := @key_ids_after_generate prim
    (qed_generate_quantum_key prim device key_id key_length).device hids1 key_id key_length
  have hnew : device.key_count < QED_MAX_KEYS →
      qed_generate_quantum_key prim device key_id key_length =
        ⟨QED_SUCCESS,
          some ((final_hash prim device.hardware_sig key_length).take
            (if key_length > QED_KEY_LENGTH then QED_KEY_LENGTH else key_length)),
          { device with
            quantum_keys :=
              device.quantum_keys.set device.key_count
                (new_key_slot prim device key_id key_length),
            key_count := device.key_count + 1 }⟩ :=
    fun hroom => generate_new hinit hlen hfind hroom
  refine ⟨hfind, ?_, ?_, ?_, hwipe device hids, by rw [hwipe _ hids1], by rw [hwipe _ hids2]⟩
  · constructor
    · intro hres
      by_contra hroom
      rw [generate_limit hinit hlen hfind (Nat.le_of_not_lt hroom)] at hres
      cases hres
    · intro hroom
      rw [hnew hroom]
  · intro hroom
    have hin : device.key_count < device.quantum_keys.length := by rw [htab]; exact hroom
    rw [hnew hroom]
    refine ⟨rfl, ?_, ?_, ?_⟩
    · show ((device.quantum_keys.set device.key_count _).getD device.key_count zero_key).key_id = _
      rw [getD_set_eq _ hin]; rfl
    · show ((device.quantum_keys.set device.key_count _).getD device.key_count zero_key).in_use = _
      rw [getD_set_eq _ hin]; rfl
    · intro j hj
      exact getD_set_ne _ (Ne.symm hj)
  · intro hroom2
    have hroom : device.key_count < QED_MAX_KEYS := by omega
    have hin : device.key_count < device.quantum_keys.length := by rw [htab]; exact hroom
    have h1 := hnew hroom
    have hfind1 := @find_key_over_long
      (qed_generate_quantum_key prim device key_id key_length).device.quantum_keys key_id
      hids1 hlong (qed_generate_quantum_key prim device key_id key_length).device.key_count
    have hinit1 : (qed_generate_quantum_key prim device key_id key_length).device.initialized =
        true := by rw [(generate_frame prim device key_id key_length).2.1]; exact hinit
    have hcount1 : (qed_generate_quantum_key prim device key_id key_length).device.key_count =
        device.key_count + 1 := by rw [h1]
    have hroom1 : (qed_generate_quantum_key prim device key_id key_length).device.key_count <
        QED_MAX_KEYS := by rw [hcount1]; omega
    have h2 := @generate_new prim _ key_id key_length hinit1 hlen hfind1 hroom1
    have hkeys1 : (qed_generate_quantum_key prim device key_id key_length).device.quantum_keys =
        device.quantum_keys.set device.key_count (new_key_slot prim device key_id key_length) := by
      rw [h1]
    have hin1 : device.key_count + 1 <
        (device.quantum_keys.set device.key_count
          (new_key_slot prim device key_id key_length)).length := by
      rw [List.length_set, htab]; omega
    rw [h2]
    refine ⟨rfl, by simp only [hcount1], ?_⟩
    intro j hj
    simp only [hkeys1, hcount1]
    rcases hj with rfl | rfl
    · rw [getD_set_ne _ (by omega), getD_set_eq _ hin]
      exact ⟨rfl, rfl⟩
    · rw [getD_set_eq _ hin1]
      exact ⟨rfl, rfl⟩

/-- Witness of C27: the 256-byte identifier `long_id` on the reference
device, at key length 32. -/
theorem over_long_identifier_witness :
    find_key ref_device.quantum_keys ref_device.key_count long_id = none ∧
      qed_quantum_wipe ref_device long_id = ⟨QED_ERROR_KEY_NOT_FOUND, none, ref_device⟩ ∧
      (qed_quantum_wipe (qed_generate_quantum_key ref_prim ref_device long_id 32).device
        long_id).result = QED_ERROR_KEY_NOT_FOUND :=
  have h := over_long_identifier ref_prim ref_device long_id 32 ref_device_fresh.1
    ref_device_table_length
    (by
      intro k hk
      rw [ref_device_fresh.2.2] at hk
      rw [List.eq_of_mem_replicate hk]
      simp [zero_key])
    (by rw [long_id, List.length_replicate]; decide) (by decide)
    (by set_option maxRecDepth 100000 in decide)
  ⟨h.1, h.2.2.2.2.1, h.2.2.2.2.2.1⟩

/-! ## A key cached at a shorter length -/

/-- Counterexample to C28 as stated (every id): on the reference device the
256-byte identifier `long_id` is derived at 16 bytes and then at 32 bytes.  The
second call does not find the stored 255-byte identifier: it returns the
32-byte digest of a first derivation at 32, not 16 digest bytes of the
derivation at 16 followed by 16 zero bytes. -/
theorem long_id_not_cached :
    (qed_generate_quantum_key ref_prim ref_device long_id 16).result = QED_SUCCESS ∧
      (qed_generate_quantum_key ref_prim long_id_device long_id 32).result = QED_SUCCESS ∧
      (qed_generate_quantum_key ref_prim long_id_device long_id 32).out =
        some (ref_prim.SHA256
          ((qed_generate_hardware_resonance ref_prim ref_device.hardware_sig 64).2 ++
            ref_device.hardware_sig.quantum_noise)) ∧
      (qed_generate_quantum_key ref_prim long_id_device long_id 32).out ≠
        some ((ref_prim.SHA256
          ((qed_generate_hardware_resonance ref_prim ref_device.hardware_sig 32).2 ++
            ref_device.hardware_sig.quantum_noise)).take 16 ++ List.replicate 16 0) := by
  set_option maxRecDepth 1000000 in decide

/-- On a device with an empty table: the slot a derivation at `k < 32` stores,
and what a derivation at 32 then returns. -/
theorem cached_after_short (prim : Primitives) (device : qed_device_t) (key_id : List Nat)
    (k : Nat) (hsha : ∀ d, (prim.SHA256 d).length = 32)
    (hi : device.initialized = true) (hc : device.key_count = 0)
    (ht : device.quantum_keys = List.replicate QED_MAX_KEYS zero_key)
    (hid : key_id.length ≤ QED_MAX_KEY_ID_LENGTH - 1) (hk0 : 0 < k) (hk : k < 32) :
    qed_generate_quantum_key prim device key_id k =
        ⟨QED_SUCCESS, some ((final_hash prim device.hardware_sig k).take k),
          { device with
            quantum_keys := device.quantum_keys.set 0 (new_key_slot prim device key_id k),
            key_count := 1 }⟩ ∧
      qed_generate_quantum_key prim
          { device with
            quantum_keys := device.quantum_keys.set 0 (new_key_slot prim device key_id k),
            key_count := 1 } key_id 32 =
        ⟨QED_SUCCESS,
          some ((final_hash prim device.hardware_sig k).take k ++ List.replicate (32 - k) 0),
          { device with
            quantum_keys := device.quantum_keys.set 0 (new_key_slot prim device key_id k),
            key_count := 1 }⟩ := by
  have hfind : find_key device.quantum_keys device.key_count key_id = none := by
    rw [hc]
    exact find_key_eq_none.mpr (fun j hj => absurd hj (Nat.not_lt_zero j))
  have hroom : device.key_count < QED_MAX_KEYS := by rw [hc]; decide
  have hcopy : (if k > QED_KEY_LENGTH then QED_KEY_LENGTH else k) = k := by
    simp only [QED_KEY_LENGTH]
    rw [if_neg (by omega)]
  have hgen := @generate_new prim device key_id k hi (by omega) hfind hroom
  rw [hcopy, hc] at hgen
  have hslot : (new_key_slot prim device key_id k).key_data =
      (final_hash prim device.hardware_sig k).take k ++ List.replicate (32 - k) 0 := by
    simp only [new_key_slot, hcopy, memcpy, ht, hc]
    rw [getD_replicate_zero_key]
    show _ ++ (List.replicate 32 0).drop k = _
    rw [List.drop_replicate]
  have hl : (final_hash prim device.hardware_sig k).length = 32 := hsha _
  have h0 : 0 < device.quantum_keys.length := by
    rw [ht, List.length_replicate]; decide
  have hfound : find_key (device.quantum_keys.set 0 (new_key_slot prim device key_id k)) 1
      key_id = some 0 := by
    rw [find_key_eq_some]
    refine ⟨by decide, ?_, fun j hj => absurd hj (Nat.not_lt_zero j)⟩
    rw [getD_set_eq _ h0]
    simp [key_matches, new_key_slot, take_of_short hid]
  refine ⟨hgen, ?_⟩
  rw [@generate_found prim
    { device with
      quantum_keys := device.quantum_keys.set 0 (new_key_slot prim device key_id k),
      key_count := 1 } key_id 32 0 hi (by decide) hfound]
  have hlen : ((final_hash prim device.hardware_sig k).take k ++
      List.replicate (32 - k) 0).length ≤ 32 := by
    rw [List.length_append, List.length_take, List.length_replicate, hl]
    omega
  simp only [getD_set_eq _ h0, hslot, QED_KEY_LENGTH, gt_iff_lt, Nat.lt_irrefl, if_false]
  rw [List.take_of_length_le hlen]

/-- Claim C28, as amended to identifiers of at most 255 bytes: on the device
`qed_init` leaves, a derivation at length `k` with `0 < k < 32` followed by a
derivation of the same identifier at length 32 makes the second call return
the stored slot, the first `k` bytes of
`SHA256(generate(signature, 2k) || quantum_noise)` followed by `32 - k` zero
bytes, with the device unchanged; a first derivation at length 32 returns
`SHA256(generate(signature, 64) || quantum_noise)`. -/
theorem cached_key_by_first_length (prim : Primitives) (cpu_mhz : Option Nat)
    (info : Option (Nat × Nat)) (key_id : List Nat) (k : Nat)
    (hsha : ∀ d, (prim.SHA256 d).length = 32)
    (hinit : (qed_init prim cpu_mhz info).result = QED_SUCCESS)
    (hid : key_id.length ≤ QED_MAX_KEY_ID_LENGTH - 1) (hk0 : 0 < k) (hk : k < 32) :
    (qed_generate_quantum_key prim (qed_init prim cpu_mhz info).device key_id k).result =
        QED_SUCCESS ∧
      (qed_generate_quantum_key prim (qed_init prim cpu_mhz info).device key_id k).out =
        some ((prim.SHA256
          ((qed_generate_hardware_resonance prim
              (qed_init prim cpu_mhz info).device.hardware_sig (k * 2)).2 ++
            (qed_init prim cpu_mhz info).device.hardware_sig.quantum_noise)).take k) ∧
      qed_generate_quantum_key prim
          (qed_generate_quantum_key prim (qed_init prim cpu_mhz info).device key_id k).device
          key_id 32 =
        ⟨QED_SUCCESS,
          some ((prim.SHA256
            ((qed_generate_hardware_resonance prim
                (qed_init prim cpu_mhz info).device.hardware_sig (k * 2)).2 ++
              (qed_init prim cpu_mhz info).device.hardware_sig.quantum_noise)).take k ++
            List.replicate (32 - k) 0),
          (qed_generate_quantum_key prim (qed_init prim cpu_mhz info).device key_id
            k).device⟩ ∧
      (qed_generate_quantum_key prim (qed_init prim cpu_mhz info).device key_id 32).out =
        some (prim.SHA256
          ((qed_generate_hardware_resonance prim
              (qed_init prim cpu_mhz info).device.hardware_sig 64).2 ++
            (qed_init prim cpu_mhz info).device.hardware_sig.quantum_noise)) := by
  obtain ⟨hi, hc, ht⟩ := qed_init_success hinit
  obtain ⟨h1, h2⟩ := cached_after_short prim _ key_id k hsha hi hc ht hid hk0 hk
  have hfind : find_key (qed_init prim cpu_mhz info).device.quantum_keys
      (qed_init prim cpu_mhz info).device.key_count key_id = none := by
    rw [hc]
    exact find_key_eq_none.mpr (fun j hj => absurd hj (Nat.not_lt_zero j))
  have hgen32 := @generate_new prim _ key_id 32 hi (by decide) hfind (by rw [hc]; decide)
  have hl32 : (final_hash prim (qed_init prim cpu_mhz info).device.hardware_sig 32).length =
      32 := hsha _
  refine ⟨by rw [h1], by rw [h1]; rfl, ?_, ?_⟩
  · rw [h1]
    exact h2
  · rw [hgen32]
    simp only [QED_KEY_LENGTH, gt_iff_lt, Nat.lt_irrefl, if_false]
    rw [List.take_of_length_le (by rw [hl32])]
    rfl

/-- Witness of C28 (amended): `"alpha"` derived at 16 and then at 32 bytes on
the reference device. -/
theorem cached_key_by_first_length_witness :
    qed_generate_quantum_key ref_prim alpha_device alpha 32 =
      ⟨QED_SUCCESS,
        some ((ref_prim.SHA256
          ((qed_generate_hardware_resonance ref_prim ref_device.hardware_sig (16 * 2)).2 ++
            ref_device.hardware_sig.quantum_noise)).take 16 ++ List.replicate (32 - 16) 0),
        alpha_device⟩ :=
  (cached_key_by_first_length ref_prim none (some (16000000000, 8000000000)) alpha 16
    ref_hash_length rfl (by decide) (by decide) (by decide)).2.2.1

end QED
